import Mathlib

/-! ecs-task-tracker: routing-store client and reconciliation engine

A shallow embedding of `src/utils/{dynamodb,utils,ecs,ec2}.go`.

* Go `error` values are modelled by their `Error()` text (`GoError`): the code
  itself tells failures apart with `strings.Contains(err.Error(), ...)`.
* Go maps `map[string]types.Server` are association lists with distinct keys
  (`AList`), wrapped in `Option` for the nil map.
* The DynamoDB table is state that is passed explicitly (`Db`), together with
  a schedule of what the environment does around every call (transport
  failures, writes of other clients) and a log of the calls made.
* The ECS and EC2 clients are read-only answers (`Util.ECS`, `Util.EC2`); the
  two process-wide caches and a log of the inventory calls form `Inventory`.
-/

namespace EcsTaskTracker

/-! ## Go strings and errors -/

/-- Substring test on character lists, the work of `strings.Contains`. -/
def containsChars (substr : List Char) : List Char → Bool
  | [] => substr.isEmpty
  | c :: cs => substr.isPrefixOf (c :: cs) || containsChars substr cs

/-- Go `strings.Contains(s, substr)`. -/
def Contains (s substr : String) : Bool :=
  containsChars substr.toList s.toList

/-- Go `strconv.Itoa` / `strconv.FormatInt(i, 10)`. -/
def Itoa (i : Int) : String :=
  toString i

/-- A Go `error`: `none` is `nil`, `some text` an error whose `Error()` is `text`. -/
abbrev GoError := Option String

/-- The text of `errors.Wrap(err, message)` for a non-nil `err` with text `e`. -/
def wrapText (e message : String) : String :=
  message ++ ": " ++ e

/-- The `errors.Wrap(err, message)` of `github.com/pkg/errors`: nil stays nil. -/
def Wrap (err : GoError) (message : String) : GoError :=
  err.map (fun e => wrapText e message)

/-- ErrItemNotFound is thrown when an item isn't found in the database. -/
def ErrItemNotFound : String := "ItemNotFound"

/-- ErrNoNetworkBindings is thrown when there are not network bindings attached to a task. -/
def ErrNoNetworkBindings : String := "NoNetworkBindings"

/-- The constant `dynamodb.ErrCodeConditionalCheckFailedException`. -/
def ErrCodeConditionalCheckFailedException : String := "ConditionalCheckFailedException"

/-! ## Data model -/

/-- The `types.Server` of traefik: one server of a backend. -/
structure Server where
  URL : String
  Weight : Int
deriving DecidableEq, Repr

/-- A non-nil Go `map[string]types.Server`: distinct keys, each with one server. -/
abbrev ServerMap := AList (fun _ : String => Server)

instance instDecidableEqServerMap : DecidableEq ServerMap :=
  fun a b => decidable_of_iff (a.entries = b.entries)
    ⟨fun h => AList.ext h, fun h => congrArg AList.entries h⟩

/-- The fields of traefik's `types.Backend` other than `Servers`: routing
configuration that an operator may set in the table. The program never reads
them; each is nil (`none`) or an uninterpreted payload. -/
structure RouteConfig where
  CircuitBreaker : Option String
  LoadBalancer : Option String
  MaxConn : Option String
  HealthCheck : Option String
deriving DecidableEq, Repr

/-- The `types.Backend` of traefik; `Servers = none` is the nil map. -/
structure Backend where
  Servers : Option ServerMap
  Config : RouteConfig
deriving DecidableEq

/-- The zero value `types.Backend{}`. -/
def Backend.zero : Backend :=
  ⟨none, ⟨none, none, none, none⟩⟩

/-- EndItem is a backend or frontend that will be marshalled into a dynamodb item. -/
structure EndItem where
  ID : String
  Name : String
  Version : Nat
deriving DecidableEq, Repr

/-- BackendItem will be marshaled into dynamodb item (`EndItem` is embedded). -/
structure BackendItem extends EndItem where
  Backend : Backend
deriving DecidableEq

/-- Go `m[key]` with the comma-ok idiom, on a possibly nil map. -/
def mapLookup (m : Option ServerMap) (key : String) : Option Server :=
  match m with
  | none => none
  | some s => s.lookup key

/-- Go `len(m)` on a possibly nil map. -/
def mapLen (m : Option ServerMap) : Nat :=
  match m with
  | none => 0
  | some s => s.entries.length

/-- Go `delete(m, key)`: a no-op on the nil map. -/
def mapDelete (m : Option ServerMap) (key : String) : Option ServerMap :=
  m.map (fun s => s.erase key)

/-- Go `reflect.DeepEqual` on two `map[string]types.Server`: both nil or both
non-nil, of the same length, and every key of the first maps to an equal value
in the second. -/
def DeepEqual (a b : Option ServerMap) : Bool :=
  match a, b with
  | none, none => true
  | some x, some y =>
    x.entries.length == y.entries.length &&
      x.entries.all (fun e => y.lookup e.1 == some e.2)
  | _, _ => false

/-- Creates a types.Backend given a []string of addresses (ip:port). -/
def createBackend (addresses : List String) : Backend :=
  if addresses.length = 0 then Backend.zero
  else
    { Servers := some (addresses.foldl
        (fun servers addr => servers.insert addr ⟨"http://" ++ addr, 0⟩) ∅),
      Config := Backend.zero.Config }

/-- Creates a BackendItem given the name of the backend and the types.Backend. -/
def createBackendItem (name : String) (backend : Backend) : BackendItem :=
  { Backend := backend, ID := name ++ "__backend", Name := name, Version := 0 }

/-- Adds the servers from backend to backendItems servers. -/
def updateBackendItemServers (backendItem : BackendItem) (backend : Backend) : BackendItem :=
  let servers : ServerMap :=
    match backendItem.Backend.Servers with
    | none => ∅
    | some s => s
  let merged :=
    match backend.Servers with
    | none => servers
    | some d => d.entries.foldl (fun acc e => acc.insert e.1 e.2) servers
  { backendItem with Backend := { backendItem.Backend with Servers := some merged } }

/-! ## The routing table (DynamoDB) -/

/-- An item of the table as DynamoDB holds it, without its primary key `id`.
`unmarshalErr` is the error `dynamodbattribute.UnmarshalMap` reports for the
item (`none` for an item that decodes into a `BackendItem`). The version is a
DynamoDB number, a natural number here; the Go field is `Version uint64`, so an
item that decodes has a version below 2^64. -/
structure Item where
  name : String
  version : Nat
  backend : Backend
  unmarshalErr : Option String
deriving DecidableEq

/-- The table: at most one item for every value of the primary key `id`. -/
abbrev Store := String → Option Item

/-- The table after a write to the item with key `id`. -/
def Store.set (s : Store) (id : String) (item : Item) : Store :=
  fun k => if k = id then some item else s k

/-- What the environment does around one call of the table's API: the writes
other clients commit before the call is served, and the transport or service
failure (if any) the call returns instead of being served. -/
structure Tick where
  interfere : Store → Store
  fault : Option String

/-- Nobody else writes and the call is served. -/
def Tick.quiet : Tick :=
  ⟨fun s => s, none⟩

/-- The output of `GetItem`: an item, an empty output, or an error. -/
inductive GetOutput where
  | item (i : Item)
  | empty
  | err (msg : String)
deriving DecidableEq

/-- One call of the table's API with its result. -/
inductive StoreCall where
  | GetItem (id : String) (out : GetOutput)
  | PutItem (id : String) (item : Item) (err : GoError)
  | UpdateItem (id : String) (version : Nat) (backend : Backend) (err : GoError)
deriving DecidableEq

/-- The table, what the environment will do around the coming calls (a quiet
tick once the schedule is used up), and the calls made so far, oldest first. -/
structure Db where
  store : Store
  sched : List Tick
  log : List StoreCall

/-- The tick that governs the next call. -/
def Db.tick (db : Db) : Tick :=
  db.sched.headD Tick.quiet

/-- The table as the next call finds it. -/
def Db.seen (db : Db) : Store :=
  db.tick.interfere db.store

/-- The text of the error DynamoDB returns when a condition expression fails. -/
def conditionalCheckFailed : String :=
  ErrCodeConditionalCheckFailedException ++ ": The conditional request failed"

/-- The DynamoDB call `GetItem` as `getItem` issues it (key `id`, consistent
read): the error of a failed call, or the item under the key, or an empty
output. The table is left as the call found it. -/
def GetItem (db : Db) (id : String) : GetOutput × Db :=
  let out : GetOutput :=
    match db.tick.fault with
    | some m => .err m
    | none =>
      match db.seen id with
      | some i => .item i
      | none => .empty
  (out, { store := db.seen, sched := db.sched.tail, log := db.log ++ [.GetItem id out] })

/-- The DynamoDB call `PutItem` as `createBackendDynamoDB` issues it, without a
condition: unless the call fails, the item replaces whatever is under its key. -/
def PutItem (db : Db) (id : String) (item : Item) : GoError × Db :=
  let store : Store :=
    match db.tick.fault with
    | some _ => db.seen
    | none => db.seen.set id item
  (db.tick.fault,
    { store := store, sched := db.sched.tail, log := db.log ++ [.PutItem id item db.tick.fault] })

/-- The result of the update `SET #v = #v + :one, #b = :b` under the condition
`#v = :v` on the table `s`: the error and the table afterwards. The condition
fails on a missing item and on an item whose version is not `version`; then
nothing is written. The table raises the version whatever it is: raised from
2^64 - 1 the item no longer fits `Version uint64`, which `unmarshalErr` does not
follow, so a statement about a read after a write asks for a version below
2^64 - 1 before the write. -/
def conditionalUpdate (s : Store) (id : String) (version : Nat) (backend : Backend) :
    GoError × Store :=
  match s id with
  | none => (some conditionalCheckFailed, s)
  | some i =>
    if i.version = version then
      (none, s.set id { i with version := i.version + 1, backend := backend })
    else (some conditionalCheckFailed, s)

/-- The DynamoDB call `UpdateItem` as `updateBackendWithLock` issues it: key
`id`, ConditionExpression `#v = :v` and UpdateExpression
`SET #v = #v + :one, #b = :b`, with `#v` the attribute `version` and `#b` the
attribute `backend`. -/
def UpdateItem (db : Db) (id : String) (version : Nat) (backend : Backend) : GoError × Db :=
  let res : GoError × Store :=
    match db.tick.fault with
    | some m => (some m, db.seen)
    | none => conditionalUpdate db.seen id version backend
  (res.1,
    { store := res.2, sched := db.sched.tail,
      log := db.log ++ [.UpdateItem id version backend res.1] })

/-! ## `dynamodb.go` -/

/-- GetItem gets an item from a dynamodb table (`primaryKey` is always `"id"`). -/
def getItem (db : Db) (value : String) : Except String Item × Db :=
  match GetItem db value with
  | (.err m, db1) => (.error (wrapText m "dynamodb.GetItem()"), db1)
  | (.empty, db1) => (.error ErrItemNotFound, db1)
  | (.item i, db1) => (.ok i, db1)

/-- GetBackend gest the backend. -/
def getBackendItem (db : Db) (backendName : String) : Except String BackendItem × Db :=
  match getItem db (backendName ++ "__backend") with
  | (.error e, db1) => (.error (wrapText e ("getItem(id, " ++ backendName ++ ")")), db1)
  | (.ok item, db1) =>
    match item.unmarshalErr with
    | some m => (.error (wrapText m "dynamodbattribute.UnmarshalMap()"), db1)
    | none =>
      (.ok { Backend := item.backend, ID := backendName ++ "__backend", Name := item.name,
             Version := item.version }, db1)

/-- The `getBackend` of `dynamodb.go`: the Go pair `(types.Backend, error)`. -/
def getBackend (db : Db) (name : String) : (Backend × GoError) × Db :=
  match getBackendItem db name with
  | (.error e, db1) => ((Backend.zero, some (wrapText e ("getBackendItem(" ++ name ++ ")"))), db1)
  | (.ok item, db1) => ((item.Backend, none), db1)

/-- UpdateBackendWithLock updates the item with a lock (marshalling a
`types.Backend` is taken not to fail). -/
def updateBackendWithLock (db : Db) (endItem : BackendItem) : GoError × Db :=
  match UpdateItem db endItem.ID endItem.Version endItem.Backend with
  | (err, db1) => (Wrap err "dynamodb.UpdateItem()", db1)

/-- CreateBackendDynamoDB creates a backend item in dynamodb. -/
def createBackendDynamoDB (db : Db) (_name : String) (backend : BackendItem) : GoError × Db :=
  match PutItem db backend.ID ⟨backend.Name, backend.Version, backend.Backend, none⟩ with
  | (err, db1) => (Wrap err "dynamodb.PutItem()", db1)

/-- The record `updateBackendDynamoDB` sends to `updateBackendWithLock`. -/
def updatedBackend (backend : BackendItem) (traefikBackend : Backend)
    (overwriteServers : Bool) : BackendItem :=
  if overwriteServers then
    { backend with Backend := { backend.Backend with Servers := traefikBackend.Servers } }
  else updateBackendItemServers backend traefikBackend

/-- How one iteration of a retry loop ends: the function returns `err` (`done`),
or the next iteration starts with the variable `err` holding an error of text
`e` (`again`). -/
inductive Attempt where
  | done (err : GoError)
  | again (e : String)
deriving DecidableEq

/-- The body of the `for` loop of `updateBackendDynamoDB`; its `break` is
followed by the `return errors.Wrap(err, "tried to update ... times")` that ends
the function. -/
def updateBackendAttempt (MaxTries : Int) (backendName : String) (traefikBackend : Backend)
    (overwriteServers : Bool) (db : Db) : Attempt × Db :=
  match getBackendItem db backendName with
  | (.error e, db1) =>
    if Contains e ErrItemNotFound then
      match createBackendDynamoDB db1 backendName
          (createBackendItem backendName traefikBackend) with
      | (err, db2) => (.done err, db2)
    else (.done (some (wrapText e ("getBackendItem(" ++ backendName ++ ")"))), db1)
  | (.ok backend, db1) =>
    match updateBackendWithLock db1 (updatedBackend backend traefikBackend overwriteServers) with
    | (none, db2) => (.done none, db2)
    | (some e, db2) =>
      if !Contains e ErrCodeConditionalCheckFailedException then
        (.done (Wrap (some e) ("tried to update " ++ Itoa MaxTries ++ " times")), db2)
      else (.again e, db2)

/-- The `for i := 0; i < util.MaxTries; i++` loop of `updateBackendDynamoDB` and
the `return` after it: `tries` iterations are left and `err` is the variable
`err` of the function. -/
def updateBackendLoop (MaxTries : Int) (backendName : String) (traefikBackend : Backend)
    (overwriteServers : Bool) : Nat → GoError → Db → GoError × Db
  | 0, err, db => (Wrap err ("tried to update " ++ Itoa MaxTries ++ " times"), db)
  | tries + 1, _, db =>
    match updateBackendAttempt MaxTries backendName traefikBackend overwriteServers db with
    | (.done err, db1) => (err, db1)
    | (.again e, db1) =>
      updateBackendLoop MaxTries backendName traefikBackend overwriteServers tries (some e) db1

/-- UpdateBackendDynamoDB updates the backend. If it doesn't exist it is created.
It will attempt as many times as MaxTries if the version is off. -/
def updateBackendDynamoDB (MaxTries : Int) (db : Db) (backendName : String)
    (traefikBackend : Backend) (overwriteServers : Bool) : GoError × Db :=
  updateBackendLoop MaxTries backendName traefikBackend overwriteServers MaxTries.toNat none db

/-- The record `removeServerFromBackendDynamoDB` sends to `updateBackendWithLock`:
`delete(backend.Backend.Servers, portIP)`. -/
def removedServer (backend : BackendItem) (portIP : String) : BackendItem :=
  { backend with
    Backend := { backend.Backend with Servers := mapDelete backend.Backend.Servers portIP } }

/-- The body of the `for` loop of `removeServerFromBackendDynamoDB`. -/
def removeServerAttempt (backendName portIP : String) (db : Db) : Attempt × Db :=
  match getBackendItem db backendName with
  | (.error e, db1) => (.done (some (wrapText e ("getBackendItem(" ++ backendName ++ ")"))), db1)
  | (.ok backend, db1) =>
    match updateBackendWithLock db1 (removedServer backend portIP) with
    | (none, db2) => (.done none, db2)
    | (some e, db2) =>
      if !Contains e ErrCodeConditionalCheckFailedException then
        (.done (some (wrapText e "updateBackendWithLock()")), db2)
      else (.again e, db2)

/-- The loop of `removeServerFromBackendDynamoDB` and the `return err` after it. -/
def removeServerLoop (backendName portIP : String) : Nat → GoError → Db → GoError × Db
  | 0, err, db => (err, db)
  | tries + 1, _, db =>
    match removeServerAttempt backendName portIP db with
    | (.done err, db1) => (err, db1)
    | (.again e, db1) => removeServerLoop backendName portIP tries (some e) db1

/-- RemoveServerFromBackendDynamoDB removes a server from a backend. -/
def removeServerFromBackendDynamoDB (MaxTries : Int) (db : Db) (backendName portIP : String) :
    GoError × Db :=
  removeServerLoop backendName portIP MaxTries.toNat none db

/-! ## The cluster inventory (ECS and EC2) -/

/-- An `ecs.NetworkBinding`, and the `NetworkBinding` of an event: the host port
of one binding. -/
structure NetworkBinding where
  HostPort : Int
deriving DecidableEq, Repr

/-- An `ecs.Container`, and the `Container` of an event: its network bindings. -/
structure Container where
  NetworkBindings : List NetworkBinding
deriving DecidableEq, Repr

/-- An `ecs.Task` as `DescribeTasks` returns it. -/
structure Task where
  TaskArn : String
  ContainerInstanceArn : String
  Containers : List Container
deriving DecidableEq, Repr

/-- An `ecs.ContainerInstance` as `DescribeContainerInstances` returns it. Both
fields are pointers in the SDK, dereferenced by `getInstanceIDs` and `getIP`
without a nil check; they are taken to be set. -/
structure ContainerInstance where
  ContainerInstanceArn : String
  Ec2InstanceId : String
deriving DecidableEq, Repr

/-- An `ec2.Instance`: its private address, a pointer in the SDK that
`getInstancePrivateIP` dereferences without a nil check; it is taken to be set. -/
structure Instance where
  PrivateIpAddress : String
deriving DecidableEq, Repr

/-- An `ec2.Reservation`: its instances. -/
structure Reservation where
  Instances : List Instance
deriving DecidableEq, Repr

/-- A paginated listing of the service: the pages it returns, in order, and the
error (if any) of the request that follows them. Without an error the last of
the pages is the one delivered with `lastPage = true`. -/
structure Listing where
  pages : List (List String)
  err : GoError

/-- The answers of the ECS client (`ecsiface.ECSAPI`) for the configured cluster. -/
structure EcsApi where
  ListServicesPages : Listing
  ListTasksPages : Option String → Listing
  DescribeTasks : List String → Except String (List Task)
  DescribeContainerInstances : List String → Except String (List ContainerInstance)

/-- The answers of the EC2 client (`ec2iface.EC2API`). -/
structure Ec2Api where
  DescribeInstances : List String → Except String (List Reservation)

/-- Util holds global configuraton for the utils package. -/
structure Util where
  ECS : EcsApi
  EC2 : Ec2Api
  MaxTries : Int

/-- One call of the ECS or EC2 client. -/
inductive InventoryCall where
  | ListServicesPages
  | ListTasksPages (serviceName : Option String)
  | DescribeTasks (tasks : List String)
  | DescribeContainerInstances (containerInstances : List String)
  | DescribeInstances (instanceIds : List String)
deriving DecidableEq, Repr

/-- The two process-wide maps `arnToInstanceIDs` and `instancePrivateIPs`, and the
inventory calls made so far, oldest first. -/
structure Inventory where
  arnToInstanceIDs : String → Option String
  instancePrivateIPs : String → Option String
  calls : List InventoryCall

/-- Go `m[key] = value` on one of the two cache maps. -/
def cachePut (m : String → Option String) (key value : String) : String → Option String :=
  fun k => if k = key then some value else m k

/-- The result of a Go function returning `(value, error)` that may also panic. -/
inductive Outcome (α : Type) where
  | ok (a : α)
  | error (msg : String)
  | panic
deriving DecidableEq, Repr

/-- The pager behind the SDK's `...Pages` methods: `fn` is called once per page,
in order, with `lastPage`; paging stops as soon as `fn` returns false; the error
of the listing is returned when paging reaches it. -/
def eachPage {σ : Type} (fn : σ → List String → Bool → σ × Bool) :
    List (List String) → GoError → σ → σ × GoError
  | [], err, s => (s, err)
  | page :: rest, err, s =>
    match fn s page (rest.isEmpty && err.isNone) with
    | (s1, true) => eachPage fn rest err s1
    | (s1, false) => (s1, none)

/-- The `getInstanceIDs` of `ecs.go`: the Go pair `([]*string, error)`. -/
def getInstanceIDs (util : Util) (inv : Inventory) (containerInstanceARNS : List String) :
    (List String × GoError) × Inventory :=
  let instanceIDs := containerInstanceARNS.filterMap inv.arnToInstanceIDs
  let paramsArns := containerInstanceARNS.filter (fun arn => (inv.arnToInstanceIDs arn).isNone)
  if paramsArns.length < 1 then ((instanceIDs, none), inv)
  else
    let inv1 : Inventory :=
      { inv with calls := inv.calls ++ [.DescribeContainerInstances paramsArns] }
    match util.ECS.DescribeContainerInstances paramsArns with
    | .error e => ((instanceIDs, some (wrapText e "ecs.DescribeContainerInstances()")), inv1)
    | .ok instances =>
      ((instanceIDs ++ instances.map (fun i => i.Ec2InstanceId), none),
        { inv1 with
          arnToInstanceIDs := instances.foldl
            (fun cache ci =>
              if containerInstanceARNS.contains ci.ContainerInstanceArn then
                cachePut cache ci.ContainerInstanceArn ci.Ec2InstanceId
              else cache)
            inv1.arnToInstanceIDs })

/-- The `getInstanceID` of `ecs.go`; `instanceIDs[0]` panics on an empty list. -/
def getInstanceID (util : Util) (inv : Inventory) (ctrInstanceArn : String) :
    Outcome String × Inventory :=
  match getInstanceIDs util inv [ctrInstanceArn] with
  | ((_, some e), inv1) => (.error (wrapText e "getInstanceIDs()"), inv1)
  | (([], none), inv1) => (.panic, inv1)
  | ((instanceID :: _, none), inv1) => (.ok instanceID, inv1)

/-- GetInstancePrivateIP gets the private ip. -/
def getInstancePrivateIP (util : Util) (inv : Inventory) (instanceID : String) :
    Except String String × Inventory :=
  match inv.instancePrivateIPs instanceID with
  | some address => (.ok address, inv)
  | none =>
    let inv1 : Inventory := { inv with calls := inv.calls ++ [.DescribeInstances [instanceID]] }
    match util.EC2.DescribeInstances [instanceID] with
    | .error e => (.error (wrapText e "ec2.DescribeInstances()"), inv1)
    | .ok [] => (.error "not instances found", inv1)
    | .ok (reservation :: _) =>
      match reservation.Instances with
      | [] => (.error "not instances found", inv1)
      | inst :: _ =>
        (.ok inst.PrivateIpAddress,
          { inv1 with
            instancePrivateIPs :=
              cachePut inv1.instancePrivateIPs instanceID inst.PrivateIpAddress })

/-- The `getIP` of `utils.go`. -/
def getIP (util : Util) (inv : Inventory) (containerInstanceArn : String) :
    Outcome String × Inventory :=
  match getInstanceID util inv containerInstanceArn with
  | (.error e, inv1) => (.error (wrapText e "getInstanceID()"), inv1)
  | (.panic, inv1) => (.panic, inv1)
  | (.ok instanceID, inv1) =>
    match getInstancePrivateIP util inv1 instanceID with
    | (.error e, inv2) => (.error (wrapText e "getInstancePrivateIP()"), inv2)
    | (.ok ip, inv2) => (.ok ip, inv2)

/-- The `getTaskArns` of `ecs.go`: the Go pair `([]*string, error)`. The callback
appends the page and returns `lastPage`. -/
def getTaskArns (util : Util) (inv : Inventory) (service : String) :
    (List String × GoError) × Inventory :=
  let serviceName : Option String := if service ≠ "" then some service else none
  let listing := util.ECS.ListTasksPages serviceName
  (eachPage (fun taskArns page lastPage => (taskArns ++ page, lastPage))
      listing.pages listing.err [],
    { inv with calls := inv.calls ++ [.ListTasksPages serviceName] })

/-- The `getTasks` of `ecs.go`. -/
def getTasks (util : Util) (inv : Inventory) (arns : List String) :
    Except String (List Task) × Inventory :=
  if arns.length = 0 then (.ok [], inv)
  else
    (util.ECS.DescribeTasks arns, { inv with calls := inv.calls ++ [.DescribeTasks arns] })

/-- The port `getAddressOfTasks` reads off a task: the first binding of the first
container, in decimal, or the empty string. -/
def taskPort (task : Task) : String :=
  match task.Containers with
  | [] => ""
  | container :: _ =>
    match container.NetworkBindings with
    | [] => ""
    | binding :: _ => Itoa binding.HostPort

/-- The loop of `getAddressOfTasks` over the tasks still to visit, `addresses`
being the slice built so far; `none` is a panic. -/
def getAddressOfTasksLoop (util : Util) :
    List Task → List String → Inventory → Option (List String) × Inventory
  | [], addresses, inv => (some addresses, inv)
  | task :: rest, addresses, inv =>
    if taskPort task = "" then getAddressOfTasksLoop util rest addresses inv
    else
      match getIP util inv task.ContainerInstanceArn with
      | (.panic, inv1) => (none, inv1)
      | (.error _, inv1) => getAddressOfTasksLoop util rest addresses inv1
      | (.ok ip, inv1) =>
        getAddressOfTasksLoop util rest (addresses ++ [ip ++ ":" ++ taskPort task]) inv1

/-- The `getAddressOfTasks` of `ecs.go`; `none` is a panic. -/
def getAddressOfTasks (util : Util) (inv : Inventory) (tasks : List Task) :
    Option (List String) × Inventory :=
  getAddressOfTasksLoop util tasks [] inv

/-- The `getBackendECS` of `ecs.go`. -/
def getBackendECS (util : Util) (inv : Inventory) (service : String) :
    Outcome Backend × Inventory :=
  match getTaskArns util inv service with
  | ((_, some e), inv1) => (.error (wrapText e "getTaskArns()"), inv1)
  | ((taskArns, none), inv1) =>
    match getTasks util inv1 taskArns with
    | (.error e, inv2) => (.error (wrapText e "getTasks()"), inv2)
    | (.ok tasks, inv2) =>
      match getAddressOfTasks util inv2 tasks with
      | (none, inv3) => (.panic, inv3)
      | (some addresses, inv3) => (.ok (createBackend addresses), inv3)

/-! ## `utils.go`: diff and sync -/

/-- The state of one process and its table: caches and inventory log, table and
store log. -/
structure World where
  inv : Inventory
  db : Db

/-- Compares what is stored in dynamodb to what is returned from ecs api calls
for a give service in the ecs cluster. Returns true, nil (`ok true`) if there is
no difference, false, nil (`ok false`) if there is a difference and false, err
(`error`) if there was an error at any point in the process. -/
def diff (util : Util) (w : World) (service : String) : Outcome Bool × World :=
  match getBackendECS util w.inv service with
  | (.panic, inv1) => (.panic, ⟨inv1, w.db⟩)
  | (.error e, inv1) => (.error (wrapText e ("getBackendECS(" ++ service ++ ")")), ⟨inv1, w.db⟩)
  | (.ok ecsBackend, inv1) =>
    match getBackend w.db service with
    | ((dynamoBackend, some e), db1) =>
      if !Contains e ErrItemNotFound then
        (.error (wrapText e ("getBackend( " ++ service ++ ")")), ⟨inv1, db1⟩)
      else (.ok (DeepEqual ecsBackend.Servers dynamoBackend.Servers), ⟨inv1, db1⟩)
    | ((dynamoBackend, none), db1) =>
      (.ok (DeepEqual ecsBackend.Servers dynamoBackend.Servers), ⟨inv1, db1⟩)

/-- Syncs a given service to dynamodb. -/
def sync (util : Util) (w : World) (service : String) : Outcome Unit × World :=
  match getBackendECS util w.inv service with
  | (.panic, inv1) => (.panic, ⟨inv1, w.db⟩)
  | (.error e, inv1) => (.error (wrapText e ("getBackendECS(" ++ service ++ ")")), ⟨inv1, w.db⟩)
  | (.ok backend, inv1) =>
    match updateBackendDynamoDB util.MaxTries w.db service backend true with
    | (some e, db1) =>
      (.error (wrapText e ("updateBackendDynamoDB(" ++ service ++ ", interface\x7b\x7d)")),
        ⟨inv1, db1⟩)
    | (none, db1) => (.ok (), ⟨inv1, db1⟩)

/-! ## `utils.go`: task events -/

/-- Running matches the running status of an ecs task. -/
def Running : String := "RUNNING"

/-- Stopped matches the stopped status of an ecs task. -/
def Stopped : String := "STOPPED"

/-- The work of `strings.Split` on character lists, for a separator of one
character (as at both call sites, `":"` and `"/"`): the pieces between the
separators, one more than there are separators. -/
def splitChars (sep : Char) : List Char → List (List Char)
  | [] => [[]]
  | c :: cs =>
    if c = sep then [] :: splitChars sep cs
    else
      match splitChars sep cs with
      | [] => [[c]]
      | piece :: pieces => (c :: piece) :: pieces

/-- Go `strings.Split(s, sep)` for a separator of one character. -/
def Split (s : String) (sep : Char) : List String :=
  (splitChars sep s.toList).map String.mk

/-- Detail is the task state change that an event from ECS carries; its
containers carry their network bindings. -/
structure Detail where
  ClusterArn : String
  ContainerInstanceArn : String
  DesiredStatus : String
  Group : String
  LastStatus : String
  TaskArn : String
  TaskDefinitionArn : String
  Containers : List Container
deriving DecidableEq, Repr

/-- ProcessECSEventMessage parses an event from ECS and updates dynamodb
accordingly. `strings.Split(msg.Group, ":")[1]` panics when the group has no
`":"`. -/
def processECSEventMessage (util : Util) (w : World) (msg : Detail) : Outcome Unit × World :=
  match msg.Containers with
  | [] => (.ok (), w)
  | container :: _ =>
    match container.NetworkBindings with
    | [] => (.ok (), w)
    | binding :: _ =>
      match (Split msg.Group ':')[1]? with
      | none => (.panic, w)
      | some serviceName =>
        match getIP util w.inv msg.ContainerInstanceArn with
        | (.panic, inv1) => (.panic, ⟨inv1, w.db⟩)
        | (.error e, inv1) =>
          (.error (wrapText e ("getIP(" ++ msg.ContainerInstanceArn ++ ")")), ⟨inv1, w.db⟩)
        | (.ok ip, inv1) =>
          if Itoa binding.HostPort = "" then (.error "error HostPort doesn't exist", ⟨inv1, w.db⟩)
          else if msg.LastStatus = Running ∧ msg.DesiredStatus = Running then
            match updateBackendDynamoDB util.MaxTries w.db serviceName
                (createBackend [ip ++ ":" ++ Itoa binding.HostPort]) false with
            | (some e, db1) =>
              (.error (wrapText e ("updateBackendDynamoDB(" ++ serviceName ++ "," ++
                  (ip ++ ":" ++ Itoa binding.HostPort) ++ ")")), ⟨inv1, db1⟩)
            | (none, db1) => (.ok (), ⟨inv1, db1⟩)
          else if msg.DesiredStatus = Stopped then
            match removeServerFromBackendDynamoDB util.MaxTries w.db serviceName
                (ip ++ ":" ++ Itoa binding.HostPort) with
            | (some e, db1) =>
              (.error (wrapText e ("removeServerFromBackendDynamoDB(" ++ serviceName ++ "," ++
                  (ip ++ ":" ++ Itoa binding.HostPort) ++ ")")), ⟨inv1, db1⟩)
            | (none, db1) => (.ok (), ⟨inv1, db1⟩)
          else (.ok (), ⟨inv1, w.db⟩)

/-! ## `ecs.go`, `utils.go`, `handlers.go`: the sweeps -/

/-- The loop of `listServices` that takes the name out of every service ARN,
`strings.Split(arn, "/")[1]`; `none` is the panic on an ARN without `"/"`. -/
def serviceNames : List String → Option (List String)
  | [] => some []
  | arn :: rest =>
    match (Split arn '/')[1]? with
    | none => none
    | some name =>
      match serviceNames rest with
      | none => none
      | some names => some (name :: names)

/-- The `listServices` of `ecs.go`. The callback appends the page and returns
`!lastPage`. -/
def listServices (util : Util) (inv : Inventory) : Outcome (List String) × Inventory :=
  let listing := util.ECS.ListServicesPages
  let inv1 : Inventory := { inv with calls := inv.calls ++ [.ListServicesPages] }
  match eachPage (fun services page lastPage => (services ++ page, !lastPage))
      listing.pages listing.err [] with
  | (_, some e) => (.error (wrapText e "ecs.ListServicesPages()"), inv1)
  | (services, none) =>
    match serviceNames services with
    | none => (.panic, inv1)
    | some names => (.ok names, inv1)

/-- The `for` loop of `syncAll` over the services still to visit and the `return`
after it; `err` is the variable `err` of the function. -/
def syncAllLoop (util : Util) : List String → GoError → World → Outcome Unit × World
  | [], err, w =>
    match err with
    | some e => (.error (wrapText e "error syncing one or more services"), w)
    | none => (.ok (), w)
  | service :: rest, err, w =>
    match sync util w service with
    | (.panic, w1) => (.panic, w1)
    | (.error ierr, w1) =>
      if Contains ierr ErrNoNetworkBindings then syncAllLoop util rest err w1
      else syncAllLoop util rest (Wrap (some ierr) ("sync(" ++ service ++ ")")) w1
    | (.ok (), w1) => syncAllLoop util rest err w1

/-- Syncs all services in an ecs cluster to dynamodb (the pause of
`milliseconds` between two services changes no state). -/
def syncAll (util : Util) (w : World) (_milliseconds : Int) : Outcome Unit × World :=
  match listServices util w.inv with
  | (.panic, inv1) => (.panic, ⟨inv1, w.db⟩)
  | (.error e, inv1) => (.error (wrapText e "listServices()"), ⟨inv1, w.db⟩)
  | (.ok services, inv1) => syncAllLoop util services none ⟨inv1, w.db⟩

/-- The `for` loop of `HandleDiffAll` over the services still to visit, with the
variables `outOfSync` and `err` of the function; `none` is a panic. -/
def HandleDiffAllLoop (util : Util) :
    List String → List String → GoError → World → Option (List String × GoError) × World
  | [], outOfSync, err, w => (some (outOfSync, err), w)
  | service :: rest, outOfSync, err, w =>
    match diff util w service with
    | (.panic, w1) => (none, w1)
    | (.error ierr, w1) =>
      HandleDiffAllLoop util rest (outOfSync ++ [service])
        (Wrap (some ierr) ("diff(" ++ service ++ "): " ++ err.getD "")) w1
    | (.ok inSync, w1) =>
      HandleDiffAllLoop util rest (if !inSync then outOfSync ++ [service] else outOfSync) err w1

/-- HandleDiffAll diffs all services in an ecs cluster: the Go pair
`([]string, error)`, or `none` for a panic. -/
def HandleDiffAll (util : Util) (w : World) : Option (List String × GoError) × World :=
  match listServices util w.inv with
  | (.panic, inv1) => (none, ⟨inv1, w.db⟩)
  | (.error e, inv1) => (some ([], some (wrapText e "listServices()")), ⟨inv1, w.db⟩)
  | (.ok services, inv1) => HandleDiffAllLoop util services [] none ⟨inv1, w.db⟩

/-! ## Auxiliary definitions for the statements -/

/-- The keys of a possibly nil map, in the order of the association list. -/
def mapKeys (m : Option ServerMap) : List String :=
  match m with
  | none => []
  | some s => s.keys

/-- The state after a call: the table it left, the rest of the schedule, the log
with the call appended. -/
def Db.after (db : Db) (store : Store) (call : StoreCall) : Db :=
  ⟨store, db.sched.tail, db.log ++ [call]⟩

/-- The `BackendItem` that `getBackendItem` decodes from the item under `id`. -/
def Item.toBackendItem (item : Item) (id : String) : BackendItem :=
  { Backend := item.backend, ID := id, Name := item.name, Version := item.version }

/-- The calls made between two states: what the log of `after` holds beyond the
log of `before`. -/
def newCalls (before after : Db) : List StoreCall :=
  after.log.drop before.log.length

/-- No other client writes to the table while the calls of `sched` are made. -/
def NoInterference (sched : List Tick) : Prop :=
  ∀ t ∈ sched, t.interfere = fun s => s

/-- The server map a read of the record of `service` finds; a missing record
counts as the nil map. -/
def storedServers (db : Db) (service : String) : Option ServerMap :=
  match db.seen (service ++ "__backend") with
  | some item => item.backend.Servers
  | none => none

/-- The kind of a call of the table's API. -/
inductive CallKind where
  | get
  | put
  | update
deriving DecidableEq, Repr

/-- The kind of a logged call. -/
def StoreCall.kind : StoreCall → CallKind
  | .GetItem _ _ => .get
  | .PutItem _ _ _ => .put
  | .UpdateItem _ _ _ _ => .update

/-- The kinds of the calls of `n` fetch-then-write attempts. -/
def attemptKinds : Nat → List CallKind
  | 0 => []
  | n + 1 => .get :: .update :: attemptKinds n

/-- A fetch that found a record that decodes, or a conditional update that
failed with the error of a failed condition (nothing is asked of a put). -/
def StoreCall.foundOrConflict : StoreCall → Bool
  | .GetItem _ (.item item) => item.unmarshalErr.isNone
  | .GetItem _ _ => false
  | .PutItem _ _ _ => true
  | .UpdateItem _ _ _ err => err == some conditionalCheckFailed

/-- The table after the writes of other clients scheduled in `ticks`, and no
other write. -/
def othersWrites (ticks : List Tick) (s : Store) : Store :=
  ticks.foldl (fun s t => t.interfere s) s

/-- The table `s1` differs from `s` at most in the servers and the version of the
item under `id`, which in `s` is `item`: the item is still there with its name
and the rest of its backend, and every other key is as in `s`. -/
def Framed (id : String) (item : Item) (s s1 : Store) : Prop :=
  (∃ item1, s1 id = some item1 ∧ item1.name = item.name ∧
      item1.backend.Config = item.backend.Config) ∧
    ∀ key, key ≠ id → s1 key = s key

/-- The results of diffing the services in order, each diff starting in the
state the one before left. -/
def diffEach (util : Util) : List String → World → List (String × Outcome Bool)
  | [], _ => []
  | service :: rest, w =>
    (service, (diff util w service).1) :: diffEach util rest (diff util w service).2

/-- The addresses of the tasks, in task order: one `ip:port` for every task with
a first container and a first binding whose instance resolves to `ip`, nothing
for the other tasks; each resolution is made in the state the one before left. -/
def resolvedAddresses (util : Util) : List Task → Inventory → List String
  | [], _ => []
  | task :: rest, inv =>
    match task.Containers with
    | [] => resolvedAddresses util rest inv
    | container :: _ =>
      match container.NetworkBindings with
      | [] => resolvedAddresses util rest inv
      | binding :: _ =>
        match getIP util inv task.ContainerInstanceArn with
        | (.ok ip, inv1) =>
          (ip ++ ":" ++ Itoa binding.HostPort) :: resolvedAddresses util rest inv1
        | (_, inv1) => resolvedAddresses util rest inv1

/-- A write that the table committed: a put or a conditional update that
returned no error. -/
def StoreCall.committed : StoreCall → Bool
  | .GetItem _ _ => false
  | .PutItem _ _ err => err.isNone
  | .UpdateItem _ _ _ err => err.isNone

/-- A call of one of the two functions that touch the cache maps, with the
answers the ECS and EC2 clients give at the time of the call. -/
inductive CacheCall where
  | getInstanceIDs (util : Util) (containerInstanceARNS : List String)
  | getInstancePrivateIP (util : Util) (instanceID : String)

/-- The caches and the log of inventory calls after a call. -/
def runCall : CacheCall → Inventory → Inventory
  | .getInstanceIDs util containerInstanceARNS, inv =>
    (getInstanceIDs util inv containerInstanceARNS).2
  | .getInstancePrivateIP util instanceID, inv => (getInstancePrivateIP util inv instanceID).2

/-- The caches and the log of inventory calls after the calls, made one after
another. -/
def runCalls (calls : List CacheCall) (inv : Inventory) : Inventory :=
  calls.foldl (fun inv call => runCall call inv) inv

/-- The instance id that `getInstanceID` comes to for `arn` when the ARN map is
`cache`: the cached id, or what the answer of `DescribeContainerInstances`
gives. -/
def idOf (util : Util) (cache : String → Option String) (arn : String) : Outcome String :=
  match cache arn with
  | some id => .ok id
  | none =>
    match util.ECS.DescribeContainerInstances [arn] with
    | .error e =>
      .error (wrapText (wrapText e "ecs.DescribeContainerInstances()") "getInstanceIDs()")
    | .ok [] => .panic
    | .ok (ci :: _) => .ok ci.Ec2InstanceId

/-- The address that `getInstancePrivateIP` comes to for `instanceID` when the
address map is `cache`: the cached address, or what the answer of
`DescribeInstances` gives. -/
def addressOf (util : Util) (cache : String → Option String) (instanceID : String) :
    Except String String :=
  match cache instanceID with
  | some address => .ok address
  | none =>
    match util.EC2.DescribeInstances [instanceID] with
    | .error e => .error (wrapText e "ec2.DescribeInstances()")
    | .ok [] => .error "not instances found"
    | .ok (reservation :: _) =>
      match reservation.Instances with
      | [] => .error "not instances found"
      | inst :: _ => .ok inst.PrivateIpAddress

/-- Two states of the caches give every lookup the same result. -/
def SameLookups (util : Util) (inv inv1 : Inventory) : Prop :=
  (∀ arn, idOf util inv1.arnToInstanceIDs arn = idOf util inv.arnToInstanceIDs arn) ∧
    ∀ id, addressOf util inv1.instancePrivateIPs id = addressOf util inv.instancePrivateIPs id

/-- The ECS client answers a lookup of one container instance with at most one
instance. -/
def AnswersOneInstance (util : Util) : Prop :=
  ∀ arn instances, util.ECS.DescribeContainerInstances [arn] = .ok instances →
    instances.length ≤ 1

/-! ## Concrete inputs used below -/

/-- A cluster with one service `hello` running one task at `10.0.0.4:8090`. -/
def helloUtil (MaxTries : Int) : Util :=
  { ECS :=
      { ListServicesPages := ⟨[["garbage/hello"]], none⟩,
        ListTasksPages := fun _ => ⟨[["hello-arn"]], none⟩,
        DescribeTasks := fun _ => .ok [⟨"hello-arn", "myinstancearn", [⟨[⟨8090⟩]⟩]⟩],
        DescribeContainerInstances := fun _ => .ok [⟨"myinstancearn", "myinstanceid"⟩] },
    EC2 := { DescribeInstances := fun _ => .ok [⟨[⟨"10.0.0.4"⟩]⟩] },
    MaxTries := MaxTries }

/-- A process that has made no call and cached nothing. -/
def freshInventory : Inventory :=
  ⟨fun _ => none, fun _ => none, []⟩

/-- The table holding just `item` under the key `id`, nothing scheduled, nothing logged. -/
def dbWith (id : String) (item : Item) : Db :=
  ⟨Store.set (fun _ => none) id item, [], []⟩

/-- The empty table, nothing scheduled, nothing logged. -/
def emptyDb : Db :=
  ⟨fun _ => none, [], []⟩

/-- A stored record of `hello` whose one server has the key of the live task but
another URL. -/
def helloItemHttps : Item :=
  ⟨"hello", 0,
    ⟨some (AList.insert "10.0.0.4:8090" ⟨"https://10.0.0.4:8090", 0⟩ ∅), Backend.zero.Config⟩,
    none⟩

/-- A stored record of `hello` with the servers `A` and `B`, at version 3, with a
load balancer configured by an operator. -/
def helloItemAB : Item :=
  ⟨"hello", 3,
    ⟨some (AList.insert "A" ⟨"http://A", 0⟩ (AList.insert "B" ⟨"http://B", 0⟩ ∅)),
      ⟨none, some "wrr", none, none⟩⟩,
    none⟩

/-- Before the call another client commits a write to the record `id`, which
raises its version. -/
def otherClientWrites (id : String) : Tick :=
  ⟨fun s =>
    match s id with
    | some item => s.set id { item with version := item.version + 1 }
    | none => s,
   none⟩

/-- The record of `hello` with servers `A`, `B`, and a client that wins the race
for every conditional update of the next two attempts. -/
def contendedDb : Db :=
  ⟨Store.set (fun _ => none) "hello__backend" helloItemAB,
    [Tick.quiet, otherClientWrites "hello__backend", Tick.quiet,
      otherClientWrites "hello__backend"],
    []⟩

/-- A table whose first call fails in transport and whose later calls are served. -/
def faultyDb (store : Store) (msg : String) : Db :=
  ⟨store, [⟨fun s => s, some msg⟩], []⟩

/-- The record of `hello` with servers `A`, `B` in a table that serves the first
call and throttles the second. -/
def throttledDb : Db :=
  ⟨Store.set (fun _ => none) "hello__backend" helloItemAB,
    [Tick.quiet, ⟨fun s => s, some "ProvisionedThroughputExceededException: rate exceeded"⟩],
    []⟩

/-- A stored record of a service named `ItemNotFound`, with servers `A`, `B`, at
version 3, with a load balancer configured by an operator. -/
def itemNotFoundItem : Item :=
  ⟨"ItemNotFound", 3,
    ⟨some (AList.insert "A" ⟨"http://A", 0⟩ (AList.insert "B" ⟨"http://B", 0⟩ ∅)),
      ⟨none, some "wrr", none, none⟩⟩,
    none⟩

/-- The cluster of `helloUtil` with another answer of `DescribeContainerInstances`. -/
def utilWithInstances (answer : Except String (List ContainerInstance)) : Util :=
  { helloUtil 10 with
    ECS := { (helloUtil 10).ECS with DescribeContainerInstances := fun _ => answer } }

/-- The cluster of `helloUtil` with another listing of the services and of the
tasks of each service. -/
def utilWithListings (services : Listing) (tasks : Option String → Listing) : Util :=
  { helloUtil 10 with
    ECS := { (helloUtil 10).ECS with ListServicesPages := services, ListTasksPages := tasks } }

/-- A process that has cached nothing, with the empty table. -/
def freshWorld : World :=
  ⟨freshInventory, emptyDb⟩

/-- An event of a task of the group `group` on the instance `myinstancearn`,
with one container bound to the host port 8090. -/
def helloEvent (group desiredStatus lastStatus : String) : Detail :=
  { ClusterArn := "", ContainerInstanceArn := "myinstancearn", DesiredStatus := desiredStatus,
    Group := group, LastStatus := lastStatus, TaskArn := "hello-arn", TaskDefinitionArn := "",
    Containers := [⟨[⟨8090⟩]⟩] }

/-- A stored record of a service named `ItemNotFoundPage`, with servers `A`,
`B`, at version 3. -/
def notFoundPageItem : Item :=
  ⟨"ItemNotFoundPage", 3,
    ⟨some (AList.insert "A" ⟨"http://A", 0⟩ (AList.insert "B" ⟨"http://B", 0⟩ ∅)),
      Backend.zero.Config⟩,
    none⟩

/-- The EC2 client of `helloUtil` after the instance got another address. -/
def movedUtil : Util :=
  { helloUtil 10 with EC2 := { DescribeInstances := fun _ => .ok [⟨[⟨"10.0.0.9"⟩]⟩] } }

/-- The cluster of `helloUtil` behind an ECS client that answers every lookup of
a container instance with all registered instances, `otherarn` first, as the
test double does; the instance of `otherarn` has the address `10.0.0.9`. -/
def unaskedUtil : Util :=
  { helloUtil 10 with
    ECS := { (helloUtil 10).ECS with
      DescribeContainerInstances := fun _ =>
        .ok [⟨"otherarn", "otherid"⟩, ⟨"myinstancearn", "myinstanceid"⟩] },
    EC2 := { DescribeInstances := fun ids =>
      if ids = ["otherid"] then .ok [⟨[⟨"10.0.0.9"⟩]⟩] else .ok [⟨[⟨"10.0.0.4"⟩]⟩] } }

/-! ## Lemmas on equality of maps -/

theorem serverMap_entries_length (x : ServerMap) : x.entries.length = x.keys.length := by
  simp [AList.keys, List.keys]

theorem serverMap_lookup_of_mem (x : ServerMap) (e : Sigma (fun _ : String => Server))
    (he : e ∈ x.entries) : x.lookup e.1 = some e.2 := by
  have h : e.2 ∈ x.lookup e.1 := AList.mem_lookup_iff.mpr he
  exact h

theorem serverMap_agree_iff (x y : ServerMap) :
    (x.entries.length = y.entries.length ∧ ∀ e ∈ x.entries, y.lookup e.1 = some e.2) ↔
      ∀ k, x.lookup k = y.lookup k := by
  constructor
  · rintro ⟨hlen, hall⟩
    have hsub : x.keys ⊆ y.keys := by
      intro k hk
      obtain ⟨b, hb⟩ := List.mem_keys.mp hk
      have h1 := hall ⟨k, b⟩ hb
      have h2 : (y.lookup k).isSome := by simp [h1]
      exact AList.mem_keys.mp (AList.lookup_isSome.mp h2)
    have hperm : x.keys.Perm y.keys := by
      apply List.Subperm.perm_of_length_le (List.subperm_of_subset x.keys_nodup hsub)
      rw [← serverMap_entries_length, ← serverMap_entries_length, hlen]
    intro k
    by_cases hk : k ∈ x
    · obtain ⟨b, hb⟩ := List.mem_keys.mp (AList.mem_keys.mp hk)
      rw [serverMap_lookup_of_mem x ⟨k, b⟩ hb, hall ⟨k, b⟩ hb]
    · have hky : k ∉ y := fun h => hk (AList.mem_keys.mpr (hperm.mem_iff.mpr (AList.mem_keys.mp h)))
      rw [AList.lookup_eq_none.mpr hk, AList.lookup_eq_none.mpr hky]
  · intro h
    have hmem : ∀ k, k ∈ x.keys ↔ k ∈ y.keys := by
      intro k
      rw [← AList.mem_keys, ← AList.mem_keys, ← AList.lookup_isSome, ← AList.lookup_isSome, h k]
    constructor
    · rw [serverMap_entries_length, serverMap_entries_length]
      exact ((List.perm_ext_iff_of_nodup x.keys_nodup y.keys_nodup).mpr hmem).length_eq
    · intro e he
      rw [← h e.1]
      exact serverMap_lookup_of_mem x e he

/-- `DeepEqual` holds exactly when both maps are nil or both are not, and every
key has the same entry (or none) in both. -/
theorem DeepEqual_iff (a b : Option ServerMap) :
    DeepEqual a b = true ↔
      (a.isSome = b.isSome ∧ ∀ key, mapLookup a key = mapLookup b key) := by
  cases a with
  | none =>
    cases b with
    | none => simp [DeepEqual, mapLookup]
    | some y => simp [DeepEqual]
  | some x =>
    cases b with
    | none => simp [DeepEqual]
    | some y =>
      have h := serverMap_agree_iff x y
      simp only [DeepEqual, mapLookup, Bool.and_eq_true, beq_iff_eq, List.all_eq_true,
        Option.isSome_some, true_and]
      exact h

theorem DeepEqual_self (a : Option ServerMap) : DeepEqual a a = true :=
  (DeepEqual_iff a a).mpr ⟨rfl, fun _ => rfl⟩

/-! ## Lemmas on strings -/

theorem containsChars_append_left (sub p s : List Char) (h : containsChars sub s = true) :
    containsChars sub (p ++ s) = true := by
  induction p with
  | nil => simpa using h
  | cons c p ih => simp [containsChars, ih]

theorem containsChars_self (s : List Char) : containsChars s s = true := by
  cases s with
  | nil => rfl
  | cons c cs => simp [containsChars]

theorem Contains_append_left (p s sub : String) (h : Contains s sub = true) :
    Contains (p ++ s) sub = true := by
  unfold Contains at *
  have happ : (p ++ s).toList = p.toList ++ s.toList := String.data_append p s
  rw [happ]
  exact containsChars_append_left _ _ _ h

theorem Contains_self (s : String) : Contains s s = true :=
  containsChars_self _

theorem Contains_wrapText (e message sub : String) (h : Contains e sub = true) :
    Contains (wrapText e message) sub = true := by
  unfold wrapText
  exact Contains_append_left _ _ _ h

/-! ## Lemmas on maps -/

theorem foldl_insert_lookup (l : List (Sigma (fun _ : String => Server))) (hl : l.NodupKeys)
    (s : ServerMap) (k : String) :
    (l.foldl (fun acc e => acc.insert e.1 e.2) s).lookup k =
      (match l.dlookup k with
       | some v => some v
       | none => s.lookup k) := by
  induction l generalizing s with
  | nil => simp
  | cons e l ih =>
    obtain ⟨hnot, hl'⟩ := List.nodupKeys_cons.mp hl
    obtain ⟨a, b⟩ := e
    rw [List.foldl_cons, ih hl']
    by_cases hk : k = a
    · subst hk
      have h1 : l.dlookup k = none := List.dlookup_eq_none.mpr hnot
      rw [h1, List.dlookup_cons_eq]
      simp [AList.lookup_insert]
    · rw [List.dlookup_cons_ne l ⟨a, b⟩ hk, AList.lookup_insert_ne hk]

/-- The map `updateBackendItemServers` leaves: a key of `backend` has the entry of
`backend`, every other key the entry (or none) it had in `backendItem`. -/
theorem updateBackendItemServers_lookup (backendItem : BackendItem) (backend : Backend)
    (key : String) :
    mapLookup (updateBackendItemServers backendItem backend).Backend.Servers key =
      (match mapLookup backend.Servers key with
       | some v => some v
       | none => mapLookup backendItem.Backend.Servers key) := by
  unfold updateBackendItemServers
  cases hd : backend.Servers with
  | none =>
    cases hs : backendItem.Backend.Servers with
    | none => simp [mapLookup]
    | some s => simp [mapLookup]
  | some d =>
    cases hs : backendItem.Backend.Servers with
    | none =>
      simp only [mapLookup]
      rw [foldl_insert_lookup d.entries d.nodupKeys]
      rfl
    | some s =>
      simp only [mapLookup]
      rw [foldl_insert_lookup d.entries d.nodupKeys]
      rfl

theorem updateBackendItemServers_frame (backendItem : BackendItem) (backend : Backend) :
    (updateBackendItemServers backendItem backend).toEndItem = backendItem.toEndItem ∧
      (updateBackendItemServers backendItem backend).Backend.Config =
        backendItem.Backend.Config := by
  simp [updateBackendItemServers]

theorem mapDelete_lookup (m : Option ServerMap) (portIP key : String) :
    mapLookup (mapDelete m portIP) key = if key = portIP then none else mapLookup m key := by
  cases m with
  | none => simp [mapDelete, mapLookup]
  | some s =>
    by_cases h : key = portIP
    · subst h
      simp [mapDelete, mapLookup, AList.lookup_erase]
    · simp [mapDelete, mapLookup, h, AList.lookup_erase_ne h]

theorem foldl_insert_mem (addresses : List String) (s : ServerMap) (a : String)
    (h : a ∈ s ∨ a ∈ addresses) :
    a ∈ addresses.foldl (fun servers addr => servers.insert addr ⟨"http://" ++ addr, 0⟩) s := by
  induction addresses generalizing s with
  | nil => simpa using h
  | cons b l ih =>
    rw [List.foldl_cons]
    apply ih
    rcases h with h | h
    · exact Or.inl ((AList.mem_insert s).mpr (Or.inr h))
    · rcases List.mem_cons.mp h with h | h
      · exact Or.inl ((AList.mem_insert s).mpr (Or.inl h))
      · exact Or.inr h

/-- The backend `createBackend` builds has the nil map exactly for no address. -/
theorem createBackend_servers_none (addresses : List String) :
    (createBackend addresses).Servers = none ↔ addresses = [] := by
  cases addresses with
  | nil => simp [createBackend, Backend.zero]
  | cons a l => simp [createBackend]

theorem createBackend_mapLen (addresses : List String) :
    mapLen (createBackend addresses).Servers = 0 ↔ addresses = [] := by
  cases addresses with
  | nil => simp [createBackend, Backend.zero, mapLen]
  | cons a l =>
    have hmem := foldl_insert_mem (a :: l) ∅ a (Or.inr (List.mem_cons_self a l))
    simp only [createBackend, List.length_cons, Nat.add_one_ne_zero, if_false, mapLen]
    constructor
    · intro h0
      have hnil := List.length_eq_zero.mp h0
      rw [AList.mem_keys, AList.keys, hnil] at hmem
      simp at hmem
    · intro h
      cases h

/-! ## One call of the store -/

theorem getBackendItem_fault (db : Db) (name m : String) (hf : db.tick.fault = some m) :
    getBackendItem db name =
      (.error (wrapText (wrapText m "dynamodb.GetItem()") ("getItem(id, " ++ name ++ ")")),
        db.after db.seen (.GetItem (name ++ "__backend") (.err m))) := by
  simp [getBackendItem, getItem, GetItem, hf, Db.after]

theorem getBackendItem_absent (db : Db) (name : String) (hf : db.tick.fault = none)
    (hs : db.seen (name ++ "__backend") = none) :
    getBackendItem db name =
      (.error (wrapText ErrItemNotFound ("getItem(id, " ++ name ++ ")")),
        db.after db.seen (.GetItem (name ++ "__backend") .empty)) := by
  simp [getBackendItem, getItem, GetItem, hf, hs, Db.after]

theorem getBackendItem_undecodable (db : Db) (name m : String) (item : Item)
    (hf : db.tick.fault = none) (hs : db.seen (name ++ "__backend") = some item)
    (hu : item.unmarshalErr = some m) :
    getBackendItem db name =
      (.error (wrapText m "dynamodbattribute.UnmarshalMap()"),
        db.after db.seen (.GetItem (name ++ "__backend") (.item item))) := by
  simp [getBackendItem, getItem, GetItem, hf, hs, hu, Db.after]

theorem getBackendItem_found (db : Db) (name : String) (item : Item)
    (hf : db.tick.fault = none) (hs : db.seen (name ++ "__backend") = some item)
    (hu : item.unmarshalErr = none) :
    getBackendItem db name =
      (.ok (item.toBackendItem (name ++ "__backend")),
        db.after db.seen (.GetItem (name ++ "__backend") (.item item))) := by
  simp [getBackendItem, getItem, GetItem, hf, hs, hu, Db.after, Item.toBackendItem]

theorem updateBackendWithLock_fault (db : Db) (endItem : BackendItem) (m : String)
    (hf : db.tick.fault = some m) :
    updateBackendWithLock db endItem =
      (some (wrapText m "dynamodb.UpdateItem()"),
        db.after db.seen (.UpdateItem endItem.ID endItem.Version endItem.Backend (some m))) := by
  simp [updateBackendWithLock, UpdateItem, hf, Db.after, Wrap]

theorem updateBackendWithLock_served (db : Db) (endItem : BackendItem)
    (hf : db.tick.fault = none) :
    updateBackendWithLock db endItem =
      (Wrap (conditionalUpdate db.seen endItem.ID endItem.Version endItem.Backend).1
          "dynamodb.UpdateItem()",
        db.after (conditionalUpdate db.seen endItem.ID endItem.Version endItem.Backend).2
          (.UpdateItem endItem.ID endItem.Version endItem.Backend
            (conditionalUpdate db.seen endItem.ID endItem.Version endItem.Backend).1)) := by
  simp [updateBackendWithLock, UpdateItem, hf, Db.after]

theorem createBackendDynamoDB_fault (db : Db) (name m : String) (backend : BackendItem)
    (hf : db.tick.fault = some m) :
    createBackendDynamoDB db name backend =
      (some (wrapText m "dynamodb.PutItem()"),
        db.after db.seen
          (.PutItem backend.ID ⟨backend.Name, backend.Version, backend.Backend, none⟩ (some m))) := by
  simp [createBackendDynamoDB, PutItem, hf, Db.after, Wrap]

theorem createBackendDynamoDB_served (db : Db) (name : String) (backend : BackendItem)
    (hf : db.tick.fault = none) :
    createBackendDynamoDB db name backend =
      (none,
        db.after (db.seen.set backend.ID ⟨backend.Name, backend.Version, backend.Backend, none⟩)
          (.PutItem backend.ID ⟨backend.Name, backend.Version, backend.Backend, none⟩ none)) := by
  simp [createBackendDynamoDB, PutItem, hf, Db.after, Wrap]

theorem conditionalUpdate_hit (s : Store) (id : String) (version : Nat) (backend : Backend)
    (item : Item) (hs : s id = some item) (hv : item.version = version) :
    conditionalUpdate s id version backend =
      (none, s.set id { item with version := version + 1, backend := backend }) := by
  simp [conditionalUpdate, hs, hv]

theorem conditionalUpdate_miss (s : Store) (id : String) (version : Nat) (backend : Backend)
    (h : ∀ item, s id = some item → item.version ≠ version) :
    conditionalUpdate s id version backend = (some conditionalCheckFailed, s) := by
  unfold conditionalUpdate
  cases hs : s id with
  | none => rfl
  | some item => simp [h item hs]

theorem conflict_text_contains :
    Contains (wrapText conditionalCheckFailed "dynamodb.UpdateItem()")
      ErrCodeConditionalCheckFailedException = true := by
  decide

theorem notFound_text_contains (name : String) :
    Contains (wrapText ErrItemNotFound ("getItem(id, " ++ name ++ ")")) ErrItemNotFound = true :=
  Contains_wrapText _ _ _ (Contains_self _)

/-! ## The retry loops -/

theorem Db.seen_eq_store (db : Db) (h : NoInterference db.sched) : db.seen = db.store := by
  unfold Db.seen Db.tick
  cases hs : db.sched with
  | nil => rfl
  | cons t ts =>
    have ht : t.interfere = fun s => s := h t (by simp [hs])
    simp [ht]

theorem NoInterference_of_suffix (l₁ l₂ : List Tick) (hsuf : l₁ <:+ l₂)
    (h : NoInterference l₂) : NoInterference l₁ :=
  fun t ht => h t (hsuf.subset ht)

/-- Whatever a fetch returns, it leaves the table as it found it, uses one tick
and logs one `GetItem`. -/
theorem getBackendItem_db (db : Db) (name : String) :
    ∃ out, (getBackendItem db name).2 = db.after db.seen (.GetItem (name ++ "__backend") out) := by
  cases hf : db.tick.fault with
  | some m => exact ⟨_, by rw [getBackendItem_fault db name m hf]⟩
  | none =>
    cases hs : db.seen (name ++ "__backend") with
    | none => exact ⟨_, by rw [getBackendItem_absent db name hf hs]⟩
    | some item =>
      cases hu : item.unmarshalErr with
      | some m => exact ⟨_, by rw [getBackendItem_undecodable db name m item hf hs hu]⟩
      | none => exact ⟨_, by rw [getBackendItem_found db name item hf hs hu]⟩

theorem getBackendItem_ok (db : Db) (name : String) (b : BackendItem) (db1 : Db)
    (h : getBackendItem db name = (.ok b, db1)) :
    ∃ item, db.tick.fault = none ∧ db.seen (name ++ "__backend") = some item ∧
      item.unmarshalErr = none ∧ b = item.toBackendItem (name ++ "__backend") ∧
      db1 = db.after db.seen (.GetItem (name ++ "__backend") (.item item)) := by
  cases hf : db.tick.fault with
  | some m => rw [getBackendItem_fault db name m hf] at h; cases h
  | none =>
    cases hs : db.seen (name ++ "__backend") with
    | none => rw [getBackendItem_absent db name hf hs] at h; cases h
    | some item =>
      cases hu : item.unmarshalErr with
      | some m => rw [getBackendItem_undecodable db name m item hf hs hu] at h; cases h
      | none =>
        rw [getBackendItem_found db name item hf hs hu] at h
        cases h
        exact ⟨item, rfl, rfl, hu, rfl, rfl⟩

theorem createBackendDynamoDB_none (db db' : Db) (name : String) (backend : BackendItem)
    (h : createBackendDynamoDB db name backend = (none, db')) :
    db.tick.fault = none ∧
      db' = db.after
        (db.seen.set backend.ID ⟨backend.Name, backend.Version, backend.Backend, none⟩)
        (.PutItem backend.ID ⟨backend.Name, backend.Version, backend.Backend, none⟩ none) := by
  cases hf : db.tick.fault with
  | some m => rw [createBackendDynamoDB_fault db name m backend hf] at h; cases h
  | none =>
    rw [createBackendDynamoDB_served db name backend hf] at h
    cases h
    exact ⟨rfl, rfl⟩

theorem updateBackendWithLock_none (db db' : Db) (endItem : BackendItem)
    (h : updateBackendWithLock db endItem = (none, db')) :
    ∃ item, db.tick.fault = none ∧ db.seen endItem.ID = some item ∧
      item.version = endItem.Version ∧
      db' = db.after
        (db.seen.set endItem.ID
          { item with version := endItem.Version + 1, backend := endItem.Backend })
        (.UpdateItem endItem.ID endItem.Version endItem.Backend none) := by
  cases hf : db.tick.fault with
  | some m => rw [updateBackendWithLock_fault db endItem m hf] at h; cases h
  | none =>
    rw [updateBackendWithLock_served db endItem hf] at h
    cases hs : db.seen endItem.ID with
    | none =>
      rw [conditionalUpdate_miss _ _ _ _ (by simp [hs])] at h
      simp [Wrap] at h
    | some item =>
      by_cases hv : item.version = endItem.Version
      · rw [conditionalUpdate_hit _ _ _ _ item hs hv] at h
        simp only [Wrap, Option.map_none', Prod.mk.injEq, true_and] at h
        exact ⟨item, rfl, rfl, hv, h.symm⟩
      · rw [conditionalUpdate_miss _ _ _ _ (by
          intro i hi; rw [hs] at hi; cases hi; exact hv)] at h
        simp [Wrap] at h

theorem updatedBackend_overwrite (backend : BackendItem) (traefikBackend : Backend) :
    updatedBackend backend traefikBackend true =
      { backend with Backend := { backend.Backend with Servers := traefikBackend.Servers } } := by
  simp [updatedBackend]

theorem updatedBackend_frame (backend : BackendItem) (traefikBackend : Backend) (ow : Bool) :
    (updatedBackend backend traefikBackend ow).toEndItem = backend.toEndItem ∧
      (updatedBackend backend traefikBackend ow).Backend.Config = backend.Backend.Config := by
  cases ow with
  | true => simp [updatedBackend]
  | false => simpa [updatedBackend] using updateBackendItemServers_frame backend traefikBackend

/-- An attempt of an overwriting update that returns nil leaves an item whose
servers are the desired ones. -/
theorem updateBackendAttempt_overwrite_done (MaxTries : Int) (name : String) (D : Backend)
    (db db' : Db) (h : updateBackendAttempt MaxTries name D true db = (.done none, db')) :
    ∃ item, db'.store (name ++ "__backend") = some item ∧
      item.backend.Servers = D.Servers ∧
      (NoInterference db.sched → item.unmarshalErr = none) := by
  unfold updateBackendAttempt at h
  rcases hg : getBackendItem db name with ⟨res, db1⟩
  rw [hg] at h
  cases res with
  | error e =>
    simp only at h
    split at h
    · rcases hc : createBackendDynamoDB db1 name (createBackendItem name D) with ⟨err, db2⟩
      rw [hc] at h
      simp only [Prod.mk.injEq, Attempt.done.injEq] at h
      obtain ⟨herr, hdb⟩ := h
      subst herr; subst hdb
      obtain ⟨_, hdb2⟩ := createBackendDynamoDB_none _ _ _ _ hc
      refine ⟨⟨name, 0, D, none⟩, ?_, rfl, fun _ => rfl⟩
      rw [hdb2]
      simp [Db.after, Store.set, createBackendItem]
    · simp at h
  | ok backend =>
    simp only at h
    obtain ⟨item, hf, hs, hu, hb, hdb1⟩ := getBackendItem_ok db name backend db1 hg
    rcases hw : updateBackendWithLock db1 (updatedBackend backend D true) with ⟨err, db2⟩
    rw [hw] at h
    cases err with
    | some e =>
      simp only at h
      split at h <;> simp [Wrap] at h
    | none =>
      simp only [Prod.mk.injEq, true_and] at h
      subst h
      obtain ⟨i, hf1, hs1, hv1, hdb2⟩ := updateBackendWithLock_none _ _ _ hw
      have hid : (updatedBackend backend D true).ID = name ++ "__backend" := by
        rw [updatedBackend_overwrite, hb]; rfl
      have hsv : (updatedBackend backend D true).Backend.Servers = D.Servers := by
        rw [updatedBackend_overwrite]
      rw [hid] at hs1 hdb2
      refine ⟨{ i with version := (updatedBackend backend D true).Version + 1,
                       backend := (updatedBackend backend D true).Backend }, ?_, hsv, ?_⟩
      · rw [hdb2]; simp [Db.after, Store.set]
      · intro hno
        have h1 : db1.seen = db.seen := by
          have hno1 : NoInterference db1.sched := by
            rw [hdb1]
            exact NoInterference_of_suffix _ _ (List.tail_suffix _) hno
          rw [Db.seen_eq_store db1 hno1, hdb1]
          rfl
        rw [h1, hs] at hs1
        cases hs1
        exact hu

theorem updateBackendWithLock_db (db : Db) (endItem : BackendItem) :
    ∃ store err, (updateBackendWithLock db endItem).2 =
      db.after store (.UpdateItem endItem.ID endItem.Version endItem.Backend err) := by
  cases hf : db.tick.fault with
  | some m => exact ⟨_, _, by rw [updateBackendWithLock_fault db endItem m hf]⟩
  | none => exact ⟨_, _, by rw [updateBackendWithLock_served db endItem hf]⟩

theorem createBackendDynamoDB_db (db : Db) (name : String) (backend : BackendItem) :
    ∃ store err, (createBackendDynamoDB db name backend).2 =
      db.after store
        (.PutItem backend.ID ⟨backend.Name, backend.Version, backend.Backend, none⟩ err) := by
  cases hf : db.tick.fault with
  | some m => exact ⟨_, _, by rw [createBackendDynamoDB_fault db name m backend hf]⟩
  | none => exact ⟨_, _, by rw [createBackendDynamoDB_served db name backend hf]⟩

theorem tail_tail_eq_drop {α : Type} (l : List α) : l.tail.tail = l.drop 2 := by
  cases l with
  | nil => rfl
  | cons a l =>
    cases l with
    | nil => rfl
    | cons b l => rfl

theorem tail_eq_drop_one {α : Type} (l : List α) : l.tail = l.drop 1 := by
  cases l with
  | nil => rfl
  | cons a l => rfl

/-- The calls of one attempt of an update: a fetch, or a fetch and one write. -/
theorem updateBackendAttempt_calls (MaxTries : Int) (name : String) (D : Backend) (ow : Bool)
    (db : Db) :
    ∃ calls, (updateBackendAttempt MaxTries name D ow db).2.log = db.log ++ calls ∧
      (updateBackendAttempt MaxTries name D ow db).2.sched = db.sched.drop calls.length ∧
      (calls.length = 1 ∨ calls.length = 2) := by
  obtain ⟨out, hg2⟩ := getBackendItem_db db name
  unfold updateBackendAttempt
  rcases hg : getBackendItem db name with ⟨res, db1⟩
  rw [hg] at hg2
  simp only at hg2
  subst hg2
  cases res with
  | error e =>
    simp only
    split
    · obtain ⟨s, err, hc⟩ := createBackendDynamoDB_db
        (db.after db.seen (.GetItem (name ++ "__backend") out)) name (createBackendItem name D)
      refine ⟨[.GetItem (name ++ "__backend") out,
        .PutItem (createBackendItem name D).ID
          ⟨(createBackendItem name D).Name, (createBackendItem name D).Version,
            (createBackendItem name D).Backend, none⟩ err], ?_, ?_, Or.inr rfl⟩
      · rw [hc]; simp [Db.after]
      · rw [hc]; exact tail_tail_eq_drop _
    · exact ⟨[.GetItem (name ++ "__backend") out], by simp [Db.after],
        tail_eq_drop_one _, Or.inl rfl⟩
  | ok backend =>
    simp only
    obtain ⟨s, err, hc⟩ := updateBackendWithLock_db
      (db.after db.seen (.GetItem (name ++ "__backend") out)) (updatedBackend backend D ow)
    rcases hw : updateBackendWithLock (db.after db.seen (.GetItem (name ++ "__backend") out))
      (updatedBackend backend D ow) with ⟨r, db2⟩
    rw [hw] at hc
    simp only at hc
    subst hc
    refine ⟨[.GetItem (name ++ "__backend") out,
      .UpdateItem (updatedBackend backend D ow).ID (updatedBackend backend D ow).Version
        (updatedBackend backend D ow).Backend err], ?_, ?_, Or.inr rfl⟩
    · cases r with
      | none => simp [Db.after]
      | some e => simp only; split <;> simp [Db.after]
    · cases r with
      | none => exact tail_tail_eq_drop _
      | some e => simp only; split <;> exact tail_tail_eq_drop _

theorem updateBackendAttempt_sched_suffix (MaxTries : Int) (name : String) (D : Backend)
    (ow : Bool) (db : Db) :
    (updateBackendAttempt MaxTries name D ow db).2.sched <:+ db.sched := by
  obtain ⟨calls, _, hs, _⟩ := updateBackendAttempt_calls MaxTries name D ow db
  rw [hs]
  exact List.drop_suffix _ _

/-- A run of the update loop that returns nil after at least one iteration ends
with an attempt that returned nil. -/
theorem updateBackendLoop_none (MaxTries : Int) (name : String) (D : Backend) (ow : Bool) :
    ∀ (k : Nat) (err : GoError) (db db' : Db),
      updateBackendLoop MaxTries name D ow k err db = (none, db') →
      (0 < k ∨ err ≠ none) →
      ∃ db0, updateBackendAttempt MaxTries name D ow db0 = (.done none, db') ∧
        db0.sched <:+ db.sched := by
  intro k
  induction k with
  | zero =>
    intro err db db' h hk
    simp only [updateBackendLoop, Prod.mk.injEq] at h
    rcases hk with hk | hk
    · omega
    · cases err with
      | none => exact absurd rfl hk
      | some e => simp [Wrap] at h
  | succ k ih =>
    intro err db db' h _
    unfold updateBackendLoop at h
    rcases ha : updateBackendAttempt MaxTries name D ow db with ⟨a, db1⟩
    rw [ha] at h
    cases a with
    | done e =>
      simp only [Prod.mk.injEq] at h
      obtain ⟨he, hdb⟩ := h
      subst he; subst hdb
      exact ⟨db, ha, List.suffix_refl _⟩
    | again e =>
      simp only at h
      obtain ⟨db0, h0, hsuf⟩ := ih (some e) db1 db' h (Or.inr (by simp))
      refine ⟨db0, h0, hsuf.trans ?_⟩
      have := updateBackendAttempt_sched_suffix MaxTries name D ow db
      rw [ha] at this
      exact this

theorem toNat_pos_of_pos (i : Int) (h : 0 < i) : 0 < i.toNat := by
  omega

/-- A sync that returns nil after at least one try leaves an item with the
servers derived from the cluster. -/
theorem sync_ok_stored (util : Util) (w w1 : World) (service : String) (live : Backend)
    (inv1 : Inventory) (hMax : 0 < util.MaxTries)
    (hlive : getBackendECS util w.inv service = (.ok live, inv1))
    (hsync : sync util w service = (.ok (), w1)) :
    w1.inv = inv1 ∧
    ∃ item, w1.db.store (service ++ "__backend") = some item ∧
      item.backend.Servers = live.Servers ∧
      (NoInterference w.db.sched → item.unmarshalErr = none) := by
  unfold sync at hsync
  rw [hlive] at hsync
  simp only at hsync
  rcases hu : updateBackendDynamoDB util.MaxTries w.db service live true with ⟨err, db1⟩
  rw [hu] at hsync
  cases err with
  | some e => simp at hsync
  | none =>
    simp only [Prod.mk.injEq, true_and] at hsync
    subst hsync
    unfold updateBackendDynamoDB at hu
    obtain ⟨db0, h0, hsuf⟩ := updateBackendLoop_none util.MaxTries service live true _ none
      w.db db1 hu (Or.inl (toNat_pos_of_pos _ hMax))
    obtain ⟨item, hst, hsv, hdec⟩ :=
      updateBackendAttempt_overwrite_done util.MaxTries service live db0 db1 h0
    exact ⟨rfl, item, hst, hsv, fun hno => hdec (NoInterference_of_suffix _ _ hsuf hno)⟩

/-! ## Deriving the live set -/

theorem foldl_insert_mem_iff (addresses : List String) (s : ServerMap) (a : String) :
    a ∈ addresses.foldl (fun servers addr => servers.insert addr ⟨"http://" ++ addr, 0⟩) s ↔
      a ∈ s ∨ a ∈ addresses := by
  induction addresses generalizing s with
  | nil => simp
  | cons b l ih =>
    rw [List.foldl_cons, ih, AList.mem_insert, List.mem_cons]
    tauto

/-- The keys of the backend `createBackend` builds are the addresses. -/
theorem createBackend_keys (addresses : List String) (key : String) :
    (mapLookup (createBackend addresses).Servers key).isSome ↔ key ∈ addresses := by
  cases addresses with
  | nil => simp [createBackend, Backend.zero, mapLookup]
  | cons a l =>
    simp only [createBackend, List.length_cons, Nat.add_one_ne_zero, if_false, mapLookup]
    rw [AList.lookup_isSome, foldl_insert_mem_iff]
    simp

/-- A backend derived from the cluster is built by `createBackend`. -/
theorem getBackendECS_ok (util : Util) (inv inv1 : Inventory) (service : String)
    (live : Backend) (h : getBackendECS util inv service = (.ok live, inv1)) :
    ∃ addresses, live = createBackend addresses := by
  unfold getBackendECS at h
  split at h
  · cases h
  · split at h
    · cases h
    · split at h
      · cases h
      · simp only [Prod.mk.injEq, Outcome.ok.injEq] at h
        exact ⟨_, h.1.symm⟩

/-! ## C1 -/

/-- C1 (as amended): whenever deriving the live set and reading the store do not
fail, `diff` returns true exactly when the live and the stored server maps are
deeply equal: both nil or both non-nil, and every key with the same server (URL
and weight) in both, a missing record counting as the nil map. For a missing
record it returns (true, nil) when the live set is empty and (false, nil) when
it is not. -/
theorem diff_true_iff_servers_deep_equal (util : Util) (w : World) (service : String)
    (live : Backend) (inv1 : Inventory)
    (hlive : getBackendECS util w.inv service = (.ok live, inv1))
    (hread : w.db.tick.fault = none)
    (hdec : ∀ item, w.db.seen (service ++ "__backend") = some item → item.unmarshalErr = none) :
    (∃ b, (diff util w service).1 = .ok b ∧
      (b = true ↔
        (live.Servers.isSome = (storedServers w.db service).isSome ∧
          ∀ key, mapLookup live.Servers key = mapLookup (storedServers w.db service) key))) ∧
    (w.db.seen (service ++ "__backend") = none →
      (diff util w service).1 = .ok (decide (mapLen live.Servers = 0))) := by
  have hdiff : (diff util w service).1 =
      .ok (DeepEqual live.Servers (storedServers w.db service)) := by
    unfold diff getBackend storedServers
    rw [hlive]
    cases hs : w.db.seen (service ++ "__backend") with
    | none =>
      rw [getBackendItem_absent w.db service hread hs]
      have hc := Contains_wrapText _ ("getBackendItem(" ++ service ++ ")") _
        (notFound_text_contains service)
      simp [hc, Backend.zero]
    | some item =>
      rw [getBackendItem_found w.db service item hread hs (hdec item hs)]
      simp [Item.toBackendItem]
  constructor
  · exact ⟨_, hdiff, DeepEqual_iff _ _⟩
  · intro hs
    rw [hdiff]
    obtain ⟨addresses, hl⟩ := getBackendECS_ok util w.inv inv1 service live hlive
    have hst : storedServers w.db service = none := by simp [storedServers, hs]
    rw [hst, hl]
    cases addresses with
    | nil => simp [createBackend, Backend.zero, DeepEqual, mapLen]
    | cons a l =>
      have h0 := (createBackend_mapLen (a :: l)).not.mpr (by simp)
      simp only [h0, decide_False]
      simp [createBackend, DeepEqual]

/-- Witness of C1 (as amended): the service `hello` with one task at
`10.0.0.4:8090` and no stored record, the scenario of the specification. -/
theorem diff_true_iff_servers_deep_equal_witness :
    (∃ b, (diff (helloUtil 10) ⟨freshInventory, emptyDb⟩ "hello").1 = .ok b ∧
      (b = true ↔
        ((createBackend ["10.0.0.4:8090"]).Servers.isSome =
            (storedServers emptyDb "hello").isSome ∧
          ∀ key, mapLookup (createBackend ["10.0.0.4:8090"]).Servers key =
            mapLookup (storedServers emptyDb "hello") key))) ∧
    (diff (helloUtil 10) ⟨freshInventory, emptyDb⟩ "hello").1 =
      .ok (decide (mapLen (createBackend ["10.0.0.4:8090"]).Servers = 0)) :=
  ⟨(diff_true_iff_servers_deep_equal (helloUtil 10) ⟨freshInventory, emptyDb⟩ "hello"
      (createBackend ["10.0.0.4:8090"]) (getBackendECS (helloUtil 10) freshInventory "hello").2
      (Prod.ext (by decide) rfl) rfl (fun item h => by cases h)).1,
    (diff_true_iff_servers_deep_equal (helloUtil 10) ⟨freshInventory, emptyDb⟩ "hello"
      (createBackend ["10.0.0.4:8090"]) (getBackendECS (helloUtil 10) freshInventory "hello").2
      (Prod.ext (by decide) rfl) rfl (fun item h => by cases h)).2 rfl⟩

/-- Counterexample to C1 as stated: the live set and the stored set of `hello`
have the same single key `10.0.0.4:8090`, deriving and reading succeed, and
`diff` returns (false, nil), because the stored server has another URL. -/
theorem diff_same_keys_false :
    (getBackendECS (helloUtil 10) freshInventory "hello").1 =
        .ok (createBackend ["10.0.0.4:8090"]) ∧
      (dbWith "hello__backend" helloItemHttps).tick.fault = none ∧
      mapKeys (createBackend ["10.0.0.4:8090"]).Servers = ["10.0.0.4:8090"] ∧
      mapKeys (storedServers (dbWith "hello__backend" helloItemHttps) "hello") =
        ["10.0.0.4:8090"] ∧
      (diff (helloUtil 10) ⟨freshInventory, dbWith "hello__backend" helloItemHttps⟩ "hello").1 =
        .ok false := by
  decide

/-! ## C4: the record a sync leaves -/

theorem sync_ok_live (util : Util) (w w1 : World) (service : String)
    (hsync : sync util w service = (.ok (), w1)) :
    ∃ live inv1, getBackendECS util w.inv service = (.ok live, inv1) := by
  unfold sync at hsync
  rcases hg : getBackendECS util w.inv service with ⟨res, inv1⟩
  rw [hg] at hsync
  cases res with
  | ok live => exact ⟨live, inv1, rfl⟩
  | error e => simp at hsync
  | panic => simp at hsync


/-- C4: overwrite correctness. With `MaxTries` at least 1, whatever the table
holds for the service and whatever happens around the calls, a `sync` that
returns without error leaves a record whose server map is the live one: its
keys are exactly the addresses derived from the cluster. -/
theorem sync_overwrites_stored_servers (util : Util) (w w1 : World) (service : String)
    (live : Backend) (inv1 : Inventory)
    (hMax : 0 < util.MaxTries)
    (hlive : getBackendECS util w.inv service = (.ok live, inv1))
    (hsync : sync util w service = (.ok (), w1)) :
    ∃ item addresses, w1.db.store (service ++ "__backend") = some item ∧
      live = createBackend addresses ∧
      item.backend.Servers = live.Servers ∧
      ∀ key, (mapLookup item.backend.Servers key).isSome ↔ key ∈ addresses := by
  obtain ⟨_, item, hst, hsv, _⟩ := sync_ok_stored util w w1 service live inv1 hMax hlive hsync
  obtain ⟨addresses, hl⟩ := getBackendECS_ok util w.inv inv1 service live hlive
  refine ⟨item, addresses, hst, hl, hsv, fun key => ?_⟩
  rw [hsv, hl]
  exact createBackend_keys addresses key

/-- Witness of C4: the stored set of `hello` is `A`, `B` and the live set is
`10.0.0.4:8090`. -/
theorem sync_overwrites_stored_servers_witness :
    ∃ item addresses,
      (sync (helloUtil 10) ⟨freshInventory, dbWith "hello__backend" helloItemAB⟩ "hello").2.db.store
          ("hello" ++ "__backend") = some item ∧
      createBackend ["10.0.0.4:8090"] = createBackend addresses ∧
      item.backend.Servers = (createBackend ["10.0.0.4:8090"]).Servers ∧
      ∀ key, (mapLookup item.backend.Servers key).isSome ↔ key ∈ addresses :=
  sync_overwrites_stored_servers (helloUtil 10)
    ⟨freshInventory, dbWith "hello__backend" helloItemAB⟩
    (sync (helloUtil 10) ⟨freshInventory, dbWith "hello__backend" helloItemAB⟩ "hello").2
    "hello" (createBackend ["10.0.0.4:8090"])
    (getBackendECS (helloUtil 10) freshInventory "hello").2
    (by decide) (Prod.ext (by decide) rfl) (Prod.ext (by decide) rfl)

/-! ## A quiet store -/

theorem quiet_tick (db : Db) (hq : db.sched = []) : db.tick = Tick.quiet := by
  simp [Db.tick, hq]

theorem quiet_seen (db : Db) (hq : db.sched = []) : db.seen = db.store := by
  simp [Db.seen, quiet_tick db hq, Tick.quiet]

theorem quiet_fault (db : Db) (hq : db.sched = []) : db.tick.fault = none := by
  rw [quiet_tick db hq]; rfl

/-- With nothing scheduled, one attempt of an update on an existing record that
decodes fetches it and commits the conditional update. -/
theorem updateBackendAttempt_quiet (MaxTries : Int) (name : String) (D : Backend) (ow : Bool)
    (db : Db) (item : Item) (hq : db.sched = [])
    (hrec : db.store (name ++ "__backend") = some item) (hdec : item.unmarshalErr = none) :
    updateBackendAttempt MaxTries name D ow db =
      (.done none,
        ⟨db.store.set (name ++ "__backend")
            { item with
              version := item.version + 1,
              backend := (updatedBackend (item.toBackendItem (name ++ "__backend")) D ow).Backend },
          [],
          db.log ++ [.GetItem (name ++ "__backend") (.item item),
            .UpdateItem (name ++ "__backend") item.version
              (updatedBackend (item.toBackendItem (name ++ "__backend")) D ow).Backend none]⟩) := by
  have hseen := quiet_seen db hq
  have hf := quiet_fault db hq
  unfold updateBackendAttempt
  rw [getBackendItem_found db name item hf (by rw [hseen]; exact hrec) hdec]
  have hq1 : (db.after db.seen (.GetItem (name ++ "__backend") (.item item))).sched = [] := by
    simp [Db.after, hq]
  have hid : (updatedBackend (item.toBackendItem (name ++ "__backend")) D ow).ID =
      name ++ "__backend" := by
    have := (updatedBackend_frame (item.toBackendItem (name ++ "__backend")) D ow).1
    exact congrArg EndItem.ID this
  have hver : (updatedBackend (item.toBackendItem (name ++ "__backend")) D ow).Version =
      item.version := by
    have := (updatedBackend_frame (item.toBackendItem (name ++ "__backend")) D ow).1
    exact congrArg EndItem.Version this
  simp only
  rw [updateBackendWithLock_served _ _ (quiet_fault _ hq1), quiet_seen _ hq1, hid, hver,
    conditionalUpdate_hit _ _ _ _ item (by simp [Db.after, hseen, hrec]) rfl]
  simp [Wrap, Db.after, hq, hseen]

/-- With nothing scheduled, one attempt of a removal on an existing record that
decodes fetches it and commits the conditional update. -/
theorem removeServerAttempt_quiet (name portIP : String) (db : Db) (item : Item)
    (hq : db.sched = []) (hrec : db.store (name ++ "__backend") = some item)
    (hdec : item.unmarshalErr = none) :
    removeServerAttempt name portIP db =
      (.done none,
        ⟨db.store.set (name ++ "__backend")
            { item with
              version := item.version + 1,
              backend := { item.backend with Servers := mapDelete item.backend.Servers portIP } },
          [],
          db.log ++ [.GetItem (name ++ "__backend") (.item item),
            .UpdateItem (name ++ "__backend") item.version
              { item.backend with Servers := mapDelete item.backend.Servers portIP } none]⟩) := by
  have hseen := quiet_seen db hq
  have hf := quiet_fault db hq
  unfold removeServerAttempt
  rw [getBackendItem_found db name item hf (by rw [hseen]; exact hrec) hdec]
  have hq1 : (db.after db.seen (.GetItem (name ++ "__backend") (.item item))).sched = [] := by
    simp [Db.after, hq]
  simp only
  rw [updateBackendWithLock_served _ _ (quiet_fault _ hq1), quiet_seen _ hq1]
  have hid : (removedServer (item.toBackendItem (name ++ "__backend")) portIP).ID =
      name ++ "__backend" := rfl
  have hver : (removedServer (item.toBackendItem (name ++ "__backend")) portIP).Version =
      item.version := rfl
  rw [hid, hver, conditionalUpdate_hit _ _ _ _ item (by simp [Db.after, hseen, hrec]) rfl]
  simp [Wrap, Db.after, hq, hseen, removedServer, Item.toBackendItem]

/-- With nothing scheduled and `MaxTries` at least 1, an update of an existing
record that decodes is one fetch and one committed conditional update. -/
theorem updateBackendDynamoDB_quiet (MaxTries : Int) (db : Db) (name : String) (D : Backend)
    (ow : Bool) (item : Item) (hMax : 0 < MaxTries) (hq : db.sched = [])
    (hrec : db.store (name ++ "__backend") = some item) (hdec : item.unmarshalErr = none) :
    updateBackendDynamoDB MaxTries db name D ow =
      (none,
        ⟨db.store.set (name ++ "__backend")
            { item with
              version := item.version + 1,
              backend := (updatedBackend (item.toBackendItem (name ++ "__backend")) D ow).Backend },
          [],
          db.log ++ [.GetItem (name ++ "__backend") (.item item),
            .UpdateItem (name ++ "__backend") item.version
              (updatedBackend (item.toBackendItem (name ++ "__backend")) D ow).Backend none]⟩) := by
  obtain ⟨k, hk⟩ : ∃ k, MaxTries.toNat = k + 1 :=
    ⟨MaxTries.toNat - 1, by have := toNat_pos_of_pos _ hMax; omega⟩
  unfold updateBackendDynamoDB
  rw [hk]
  unfold updateBackendLoop
  rw [updateBackendAttempt_quiet MaxTries name D ow db item hq hrec hdec]

/-- With nothing scheduled and `MaxTries` at least 1, a removal from an existing
record that decodes is one fetch and one committed conditional update. -/
theorem removeServerFromBackendDynamoDB_quiet (MaxTries : Int) (db : Db) (name portIP : String)
    (item : Item) (hMax : 0 < MaxTries) (hq : db.sched = [])
    (hrec : db.store (name ++ "__backend") = some item) (hdec : item.unmarshalErr = none) :
    removeServerFromBackendDynamoDB MaxTries db name portIP =
      (none,
        ⟨db.store.set (name ++ "__backend")
            { item with
              version := item.version + 1,
              backend := { item.backend with Servers := mapDelete item.backend.Servers portIP } },
          [],
          db.log ++ [.GetItem (name ++ "__backend") (.item item),
            .UpdateItem (name ++ "__backend") item.version
              { item.backend with Servers := mapDelete item.backend.Servers portIP } none]⟩) := by
  obtain ⟨k, hk⟩ : ∃ k, MaxTries.toNat = k + 1 :=
    ⟨MaxTries.toNat - 1, by have := toNat_pos_of_pos _ hMax; omega⟩
  unfold removeServerFromBackendDynamoDB
  rw [hk]
  unfold removeServerLoop
  rw [removeServerAttempt_quiet name portIP db item hq hrec hdec]

/-! ## C3 -/

/-- C3: merge correctness. With `MaxTries` at least 1, the store reachable and
nobody else writing, for every stored record (server map `S`) and every desired
backend (server map `D`), `updateBackendDynamoDB(name, D, false)` returns nil and
leaves a server map whose keys are those of `S` and of `D`, where a key outside
`D` keeps its entry of `S` and a key of `D` has the entry of `D`. -/
theorem updateBackendDynamoDB_merges_servers (MaxTries : Int) (db : Db) (name : String)
    (D : Backend) (item : Item)
    (hMax : 0 < MaxTries) (hq : db.sched = [])
    (hrec : db.store (name ++ "__backend") = some item) (hdec : item.unmarshalErr = none) :
    (updateBackendDynamoDB MaxTries db name D false).1 = none ∧
    ∃ item', (updateBackendDynamoDB MaxTries db name D false).2.store (name ++ "__backend") =
        some item' ∧
      (∀ key, (mapLookup item'.backend.Servers key).isSome ↔
        ((mapLookup item.backend.Servers key).isSome ∨ (mapLookup D.Servers key).isSome)) ∧
      (∀ key, mapLookup D.Servers key = none →
        mapLookup item'.backend.Servers key = mapLookup item.backend.Servers key) ∧
      (∀ key server, mapLookup D.Servers key = some server →
        mapLookup item'.backend.Servers key = some server) := by
  rw [updateBackendDynamoDB_quiet MaxTries db name D false item hMax hq hrec hdec]
  have hl := updateBackendItemServers_lookup (item.toBackendItem (name ++ "__backend")) D
  refine ⟨rfl,
    { item with
      version := item.version + 1,
      backend := (updatedBackend (item.toBackendItem (name ++ "__backend")) D false).Backend },
    by simp [Store.set], ?_, ?_, ?_⟩
  · intro key
    simp only [updatedBackend, Bool.false_eq_true, if_false]
    rw [hl key]
    cases hD : mapLookup D.Servers key <;> simp [Item.toBackendItem]
  · intro key hD
    simp only [updatedBackend, Bool.false_eq_true, if_false]
    rw [hl key, hD]
    rfl
  · intro key server hD
    simp only [updatedBackend, Bool.false_eq_true, if_false]
    rw [hl key, hD]

/-- Witness of C3: the stored set is `A`, `B`, the incoming endpoint is `C`. -/
theorem updateBackendDynamoDB_merges_servers_witness :
    (updateBackendDynamoDB 10 (dbWith "hello__backend" helloItemAB) "hello"
        (createBackend ["C"]) false).1 = none ∧
    ∃ item', (updateBackendDynamoDB 10 (dbWith "hello__backend" helloItemAB) "hello"
        (createBackend ["C"]) false).2.store ("hello" ++ "__backend") = some item' ∧
      (∀ key, (mapLookup item'.backend.Servers key).isSome ↔
        ((mapLookup helloItemAB.backend.Servers key).isSome ∨
          (mapLookup (createBackend ["C"]).Servers key).isSome)) ∧
      (∀ key, mapLookup (createBackend ["C"]).Servers key = none →
        mapLookup item'.backend.Servers key = mapLookup helloItemAB.backend.Servers key) ∧
      (∀ key server, mapLookup (createBackend ["C"]).Servers key = some server →
        mapLookup item'.backend.Servers key = some server) :=
  updateBackendDynamoDB_merges_servers 10 (dbWith "hello__backend" helloItemAB) "hello"
    (createBackend ["C"]) helloItemAB (by decide) rfl (by decide) rfl

/-! ## C5 -/

/-- With nothing scheduled and `MaxTries` at least 1, a removal for a name
without a record is one fetch that finds nothing. -/
theorem removeServerFromBackendDynamoDB_absent (MaxTries : Int) (db : Db) (name portIP : String)
    (hMax : 0 < MaxTries) (hq : db.sched = []) (hrec : db.store (name ++ "__backend") = none) :
    removeServerFromBackendDynamoDB MaxTries db name portIP =
      (some (wrapText (wrapText ErrItemNotFound ("getItem(id, " ++ name ++ ")"))
          ("getBackendItem(" ++ name ++ ")")),
        ⟨db.store, [], db.log ++ [.GetItem (name ++ "__backend") .empty]⟩) := by
  obtain ⟨k, hk⟩ : ∃ k, MaxTries.toNat = k + 1 :=
    ⟨MaxTries.toNat - 1, by have := toNat_pos_of_pos _ hMax; omega⟩
  unfold removeServerFromBackendDynamoDB
  rw [hk]
  unfold removeServerLoop removeServerAttempt
  rw [getBackendItem_absent db name (quiet_fault db hq) (by rw [quiet_seen db hq]; exact hrec)]
  simp [Db.after, hq, quiet_seen db hq]

/-- C5: removal correctness. With `MaxTries` at least 1, the store reachable and
nobody else writing: for a stored record with server map `S`,
`removeServerFromBackendDynamoDB(name, e)` returns nil and leaves `S` without the
key `e`, all other keys as they were, so that for `e` not a key of `S` the map
is `S` key for key; and with no record for `name` the call returns an error,
makes the one fetch and leaves the table without a record for `name`. -/
theorem removeServer_removes_key (MaxTries : Int) (db : Db) (name portIP : String)
    (hMax : 0 < MaxTries) (hq : db.sched = []) :
    (∀ item, db.store (name ++ "__backend") = some item → item.unmarshalErr = none →
      (removeServerFromBackendDynamoDB MaxTries db name portIP).1 = none ∧
      ∃ item', (removeServerFromBackendDynamoDB MaxTries db name portIP).2.store
          (name ++ "__backend") = some item' ∧
        (∀ key, mapLookup item'.backend.Servers key =
          if key = portIP then none else mapLookup item.backend.Servers key) ∧
        (mapLookup item.backend.Servers portIP = none →
          ∀ key, mapLookup item'.backend.Servers key = mapLookup item.backend.Servers key)) ∧
    (db.store (name ++ "__backend") = none →
      (removeServerFromBackendDynamoDB MaxTries db name portIP).1 ≠ none ∧
      (removeServerFromBackendDynamoDB MaxTries db name portIP).2.store = db.store ∧
      newCalls db (removeServerFromBackendDynamoDB MaxTries db name portIP).2 =
        [.GetItem (name ++ "__backend") .empty]) := by
  constructor
  · intro item hrec hdec
    rw [removeServerFromBackendDynamoDB_quiet MaxTries db name portIP item hMax hq hrec hdec]
    refine ⟨rfl,
      { item with
        version := item.version + 1,
        backend := { item.backend with Servers := mapDelete item.backend.Servers portIP } },
      by simp [Store.set], fun key => mapDelete_lookup _ _ _, fun hnone key => ?_⟩
    simp only
    rw [mapDelete_lookup]
    split
    · next h => rw [h, hnone]
    · rfl
  · intro hrec
    rw [removeServerFromBackendDynamoDB_absent MaxTries db name portIP hMax hq hrec]
    exact ⟨by simp, rfl, by simp [newCalls]⟩

/-- Witness of C5: from the stored set `A`, `B` the endpoint `A` is removed; and
a removal for `hello` from the empty table. -/
theorem removeServer_removes_key_witness :
    ((removeServerFromBackendDynamoDB 10 (dbWith "hello__backend" helloItemAB) "hello" "A").1 =
        none ∧
      ∃ item', (removeServerFromBackendDynamoDB 10 (dbWith "hello__backend" helloItemAB)
          "hello" "A").2.store ("hello" ++ "__backend") = some item' ∧
        (∀ key, mapLookup item'.backend.Servers key =
          if key = "A" then none else mapLookup helloItemAB.backend.Servers key) ∧
        (mapLookup helloItemAB.backend.Servers "A" = none →
          ∀ key, mapLookup item'.backend.Servers key =
            mapLookup helloItemAB.backend.Servers key)) ∧
    ((removeServerFromBackendDynamoDB 10 emptyDb "hello" "A").1 ≠ none ∧
      (removeServerFromBackendDynamoDB 10 emptyDb "hello" "A").2.store = emptyDb.store ∧
      newCalls emptyDb (removeServerFromBackendDynamoDB 10 emptyDb "hello" "A").2 =
        [.GetItem ("hello" ++ "__backend") .empty]) :=
  ⟨(removeServer_removes_key 10 (dbWith "hello__backend" helloItemAB) "hello" "A"
      (by decide) rfl).1 helloItemAB rfl rfl,
    (removeServer_removes_key 10 emptyDb "hello" "A" (by decide) rfl).2 rfl⟩

/-! ## C7 and C8 -/

theorem newCalls_of_append (before after : Db) (l : List StoreCall)
    (h : after.log = before.log ++ l) : newCalls before after = l := by
  simp [newCalls, h]

/-- C7: create on first write. With `MaxTries` at least 1, when the fetch is
served and finds no record for the service, `updateBackendDynamoDB`, for either
value of `overwriteServers`, makes after the fetch one `PutItem` and nothing
else, of the record with id `name + "__backend"`, name `name`, version 0 and the
desired backend, returns what `createBackendDynamoDB` returns for that put, and
the record is in the table when the put succeeds. -/
theorem updateBackendDynamoDB_creates_record (MaxTries : Int) (db : Db) (name : String)
    (D : Backend) (ow : Bool)
    (hMax : 0 < MaxTries) (hf : db.tick.fault = none)
    (habs : db.seen (name ++ "__backend") = none) :
    createBackendItem name D = ⟨⟨name ++ "__backend", name, 0⟩, D⟩ ∧
    updateBackendDynamoDB MaxTries db name D ow =
      createBackendDynamoDB (db.after db.seen (.GetItem (name ++ "__backend") .empty)) name
        (createBackendItem name D) ∧
    (∃ err, newCalls db (updateBackendDynamoDB MaxTries db name D ow).2 =
        [.GetItem (name ++ "__backend") .empty,
          .PutItem (name ++ "__backend") ⟨name, 0, D, none⟩ err] ∧
      (updateBackendDynamoDB MaxTries db name D ow).1 = Wrap err "dynamodb.PutItem()" ∧
      (err = none →
        (updateBackendDynamoDB MaxTries db name D ow).2.store (name ++ "__backend") =
          some ⟨name, 0, D, none⟩)) := by
  obtain ⟨k, hk⟩ : ∃ k, MaxTries.toNat = k + 1 :=
    ⟨MaxTries.toNat - 1, by have := toNat_pos_of_pos _ hMax; omega⟩
  have hrun : updateBackendDynamoDB MaxTries db name D ow =
      createBackendDynamoDB (db.after db.seen (.GetItem (name ++ "__backend") .empty)) name
        (createBackendItem name D) := by
    unfold updateBackendDynamoDB
    rw [hk]
    unfold updateBackendLoop updateBackendAttempt
    rw [getBackendItem_absent db name hf habs]
    simp [notFound_text_contains]
  refine ⟨rfl, hrun, ?_⟩
  rw [hrun]
  cases hf1 : (db.after db.seen (.GetItem (name ++ "__backend") .empty)).tick.fault with
  | some m =>
    rw [createBackendDynamoDB_fault _ name m _ hf1]
    exact ⟨some m, by simp [newCalls, Db.after, createBackendItem], by simp [Wrap],
      fun h => by cases h⟩
  | none =>
    rw [createBackendDynamoDB_served _ name _ hf1]
    exact ⟨none, by simp [newCalls, Db.after, createBackendItem], by simp [Wrap],
      fun _ => by simp [Db.after, Store.set, createBackendItem]⟩

/-- Witness of C7: no record for `hello`, one address desired. -/
theorem updateBackendDynamoDB_creates_record_witness :
    createBackendItem "hello" (createBackend ["10.0.0.4:8090"]) =
      ⟨⟨"hello" ++ "__backend", "hello", 0⟩, createBackend ["10.0.0.4:8090"]⟩ ∧
    updateBackendDynamoDB 10 emptyDb "hello" (createBackend ["10.0.0.4:8090"]) false =
      createBackendDynamoDB
        (emptyDb.after emptyDb.seen (.GetItem ("hello" ++ "__backend") .empty)) "hello"
        (createBackendItem "hello" (createBackend ["10.0.0.4:8090"])) ∧
    (∃ err, newCalls emptyDb
          (updateBackendDynamoDB 10 emptyDb "hello" (createBackend ["10.0.0.4:8090"]) false).2 =
        [.GetItem ("hello" ++ "__backend") .empty,
          .PutItem ("hello" ++ "__backend")
            ⟨"hello", 0, createBackend ["10.0.0.4:8090"], none⟩ err] ∧
      (updateBackendDynamoDB 10 emptyDb "hello" (createBackend ["10.0.0.4:8090"]) false).1 =
        Wrap err "dynamodb.PutItem()" ∧
      (err = none →
        (updateBackendDynamoDB 10 emptyDb "hello" (createBackend ["10.0.0.4:8090"]) false).2.store
            ("hello" ++ "__backend") =
          some ⟨"hello", 0, createBackend ["10.0.0.4:8090"], none⟩)) :=
  updateBackendDynamoDB_creates_record 10 emptyDb "hello" (createBackend ["10.0.0.4:8090"])
    false (by decide) rfl rfl

/-- C8: optimistic-lock write. `updateBackendWithLock(record)` makes exactly one
call, the `UpdateItem` keyed by `record.ID` with the condition value
`record.Version` and the backend `record.Backend`. When the call is served and
the stored version equals `record.Version`, it returns nil and the stored item
has version `record.Version + 1` and backend `record.Backend`, all else as it
was; when the stored version differs, it returns an error and the table is as
the call found it. -/
theorem updateBackendWithLock_conditional_write (db : Db) (record : BackendItem) :
    (∃ err, newCalls db (updateBackendWithLock db record).2 =
        [.UpdateItem record.ID record.Version record.Backend err] ∧
      (updateBackendWithLock db record).1 = Wrap err "dynamodb.UpdateItem()") ∧
    (db.tick.fault = none → ∀ item, db.seen record.ID = some item →
      (item.version = record.Version →
        (updateBackendWithLock db record).1 = none ∧
        (updateBackendWithLock db record).2.store =
          db.seen.set record.ID
            { item with version := record.Version + 1, backend := record.Backend }) ∧
      (item.version ≠ record.Version →
        (updateBackendWithLock db record).1 =
          some (wrapText conditionalCheckFailed "dynamodb.UpdateItem()") ∧
        (updateBackendWithLock db record).2.store = db.seen)) := by
  constructor
  · cases hf : db.tick.fault with
    | some m =>
      rw [updateBackendWithLock_fault db record m hf]
      exact ⟨some m, by simp [newCalls, Db.after], by simp [Wrap]⟩
    | none =>
      rw [updateBackendWithLock_served db record hf]
      exact ⟨_, by simp [newCalls, Db.after], rfl⟩
  · intro hf item hs
    rw [updateBackendWithLock_served db record hf]
    constructor
    · intro hv
      rw [conditionalUpdate_hit _ _ _ _ item hs hv]
      exact ⟨rfl, rfl⟩
    · intro hv
      rw [conditionalUpdate_miss _ _ _ _ (by
        intro i hi; rw [hs] at hi; cases hi; exact hv)]
      exact ⟨rfl, rfl⟩

/-- Witness of C8: the record of `hello` is stored at version 3; a write that
read version 3 commits, a write that read version 2 is refused. -/
theorem updateBackendWithLock_conditional_write_witness :
    ((updateBackendWithLock (dbWith "hello__backend" helloItemAB)
          ⟨⟨"hello__backend", "hello", 3⟩, createBackend ["C"]⟩).1 = none ∧
      (updateBackendWithLock (dbWith "hello__backend" helloItemAB)
          ⟨⟨"hello__backend", "hello", 3⟩, createBackend ["C"]⟩).2.store =
        (dbWith "hello__backend" helloItemAB).seen.set "hello__backend"
          { helloItemAB with version := 3 + 1, backend := createBackend ["C"] }) ∧
    ((updateBackendWithLock (dbWith "hello__backend" helloItemAB)
          ⟨⟨"hello__backend", "hello", 2⟩, createBackend ["C"]⟩).1 =
        some (wrapText conditionalCheckFailed "dynamodb.UpdateItem()") ∧
      (updateBackendWithLock (dbWith "hello__backend" helloItemAB)
          ⟨⟨"hello__backend", "hello", 2⟩, createBackend ["C"]⟩).2.store =
        (dbWith "hello__backend" helloItemAB).seen) :=
  ⟨((updateBackendWithLock_conditional_write (dbWith "hello__backend" helloItemAB)
      ⟨⟨"hello__backend", "hello", 3⟩, createBackend ["C"]⟩).2 rfl helloItemAB rfl).1 rfl,
    ((updateBackendWithLock_conditional_write (dbWith "hello__backend" helloItemAB)
      ⟨⟨"hello__backend", "hello", 2⟩, createBackend ["C"]⟩).2 rfl helloItemAB rfl).2
      (by decide)⟩

/-! ## C9 -/

theorem othersWrites_two (sched : List Tick) (s : Store) :
    othersWrites (sched.take 2) s =
      (sched.tail.headD Tick.quiet).interfere ((sched.headD Tick.quiet).interfere s) := by
  cases sched with
  | nil => rfl
  | cons a l =>
    cases l with
    | nil => rfl
    | cons b l => rfl

theorem othersWrites_step (sched : List Tick) (s : Store) (k : Nat) :
    othersWrites ((sched.drop 2).take (2 * k)) (othersWrites (sched.take 2) s) =
      othersWrites (sched.take (2 * (k + 1))) s := by
  cases sched with
  | nil => simp [othersWrites]
  | cons a l =>
    cases l with
    | nil => simp [othersWrites, Nat.mul_add]
    | cons b l => simp [othersWrites, Nat.mul_add]

theorem updateBackendWithLock_eq (db : Db) (endItem : BackendItem) :
    updateBackendWithLock db endItem =
      (Wrap (UpdateItem db endItem.ID endItem.Version endItem.Backend).1 "dynamodb.UpdateItem()",
        (UpdateItem db endItem.ID endItem.Version endItem.Backend).2) := rfl

theorem UpdateItem_db (db : Db) (id : String) (version : Nat) (backend : Backend) :
    (UpdateItem db id version backend).2 =
      db.after (UpdateItem db id version backend).2.store
        (.UpdateItem id version backend (UpdateItem db id version backend).1) := rfl

/-- An `UpdateItem` that returns an error leaves the table as it found it. -/
theorem UpdateItem_failed_store (db : Db) (id : String) (version : Nat) (backend : Backend)
    (h : (UpdateItem db id version backend).1 ≠ none) :
    (UpdateItem db id version backend).2.store = db.seen := by
  unfold UpdateItem at h ⊢
  cases hf : db.tick.fault with
  | some m => simp
  | none =>
    simp only [hf] at h ⊢
    unfold conditionalUpdate at h ⊢
    split
    · rfl
    · split
      · next hv => simp [*] at h
      · rfl

/-- An attempt all of whose calls are a fetch that finds the record and a
conditional update that fails on its condition leaves the table to the other
clients and asks for another attempt. -/
theorem updateBackendAttempt_conflict (MaxTries : Int) (name : String) (D : Backend) (ow : Bool)
    (db : Db)
    (h : ∀ c ∈ newCalls db (updateBackendAttempt MaxTries name D ow db).2,
      c.foundOrConflict = true) :
    ∃ item b, updateBackendAttempt MaxTries name D ow db =
      (.again (wrapText conditionalCheckFailed "dynamodb.UpdateItem()"),
        ⟨othersWrites (db.sched.take 2) db.store, db.sched.drop 2,
          db.log ++ [.GetItem (name ++ "__backend") (.item item),
            .UpdateItem (name ++ "__backend") item.version b (some conditionalCheckFailed)]⟩) := by
  unfold updateBackendAttempt at h ⊢
  cases hf : db.tick.fault with
  | some m =>
    rw [getBackendItem_fault db name m hf] at h
    simp only at h
    split at h
    · obtain ⟨s, err, hc⟩ := createBackendDynamoDB_db
        (db.after db.seen (.GetItem (name ++ "__backend") (.err m))) name
        (createBackendItem name D)
      have := h (.GetItem (name ++ "__backend") (.err m)) (by
        rw [newCalls_of_append _ _ _ (by rw [hc]; simp [Db.after]; rfl)]; simp)
      simp [StoreCall.foundOrConflict] at this
    · have := h (.GetItem (name ++ "__backend") (.err m)) (by simp [newCalls, Db.after])
      simp [StoreCall.foundOrConflict] at this
  | none =>
    cases hs : db.seen (name ++ "__backend") with
    | none =>
      rw [getBackendItem_absent db name hf hs] at h
      simp only [notFound_text_contains, if_true] at h
      obtain ⟨s, err, hc⟩ := createBackendDynamoDB_db
        (db.after db.seen (.GetItem (name ++ "__backend") .empty)) name
        (createBackendItem name D)
      have := h (.GetItem (name ++ "__backend") .empty) (by
        rw [newCalls_of_append _ _ _ (by rw [hc]; simp [Db.after]; rfl)]; simp)
      simp [StoreCall.foundOrConflict] at this
    | some item =>
      cases hu : item.unmarshalErr with
      | some m =>
        rw [getBackendItem_undecodable db name m item hf hs hu] at h
        simp only at h
        split at h
        · obtain ⟨s, err, hc⟩ := createBackendDynamoDB_db
            (db.after db.seen (.GetItem (name ++ "__backend") (.item item))) name
            (createBackendItem name D)
          have := h (.GetItem (name ++ "__backend") (.item item)) (by
            rw [newCalls_of_append _ _ _ (by rw [hc]; simp [Db.after]; rfl)]; simp)
          simp [StoreCall.foundOrConflict, hu] at this
        · have := h (.GetItem (name ++ "__backend") (.item item)) (by
            simp [newCalls, Db.after])
          simp [StoreCall.foundOrConflict, hu] at this
      | none =>
        rw [getBackendItem_found db name item hf hs hu] at h ⊢
        have hid : (updatedBackend (item.toBackendItem (name ++ "__backend")) D ow).ID =
            name ++ "__backend" :=
          congrArg EndItem.ID (updatedBackend_frame (item.toBackendItem _) D ow).1
        have hver : (updatedBackend (item.toBackendItem (name ++ "__backend")) D ow).Version =
            item.version :=
          congrArg EndItem.Version (updatedBackend_frame (item.toBackendItem _) D ow).1
        have hstore : (db.after db.seen (.GetItem (name ++ "__backend") (.item item))).seen =
            othersWrites (db.sched.take 2) db.store := by
          rw [othersWrites_two]; rfl
        refine ⟨item, (updatedBackend (item.toBackendItem (name ++ "__backend")) D ow).Backend, ?_⟩
        simp only [updateBackendWithLock_eq, hid, hver] at h ⊢
        have hdb := UpdateItem_db (db.after db.seen (.GetItem (name ++ "__backend") (.item item)))
          (name ++ "__backend") item.version
          (updatedBackend (item.toBackendItem (name ++ "__backend")) D ow).Backend
        have hfs := UpdateItem_failed_store
          (db.after db.seen (.GetItem (name ++ "__backend") (.item item)))
          (name ++ "__backend") item.version
          (updatedBackend (item.toBackendItem (name ++ "__backend")) D ow).Backend
        rcases hU : UpdateItem (db.after db.seen (.GetItem (name ++ "__backend") (.item item)))
            (name ++ "__backend") item.version
            (updatedBackend (item.toBackendItem (name ++ "__backend")) D ow).Backend
          with ⟨err, db2⟩
        rw [hU] at h hdb hfs
        simp only at hdb hfs
        cases err with
        | none =>
          simp only [Wrap, Option.map_none'] at h
          have := h (.UpdateItem (name ++ "__backend") item.version
            (updatedBackend (item.toBackendItem (name ++ "__backend")) D ow).Backend none) (by
              rw [newCalls_of_append _ _ _ (by rw [hdb]; simp [Db.after]; rfl)]; simp)
          simp [StoreCall.foundOrConflict] at this
        | some e =>
          have hlog : ∀ a : Attempt, newCalls db (a, db2).2 =
              [.GetItem (name ++ "__backend") (.item item),
                .UpdateItem (name ++ "__backend") item.version
                  (updatedBackend (item.toBackendItem (name ++ "__backend")) D ow).Backend
                  (some e)] := by
            intro a
            rw [newCalls_of_append _ _ _ (by rw [hdb]; simp [Db.after]; rfl)]
          have he : e = conditionalCheckFailed := by
            have hm := h (.UpdateItem (name ++ "__backend") item.version
              (updatedBackend (item.toBackendItem (name ++ "__backend")) D ow).Backend (some e)) (by
                simp only [Wrap, Option.map_some']
                split
                · rw [hlog]; simp
                · rw [hlog]; simp)
            simpa [StoreCall.foundOrConflict] using hm
          subst he
          simp only [Wrap, Option.map_some', conflict_text_contains, Bool.not_true,
            Bool.false_eq_true, if_false]
          have hst := hfs (by simp)
          rw [hdb, ← hstore]
          simp only [Db.after] at hst ⊢
          rw [hst]
          simp [Db.after, Db.seen, Db.tick, tail_tail_eq_drop]

theorem updateBackendLoop_log (MaxTries : Int) (name : String) (D : Backend) (ow : Bool) :
    ∀ (k : Nat) (err : GoError) (db : Db),
      ∃ calls, (updateBackendLoop MaxTries name D ow k err db).2.log = db.log ++ calls := by
  intro k
  induction k with
  | zero => intro err db; exact ⟨[], by simp [updateBackendLoop]⟩
  | succ k ih =>
    intro err db
    obtain ⟨c1, h1, _, _⟩ := updateBackendAttempt_calls MaxTries name D ow db
    unfold updateBackendLoop
    rcases ha : updateBackendAttempt MaxTries name D ow db with ⟨a, db1⟩
    rw [ha] at h1
    cases a with
    | done e => exact ⟨c1, h1⟩
    | again e =>
      obtain ⟨c2, h2⟩ := ih (some e) db1
      exact ⟨c1 ++ c2, by simp only; rw [h2, h1, List.append_assoc]⟩

/-- A run of the update loop all of whose calls are fetches that find the record
and conditional updates that fail on their condition makes `k` attempts, leaves
the table to the other clients and ends with the error of the last conflict. -/
theorem updateBackendLoop_conflict (MaxTries : Int) (name : String) (D : Backend) (ow : Bool) :
    ∀ (k : Nat) (err : GoError) (db : Db),
      (∀ c ∈ newCalls db (updateBackendLoop MaxTries name D ow k err db).2,
        c.foundOrConflict = true) →
      (updateBackendLoop MaxTries name D ow k err db).1 =
          Wrap (if k = 0 then err
            else some (wrapText conditionalCheckFailed "dynamodb.UpdateItem()"))
            ("tried to update " ++ Itoa MaxTries ++ " times") ∧
        (newCalls db (updateBackendLoop MaxTries name D ow k err db).2).map StoreCall.kind =
          attemptKinds k ∧
        (updateBackendLoop MaxTries name D ow k err db).2.store =
          othersWrites (db.sched.take (2 * k)) db.store ∧
        (updateBackendLoop MaxTries name D ow k err db).2.sched = db.sched.drop (2 * k) := by
  intro k
  induction k with
  | zero =>
    intro err db _
    simp [updateBackendLoop, newCalls, attemptKinds, othersWrites]
  | succ k ih =>
    intro err db h
    obtain ⟨c1, h1, _, _⟩ := updateBackendAttempt_calls MaxTries name D ow db
    unfold updateBackendLoop at h ⊢
    rcases ha : updateBackendAttempt MaxTries name D ow db with ⟨a, db1⟩
    rw [ha] at h h1
    cases a with
    | done e =>
      simp only at h
      obtain ⟨item, b, hc⟩ := updateBackendAttempt_conflict MaxTries name D ow db
        (by rw [ha]; exact h)
      rw [ha] at hc
      cases hc
    | again e =>
      simp only at h ⊢
      obtain ⟨c2, h2⟩ := updateBackendLoop_log MaxTries name D ow k (some e) db1
      have hdb1 : newCalls db1 (updateBackendLoop MaxTries name D ow k (some e) db1).2 = c2 :=
        newCalls_of_append _ _ _ h2
      have hall : newCalls db (updateBackendLoop MaxTries name D ow k (some e) db1).2 =
          c1 ++ c2 :=
        newCalls_of_append _ _ _ (by rw [h2, h1, List.append_assoc])
      rw [hall] at h
      obtain ⟨item, b, hc⟩ := updateBackendAttempt_conflict MaxTries name D ow db (by
        rw [ha]
        intro c hcm
        rw [newCalls_of_append _ _ _ h1] at hcm
        exact h c (List.mem_append_left _ hcm))
      rw [ha] at hc
      simp only [Prod.mk.injEq, Attempt.again.injEq] at hc
      obtain ⟨he, hdb⟩ := hc
      obtain ⟨r1, r2, r3, r4⟩ := ih (some e) db1 (by
        rw [hdb1]
        intro c hcm
        exact h c (List.mem_append_right _ hcm))
      have hc1 : c1 = [.GetItem (name ++ "__backend") (.item item),
          .UpdateItem (name ++ "__backend") item.version b (some conditionalCheckFailed)] := by
        have := h1
        rw [hdb] at this
        simpa using this.symm
      refine ⟨?_, ?_, ?_, ?_⟩
      · rw [r1, he]
        by_cases hk : k = 0 <;> simp [hk]
      · rw [hall, List.map_append, ← hdb1, r2, hc1]
        rfl
      · rw [r3, hdb]
        exact othersWrites_step db.sched db.store k
      · rw [r4, hdb]
        simp only [List.drop_drop]
        congr 1
        omega

/-- C9 (as amended): retry exhaustion. With `MaxTries = n` at least 1, if every
fetch of the call finds the record and every conditional write fails with a
version conflict, `updateBackendDynamoDB` makes exactly `n` fetch-then-write
attempts, changes nothing in the table (it is as the other clients left it)
and returns the error "tried to update n times: dynamodb.UpdateItem(): " followed
by the conflict, which names the operation and the number of tries but not the
service. -/
theorem updateBackendDynamoDB_retry_exhaustion (MaxTries : Int) (db : Db) (name : String)
    (D : Backend) (ow : Bool) (hMax : 0 < MaxTries)
    (hrun : ∀ c ∈ newCalls db (updateBackendDynamoDB MaxTries db name D ow).2,
      c.foundOrConflict = true) :
    (newCalls db (updateBackendDynamoDB MaxTries db name D ow).2).map StoreCall.kind =
        attemptKinds MaxTries.toNat ∧
      (updateBackendDynamoDB MaxTries db name D ow).2.store =
        othersWrites (db.sched.take (2 * MaxTries.toNat)) db.store ∧
      (updateBackendDynamoDB MaxTries db name D ow).1 =
        some (wrapText (wrapText conditionalCheckFailed "dynamodb.UpdateItem()")
          ("tried to update " ++ Itoa MaxTries ++ " times")) := by
  unfold updateBackendDynamoDB at hrun ⊢
  obtain ⟨r1, r2, r3, _⟩ :=
    updateBackendLoop_conflict MaxTries name D ow MaxTries.toNat none db hrun
  have hk : MaxTries.toNat ≠ 0 := by have := toNat_pos_of_pos _ hMax; omega
  refine ⟨r2, r3, ?_⟩
  rw [r1]
  simp [hk, Wrap]

/-- Witness of C9 (as amended): two tries, and another client commits a write
before each of the two conditional updates. -/
theorem updateBackendDynamoDB_retry_exhaustion_witness :
    (∀ c ∈ newCalls contendedDb
        (updateBackendDynamoDB 2 contendedDb "hello" (createBackend ["C"]) true).2,
      c.foundOrConflict = true) ∧
    ((newCalls contendedDb
        (updateBackendDynamoDB 2 contendedDb "hello" (createBackend ["C"]) true).2).map
          StoreCall.kind = attemptKinds (2 : Int).toNat ∧
      (updateBackendDynamoDB 2 contendedDb "hello" (createBackend ["C"]) true).2.store =
        othersWrites (contendedDb.sched.take (2 * (2 : Int).toNat)) contendedDb.store ∧
      (updateBackendDynamoDB 2 contendedDb "hello" (createBackend ["C"]) true).1 =
        some (wrapText (wrapText conditionalCheckFailed "dynamodb.UpdateItem()")
          ("tried to update " ++ Itoa 2 ++ " times"))) :=
  ⟨by decide,
    updateBackendDynamoDB_retry_exhaustion 2 contendedDb "hello" (createBackend ["C"]) true
      (by decide) (by decide)⟩

/-- Counterexample to C9 as stated: with two tries for the service `hello`, the
record there and both conditional writes failing with a version conflict, the
error returned is "tried to update 2 times: dynamodb.UpdateItem():
ConditionalCheckFailedException: The conditional request failed", which does not
contain the name of the service. -/
theorem retry_exhaustion_error_omits_service :
    (∀ c ∈ newCalls contendedDb
        (updateBackendDynamoDB 2 contendedDb "hello" (createBackend ["C"]) true).2,
      c.foundOrConflict = true) ∧
    (updateBackendDynamoDB 2 contendedDb "hello" (createBackend ["C"]) true).1 =
      some ("tried to update 2 times: dynamodb.UpdateItem(): " ++
        "ConditionalCheckFailedException: The conditional request failed") ∧
    Contains ("tried to update 2 times: dynamodb.UpdateItem(): " ++
        "ConditionalCheckFailedException: The conditional request failed") "hello" = false := by
  decide

/-! ## C10: failures that end the call -/

/-- Abort on a failure the code does not take for a missing item or a failed
condition. At any iteration of the loop of `updateBackendDynamoDB` (whatever
`err` holds, whatever the table and the schedule are, `k` more iterations being
allowed): a fetch that fails with an error whose text does not contain
`ErrItemNotFound` ends the call there, with that error wrapped and no store
call after the fetch; a conditional write that fails with an error whose text
does not contain `ErrCodeConditionalCheckFailedException` ends the call there,
with that error wrapped and no store call after the write; and the loop goes
into another iteration only after a conditional write whose error text contains
`ErrCodeConditionalCheckFailedException`. -/
theorem updateBackendLoop_aborts_on_other_failure (MaxTries : Int) (name : String)
    (D : Backend) (ow : Bool) (k : Nat) (err : GoError) (db : Db) :
    (∀ e db1, getBackendItem db name = (.error e, db1) →
      Contains e ErrItemNotFound = false →
      updateBackendLoop MaxTries name D ow (k + 1) err db =
          (some (wrapText e ("getBackendItem(" ++ name ++ ")")), db1) ∧
        (newCalls db db1).map StoreCall.kind = [.get]) ∧
    (∀ backend db1 e db2, getBackendItem db name = (.ok backend, db1) →
      updateBackendWithLock db1 (updatedBackend backend D ow) = (some e, db2) →
      (newCalls db db2).map StoreCall.kind = [.get, .update] ∧
      (Contains e ErrCodeConditionalCheckFailedException = false →
        updateBackendLoop MaxTries name D ow (k + 1) err db =
          (some (wrapText e ("tried to update " ++ Itoa MaxTries ++ " times")), db2)) ∧
      (Contains e ErrCodeConditionalCheckFailedException = true →
        updateBackendLoop MaxTries name D ow (k + 1) err db =
          updateBackendLoop MaxTries name D ow k (some e) db2)) ∧
    (∀ e db2, updateBackendAttempt MaxTries name D ow db = (.again e, db2) →
      Contains e ErrCodeConditionalCheckFailedException = true ∧
      ∃ backend db1, getBackendItem db name = (.ok backend, db1) ∧
        updateBackendWithLock db1 (updatedBackend backend D ow) = (some e, db2)) := by
  refine ⟨?_, ?_, ?_⟩
  · intro e db1 hg hc
    constructor
    · unfold updateBackendLoop updateBackendAttempt
      rw [hg]
      simp [hc]
    · obtain ⟨out, ho⟩ := getBackendItem_db db name
      rw [hg] at ho
      simp only at ho
      rw [ho]
      simp [newCalls, Db.after, StoreCall.kind]
  · intro backend db1 e db2 hg hw
    refine ⟨?_, ?_, ?_⟩
    · obtain ⟨out, ho⟩ := getBackendItem_db db name
      obtain ⟨s, er, hu⟩ := updateBackendWithLock_db db1 (updatedBackend backend D ow)
      rw [hg] at ho
      rw [hw] at hu
      simp only at ho hu
      rw [hu, ho]
      simp [newCalls, Db.after, StoreCall.kind]
    · intro hc
      unfold updateBackendLoop updateBackendAttempt
      rw [hg]
      simp only
      rw [hw]
      simp [hc, Wrap]
    · intro hc
      conv_lhs => unfold updateBackendLoop updateBackendAttempt
      rw [hg]
      simp only
      rw [hw]
      simp [hc]
  · intro e db2 ha
    unfold updateBackendAttempt at ha
    rcases hg : getBackendItem db name with ⟨res, db1⟩
    rw [hg] at ha
    cases res with
    | error e1 =>
      simp only at ha
      split at ha <;> simp at ha
    | ok backend =>
      simp only at ha
      rcases hw : updateBackendWithLock db1 (updatedBackend backend D ow) with ⟨er, db3⟩
      rw [hw] at ha
      cases er with
      | none => simp at ha
      | some e2 =>
        simp only at ha
        split at ha
        · simp at ha
        · next hc =>
          simp only [Prod.mk.injEq, Attempt.again.injEq] at ha
          obtain ⟨he, hd⟩ := ha
          subst he; subst hd
          exact ⟨by simpa using hc, backend, db1, rfl, hw⟩

/-- A fetch that fails in transport, and a conditional write that is throttled,
each end the call of `updateBackendDynamoDB` for `hello` at once. -/
theorem updateBackendLoop_aborts_on_other_failure_witness :
    (updateBackendLoop 10 "hello" (createBackend ["C"]) false (9 + 1) none
        (faultyDb (dbWith "hello__backend" helloItemAB).store "RequestError: send request failed") =
        (some (wrapText
          (wrapText (wrapText "RequestError: send request failed" "dynamodb.GetItem()")
            ("getItem(id, " ++ "hello" ++ ")"))
          ("getBackendItem(" ++ "hello" ++ ")")),
          (getBackendItem
            (faultyDb (dbWith "hello__backend" helloItemAB).store
              "RequestError: send request failed") "hello").2) ∧
      (newCalls
        (faultyDb (dbWith "hello__backend" helloItemAB).store "RequestError: send request failed")
        (getBackendItem
          (faultyDb (dbWith "hello__backend" helloItemAB).store
            "RequestError: send request failed") "hello").2).map StoreCall.kind = [.get]) ∧
    ((newCalls throttledDb
        (updateBackendWithLock (getBackendItem throttledDb "hello").2
          (updatedBackend (helloItemAB.toBackendItem "hello__backend")
            (createBackend ["C"]) false)).2).map StoreCall.kind = [.get, .update] ∧
      updateBackendLoop 10 "hello" (createBackend ["C"]) false (9 + 1) none throttledDb =
        (some (wrapText
          (wrapText "ProvisionedThroughputExceededException: rate exceeded" "dynamodb.UpdateItem()")
          ("tried to update " ++ Itoa 10 ++ " times")),
          (updateBackendWithLock (getBackendItem throttledDb "hello").2
            (updatedBackend (helloItemAB.toBackendItem "hello__backend")
              (createBackend ["C"]) false)).2)) :=
  ⟨(updateBackendLoop_aborts_on_other_failure 10 "hello" (createBackend ["C"]) false 9 none
      (faultyDb (dbWith "hello__backend" helloItemAB).store
        "RequestError: send request failed")).1 _ _ rfl (by decide),
    ⟨((updateBackendLoop_aborts_on_other_failure 10 "hello" (createBackend ["C"]) false 9 none
        throttledDb).2.1 (helloItemAB.toBackendItem "hello__backend") _
        (wrapText "ProvisionedThroughputExceededException: rate exceeded" "dynamodb.UpdateItem()")
        _ rfl rfl).1,
      ((updateBackendLoop_aborts_on_other_failure 10 "hello" (createBackend ["C"]) false 9 none
        throttledDb).2.1 (helloItemAB.toBackendItem "hello__backend") _
        (wrapText "ProvisionedThroughputExceededException: rate exceeded" "dynamodb.UpdateItem()")
        _ rfl rfl).2.1 (by decide)⟩⟩

/-- C10 at its failing input: the backend is named `ItemNotFound`, its record is
stored, and the fetch fails in transport. `updateBackendDynamoDB` then makes one
more store call, a `PutItem`, returns nil, and the stored record is a fresh one
at version 0 holding only the desired backend. -/
theorem updateBackendDynamoDB_puts_after_failed_fetch :
    (faultyDb (dbWith "ItemNotFound__backend" itemNotFoundItem).store
        "RequestError: send request failed").store "ItemNotFound__backend" =
      some itemNotFoundItem ∧
    (GetItem
        (faultyDb (dbWith "ItemNotFound__backend" itemNotFoundItem).store
          "RequestError: send request failed") "ItemNotFound__backend").1 =
      .err "RequestError: send request failed" ∧
    (updateBackendDynamoDB 10
        (faultyDb (dbWith "ItemNotFound__backend" itemNotFoundItem).store
          "RequestError: send request failed") "ItemNotFound" (createBackend ["C"]) false).1 =
      none ∧
    (newCalls
        (faultyDb (dbWith "ItemNotFound__backend" itemNotFoundItem).store
          "RequestError: send request failed")
        (updateBackendDynamoDB 10
          (faultyDb (dbWith "ItemNotFound__backend" itemNotFoundItem).store
            "RequestError: send request failed") "ItemNotFound" (createBackend ["C"])
          false).2).map StoreCall.kind = [.get, .put] ∧
    (updateBackendDynamoDB 10
        (faultyDb (dbWith "ItemNotFound__backend" itemNotFoundItem).store
          "RequestError: send request failed") "ItemNotFound" (createBackend ["C"])
        false).2.store "ItemNotFound__backend" =
      some ⟨"ItemNotFound", 0, createBackend ["C"], none⟩ := by
  decide

/-! ## C6: the routing configuration of a stored record -/

theorem Framed_refl (id : String) (item : Item) (s : Store) (h : s id = some item) :
    Framed id item s s :=
  ⟨⟨item, h, rfl, rfl⟩, fun _ _ => rfl⟩

theorem Framed_trans (id : String) (item item1 : Item) (s s1 s2 : Store)
    (h1 : Framed id item s s1) (hi : s1 id = some item1) (h2 : Framed id item1 s1 s2) :
    Framed id item s s2 := by
  obtain ⟨⟨i1, hs1, hn1, hc1⟩, ho1⟩ := h1
  obtain ⟨⟨i2, hs2, hn2, hc2⟩, ho2⟩ := h2
  rw [hi] at hs1
  cases hs1
  exact ⟨⟨i2, hs2, hn2.trans hn1, hc2.trans hc1⟩, fun key hk => (ho2 key hk).trans (ho1 key hk)⟩

/-- A conditional update of the item under `id` that writes a backend with the
configuration of that item keeps the frame. -/
theorem UpdateItem_framed (db : Db) (id : String) (version : Nat) (backend : Backend)
    (item : Item) (hs : db.seen id = some item) (hc : backend.Config = item.backend.Config) :
    Framed id item db.seen (UpdateItem db id version backend).2.store := by
  by_cases hfail : (UpdateItem db id version backend).1 = none
  · unfold UpdateItem at hfail ⊢
    cases hf : db.tick.fault with
    | some m => simp [hf] at hfail
    | none =>
      simp only [hf] at hfail ⊢
      by_cases hv : item.version = version
      · rw [conditionalUpdate_hit _ _ _ _ item hs hv]
        exact ⟨⟨{ item with version := version + 1, backend := backend },
          by simp [Store.set], rfl, hc⟩, fun key hk => by simp [Store.set, hk]⟩
      · rw [conditionalUpdate_miss _ _ _ _ (by
          intro i hi; rw [hs] at hi; cases hi; exact hv)]
        exact Framed_refl id item _ hs
  · rw [UpdateItem_failed_store db id version backend hfail]
    exact Framed_refl id item _ hs

/-- One attempt of an update that issues no put keeps the frame, when no other
client writes. -/
theorem updateBackendAttempt_framed (MaxTries : Int) (name : String) (D : Backend) (ow : Bool)
    (db : Db) (item : Item) (hno : NoInterference db.sched)
    (hrec : db.store (name ++ "__backend") = some item)
    (hput : ∀ c ∈ newCalls db (updateBackendAttempt MaxTries name D ow db).2, c.kind ≠ .put) :
    Framed (name ++ "__backend") item db.store
      (updateBackendAttempt MaxTries name D ow db).2.store := by
  have hseen := Db.seen_eq_store db hno
  obtain ⟨out, hg2⟩ := getBackendItem_db db name
  unfold updateBackendAttempt at hput ⊢
  rcases hg : getBackendItem db name with ⟨res, db1⟩
  rw [hg] at hg2 hput
  simp only at hg2
  subst hg2
  cases res with
  | error e =>
    simp only at hput ⊢
    split
    · next hc =>
      simp only [hc, if_true] at hput
      obtain ⟨s, err, hcd⟩ := createBackendDynamoDB_db
        (db.after db.seen (.GetItem (name ++ "__backend") out)) name (createBackendItem name D)
      have := hput (.PutItem (createBackendItem name D).ID
          ⟨(createBackendItem name D).Name, (createBackendItem name D).Version,
            (createBackendItem name D).Backend, none⟩ err) (by
        rw [newCalls_of_append _ _ _ (by rw [hcd]; simp [Db.after]; rfl)]; simp)
      simp [StoreCall.kind] at this
    · simp only [Db.after, hseen]
      exact Framed_refl _ item _ hrec
  | ok backend =>
    obtain ⟨it, _, hs, _, hb, _⟩ := getBackendItem_ok db name backend _ hg
    rw [hseen, hrec] at hs
    cases hs
    simp only [updateBackendWithLock_eq]
    have hid : (updatedBackend backend D ow).ID = name ++ "__backend" := by
      rw [hb]; exact congrArg EndItem.ID (updatedBackend_frame (item.toBackendItem _) D ow).1
    have hcfg : (updatedBackend backend D ow).Backend.Config = item.backend.Config := by
      rw [hb]; exact (updatedBackend_frame (item.toBackendItem _) D ow).2
    have hseen1 : (db.after db.seen (.GetItem (name ++ "__backend") out)).seen = db.store := by
      rw [Db.seen_eq_store _ (NoInterference_of_suffix _ _ (List.tail_suffix _) hno)]
      simp [Db.after, hseen]
    have hfr := UpdateItem_framed (db.after db.seen (.GetItem (name ++ "__backend") out))
      (name ++ "__backend") (updatedBackend backend D ow).Version
      (updatedBackend backend D ow).Backend item (by rw [hseen1]; exact hrec) hcfg
    rw [hseen1] at hfr
    rw [hid]
    rcases hU : UpdateItem (db.after db.seen (.GetItem (name ++ "__backend") out))
        (name ++ "__backend") (updatedBackend backend D ow).Version
        (updatedBackend backend D ow).Backend with ⟨er, db2⟩
    rw [hU] at hfr
    cases er with
    | none => simpa [Wrap] using hfr
    | some e =>
      simp only [Wrap, Option.map_some']
      split
      · exact hfr
      · exact hfr

/-- One attempt of a removal keeps the frame, when no other client writes. -/
theorem removeServerAttempt_framed (name portIP : String) (db : Db) (item : Item)
    (hno : NoInterference db.sched) (hrec : db.store (name ++ "__backend") = some item) :
    Framed (name ++ "__backend") item db.store (removeServerAttempt name portIP db).2.store := by
  have hseen := Db.seen_eq_store db hno
  obtain ⟨out, hg2⟩ := getBackendItem_db db name
  unfold removeServerAttempt
  rcases hg : getBackendItem db name with ⟨res, db1⟩
  rw [hg] at hg2
  simp only at hg2
  subst hg2
  cases res with
  | error e =>
    simp only [Db.after, hseen]
    exact Framed_refl _ item _ hrec
  | ok backend =>
    obtain ⟨it, _, hs, _, hb, _⟩ := getBackendItem_ok db name backend _ hg
    rw [hseen, hrec] at hs
    cases hs
    simp only [updateBackendWithLock_eq]
    have hid : (removedServer backend portIP).ID = name ++ "__backend" := by rw [hb]; rfl
    have hcfg : (removedServer backend portIP).Backend.Config = item.backend.Config := by
      rw [hb]; rfl
    have hseen1 : (db.after db.seen (.GetItem (name ++ "__backend") out)).seen = db.store := by
      rw [Db.seen_eq_store _ (NoInterference_of_suffix _ _ (List.tail_suffix _) hno)]
      simp [Db.after, hseen]
    have hfr := UpdateItem_framed (db.after db.seen (.GetItem (name ++ "__backend") out))
      (name ++ "__backend") (removedServer backend portIP).Version
      (removedServer backend portIP).Backend item (by rw [hseen1]; exact hrec) hcfg
    rw [hseen1] at hfr
    rw [hid]
    rcases hU : UpdateItem (db.after db.seen (.GetItem (name ++ "__backend") out))
        (name ++ "__backend") (removedServer backend portIP).Version
        (removedServer backend portIP).Backend with ⟨er, db2⟩
    rw [hU] at hfr
    cases er with
    | none => simpa [Wrap] using hfr
    | some e =>
      simp only [Wrap, Option.map_some']
      split
      · exact hfr
      · exact hfr

theorem removeServerAttempt_sched_suffix (name portIP : String) (db : Db) :
    (removeServerAttempt name portIP db).2.sched <:+ db.sched := by
  obtain ⟨out, hg2⟩ := getBackendItem_db db name
  unfold removeServerAttempt
  rcases hg : getBackendItem db name with ⟨res, db1⟩
  rw [hg] at hg2
  simp only at hg2
  subst hg2
  cases res with
  | error e => exact List.tail_suffix _
  | ok backend =>
    simp only [updateBackendWithLock_eq]
    have hdb := UpdateItem_db (db.after db.seen (.GetItem (name ++ "__backend") out))
      (removedServer backend portIP).ID (removedServer backend portIP).Version
      (removedServer backend portIP).Backend
    rcases hU : UpdateItem (db.after db.seen (.GetItem (name ++ "__backend") out))
        (removedServer backend portIP).ID (removedServer backend portIP).Version
        (removedServer backend portIP).Backend with ⟨er, db2⟩
    rw [hU] at hdb
    simp only at hdb
    have hsuf : db2.sched <:+ db.sched := by
      rw [hdb]
      exact (List.tail_suffix _).trans (List.tail_suffix _)
    cases er with
    | none => simpa [Wrap] using hsuf
    | some e =>
      simp only [Wrap, Option.map_some']
      split
      · exact hsuf
      · exact hsuf

/-- A run of the update loop that issues no put keeps the frame, when no other
client writes. -/
theorem updateBackendLoop_framed (MaxTries : Int) (name : String) (D : Backend) (ow : Bool) :
    ∀ (k : Nat) (err : GoError) (db : Db) (item : Item),
      NoInterference db.sched → db.store (name ++ "__backend") = some item →
      (∀ c ∈ newCalls db (updateBackendLoop MaxTries name D ow k err db).2, c.kind ≠ .put) →
      Framed (name ++ "__backend") item db.store
        (updateBackendLoop MaxTries name D ow k err db).2.store := by
  intro k
  induction k with
  | zero =>
    intro err db item _ hrec _
    exact Framed_refl _ item _ hrec
  | succ k ih =>
    intro err db item hno hrec hput
    obtain ⟨c1, h1, _, _⟩ := updateBackendAttempt_calls MaxTries name D ow db
    have hsuf := updateBackendAttempt_sched_suffix MaxTries name D ow db
    have hfr := updateBackendAttempt_framed MaxTries name D ow db item hno hrec
    unfold updateBackendLoop at hput ⊢
    rcases ha : updateBackendAttempt MaxTries name D ow db with ⟨a, db1⟩
    rw [ha] at hput h1 hsuf hfr
    cases a with
    | done e => exact hfr hput
    | again e =>
      simp only at hput h1 hsuf hfr ⊢
      obtain ⟨c2, h2⟩ := updateBackendLoop_log MaxTries name D ow k (some e) db1
      have hall : newCalls db (updateBackendLoop MaxTries name D ow k (some e) db1).2 =
          c1 ++ c2 :=
        newCalls_of_append _ _ _ (by rw [h2, h1, List.append_assoc])
      rw [hall] at hput
      have hfr1 := hfr (by
        intro c hc
        rw [newCalls_of_append _ _ _ h1] at hc
        exact hput c (List.mem_append_left _ hc))
      have ⟨⟨item1, hi1, _, _⟩, _⟩ := hfr1
      have hfr2 := ih (some e) db1 item1 (NoInterference_of_suffix _ _ hsuf hno) hi1 (by
        rw [newCalls_of_append _ _ _ h2]
        intro c hc
        exact hput c (List.mem_append_right _ hc))
      exact Framed_trans _ item item1 _ _ _ hfr1 hi1 hfr2

/-- A run of the removal loop keeps the frame, when no other client writes. -/
theorem removeServerLoop_framed (name portIP : String) :
    ∀ (k : Nat) (err : GoError) (db : Db) (item : Item),
      NoInterference db.sched → db.store (name ++ "__backend") = some item →
      Framed (name ++ "__backend") item db.store
        (removeServerLoop name portIP k err db).2.store := by
  intro k
  induction k with
  | zero =>
    intro err db item _ hrec
    exact Framed_refl _ item _ hrec
  | succ k ih =>
    intro err db item hno hrec
    have hsuf := removeServerAttempt_sched_suffix name portIP db
    have hfr := removeServerAttempt_framed name portIP db item hno hrec
    unfold removeServerLoop
    rcases ha : removeServerAttempt name portIP db with ⟨a, db1⟩
    rw [ha] at hsuf hfr
    cases a with
    | done e => exact hfr
    | again e =>
      simp only at hsuf hfr ⊢
      have ⟨⟨item1, hi1, _, _⟩, _⟩ := hfr
      exact Framed_trans _ item item1 _ _ _ hfr hi1
        (ih (some e) db1 item1 (NoInterference_of_suffix _ _ hsuf hno) hi1)

/-- Route-config frame of the calls that create no record. When no other client
writes to the table, for every stored record, whatever `MaxTries` is and
whatever failures the calls meet: every call of `updateBackendDynamoDB` (with
`overwriteServers` true or false) that issues no put, and every call of
`removeServerFromBackendDynamoDB`, leaves the record under its id with its name
and every field of its backend other than `Servers` as they were stored, and
leaves every other record untouched. -/
theorem writes_keep_route_config (MaxTries : Int) (db : Db) (name portIP : String)
    (D : Backend) (ow : Bool) (item : Item)
    (hno : NoInterference db.sched)
    (hrec : db.store (name ++ "__backend") = some item) :
    ((∀ c ∈ newCalls db (updateBackendDynamoDB MaxTries db name D ow).2, c.kind ≠ .put) →
      (∃ item1, (updateBackendDynamoDB MaxTries db name D ow).2.store (name ++ "__backend") =
          some item1 ∧
        item1.name = item.name ∧ item1.backend.Config = item.backend.Config) ∧
      ∀ key, key ≠ name ++ "__backend" →
        (updateBackendDynamoDB MaxTries db name D ow).2.store key = db.store key) ∧
    ((∃ item1, (removeServerFromBackendDynamoDB MaxTries db name portIP).2.store
          (name ++ "__backend") = some item1 ∧
        item1.name = item.name ∧ item1.backend.Config = item.backend.Config) ∧
      ∀ key, key ≠ name ++ "__backend" →
        (removeServerFromBackendDynamoDB MaxTries db name portIP).2.store key = db.store key) :=
  ⟨fun hput => updateBackendLoop_framed MaxTries name D ow _ none db item hno hrec hput,
    removeServerLoop_framed name portIP _ none db item hno hrec⟩

/-- The record of `hello` has a load balancer set by an operator; a merge of `C`
and a removal of `A` leave it. -/
theorem writes_keep_route_config_witness :
    ((∃ item1, (updateBackendDynamoDB 10 (dbWith "hello__backend" helloItemAB) "hello"
          (createBackend ["C"]) false).2.store ("hello" ++ "__backend") = some item1 ∧
        item1.name = helloItemAB.name ∧ item1.backend.Config = helloItemAB.backend.Config) ∧
      ∀ key, key ≠ "hello" ++ "__backend" →
        (updateBackendDynamoDB 10 (dbWith "hello__backend" helloItemAB) "hello"
          (createBackend ["C"]) false).2.store key =
          (dbWith "hello__backend" helloItemAB).store key) ∧
    ((∃ item1, (removeServerFromBackendDynamoDB 10 (dbWith "hello__backend" helloItemAB)
          "hello" "A").2.store ("hello" ++ "__backend") = some item1 ∧
        item1.name = helloItemAB.name ∧ item1.backend.Config = helloItemAB.backend.Config) ∧
      ∀ key, key ≠ "hello" ++ "__backend" →
        (removeServerFromBackendDynamoDB 10 (dbWith "hello__backend" helloItemAB)
          "hello" "A").2.store key = (dbWith "hello__backend" helloItemAB).store key) :=
  ⟨(writes_keep_route_config 10 (dbWith "hello__backend" helloItemAB) "hello" "A"
      (createBackend ["C"]) false helloItemAB (fun t ht => by cases ht) rfl).1 (by decide),
    (writes_keep_route_config 10 (dbWith "hello__backend" helloItemAB) "hello" "A"
      (createBackend ["C"]) false helloItemAB (fun t ht => by cases ht) rfl).2⟩

/-- C6 at its failing input: the backend is named `ItemNotFound`, its stored
record carries a load balancer set by an operator, and the fetch fails in
transport. `updateBackendDynamoDB` returns nil and the record under the same id
has lost the load balancer: its configuration is that of the zero backend. -/
theorem updateBackendDynamoDB_drops_route_config :
    (faultyDb (dbWith "ItemNotFound__backend" itemNotFoundItem).store
        "RequestError: send request failed").store "ItemNotFound__backend" =
      some itemNotFoundItem ∧
    itemNotFoundItem.backend.Config = ⟨none, some "wrr", none, none⟩ ∧
    NoInterference
      (faultyDb (dbWith "ItemNotFound__backend" itemNotFoundItem).store
        "RequestError: send request failed").sched ∧
    (updateBackendDynamoDB 10
        (faultyDb (dbWith "ItemNotFound__backend" itemNotFoundItem).store
          "RequestError: send request failed") "ItemNotFound" (createBackend ["C"]) false).1 =
      none ∧
    ((updateBackendDynamoDB 10
        (faultyDb (dbWith "ItemNotFound__backend" itemNotFoundItem).store
          "RequestError: send request failed") "ItemNotFound" (createBackend ["C"])
        false).2.store "ItemNotFound__backend").map (fun item => item.backend.Config) =
      some ⟨none, none, none, none⟩ := by
  refine ⟨by decide, by decide, ?_, by decide, by decide⟩
  intro t ht
  simp only [faultyDb, List.mem_singleton] at ht
  rw [ht]

/-! ## Task events -/

theorem toDigitsCore_ne_nil (b : Nat) :
    ∀ (f n : Nat) (ds : List Char), ds ≠ [] → Nat.toDigitsCore b f n ds ≠ [] := by
  intro f
  induction f with
  | zero => intro n ds h; exact h
  | succ f ih =>
    intro n ds _
    simp only [Nat.toDigitsCore]
    split
    · simp
    · exact ih _ _ (by simp)

theorem toDigits_ne_nil (b n : Nat) : Nat.toDigits b n ≠ [] := by
  simp only [Nat.toDigits, Nat.toDigitsCore]
  split
  · simp
  · exact toDigitsCore_ne_nil b _ _ _ (by simp)

/-- The decimal text of an integer is never empty: the check `hostPort == ""` of
`processECSEventMessage` never fires. -/
theorem Itoa_ne_empty (i : Int) : Itoa i ≠ "" := by
  have hrepr : ∀ n : Nat, (Nat.repr n).data ≠ [] := by
    intro n
    simpa [Nat.repr, List.asString] using toDigits_ne_nil 10 n
  intro h
  have hd : (Itoa i).data = [] := by rw [h]
  cases i with
  | ofNat m =>
    exact hrepr m hd
  | negSucc m =>
    have : (Itoa (Int.negSucc m)).data = '-' :: (Nat.repr (m + 1)).data := rfl
    rw [this] at hd
    cases hd

/-- An event with a container, a binding, a service in its group and an
instance that resolves is dispatched on its statuses alone. -/
theorem processECSEventMessage_resolved (util : Util) (w : World) (msg : Detail)
    (c : Container) (cs : List Container) (b : NetworkBinding) (bs : List NetworkBinding)
    (service ip : String) (inv1 : Inventory)
    (hc : msg.Containers = c :: cs) (hb : c.NetworkBindings = b :: bs)
    (hsvc : (Split msg.Group ':')[1]? = some service)
    (hip : getIP util w.inv msg.ContainerInstanceArn = (.ok ip, inv1)) :
    processECSEventMessage util w msg =
      if msg.LastStatus = Running ∧ msg.DesiredStatus = Running then
        match updateBackendDynamoDB util.MaxTries w.db service
            (createBackend [ip ++ ":" ++ Itoa b.HostPort]) false with
        | (some e, db1) =>
          (.error (wrapText e ("updateBackendDynamoDB(" ++ service ++ "," ++
              (ip ++ ":" ++ Itoa b.HostPort) ++ ")")), ⟨inv1, db1⟩)
        | (none, db1) => (.ok (), ⟨inv1, db1⟩)
      else if msg.DesiredStatus = Stopped then
        match removeServerFromBackendDynamoDB util.MaxTries w.db service
            (ip ++ ":" ++ Itoa b.HostPort) with
        | (some e, db1) =>
          (.error (wrapText e ("removeServerFromBackendDynamoDB(" ++ service ++ "," ++
              (ip ++ ":" ++ Itoa b.HostPort) ++ ")")), ⟨inv1, db1⟩)
        | (none, db1) => (.ok (), ⟨inv1, db1⟩)
      else (.ok (), ⟨inv1, w.db⟩) := by
  unfold processECSEventMessage
  rw [hc]
  simp only
  rw [hb]
  simp only [hsvc, hip]
  rw [if_neg (Itoa_ne_empty _)]

/-- An attempt of an update that returns nil leaves an item that holds every key
of the desired backend. -/
theorem updateBackendAttempt_done_keys (MaxTries : Int) (name : String) (D : Backend)
    (ow : Bool) (db db' : Db)
    (h : updateBackendAttempt MaxTries name D ow db = (.done none, db')) :
    ∃ item, db'.store (name ++ "__backend") = some item ∧
      ∀ key, (mapLookup D.Servers key).isSome →
        (mapLookup item.backend.Servers key).isSome := by
  unfold updateBackendAttempt at h
  rcases hg : getBackendItem db name with ⟨res, db1⟩
  rw [hg] at h
  cases res with
  | error e =>
    simp only at h
    split at h
    · rcases hc : createBackendDynamoDB db1 name (createBackendItem name D) with ⟨err, db2⟩
      rw [hc] at h
      simp only [Prod.mk.injEq, Attempt.done.injEq] at h
      obtain ⟨herr, hdb⟩ := h
      subst herr; subst hdb
      obtain ⟨_, hdb2⟩ := createBackendDynamoDB_none _ _ _ _ hc
      refine ⟨⟨name, 0, D, none⟩, ?_, fun _ hk => hk⟩
      rw [hdb2]
      simp [Db.after, Store.set, createBackendItem]
    · simp at h
  | ok backend =>
    simp only at h
    obtain ⟨item, _, _, _, hb, _⟩ := getBackendItem_ok db name backend db1 hg
    rcases hw : updateBackendWithLock db1 (updatedBackend backend D ow) with ⟨err, db2⟩
    rw [hw] at h
    cases err with
    | some e =>
      simp only at h
      split at h <;> simp [Wrap] at h
    | none =>
      simp only [Prod.mk.injEq, true_and] at h
      subst h
      obtain ⟨i, _, _, _, hdb2⟩ := updateBackendWithLock_none _ _ _ hw
      have hid : (updatedBackend backend D ow).ID = name ++ "__backend" := by
        have := (updatedBackend_frame backend D ow).1
        have h2 : (updatedBackend backend D ow).ID = backend.ID :=
          congrArg EndItem.ID this
        rw [h2, hb]; rfl
      rw [hid] at hdb2
      refine ⟨{ i with version := (updatedBackend backend D ow).Version + 1,
                       backend := (updatedBackend backend D ow).Backend }, ?_, ?_⟩
      · rw [hdb2]; simp [Db.after, Store.set]
      · intro key hk
        cases ow with
        | true => simpa [updatedBackend] using hk
        | false =>
          simp only [updatedBackend, Bool.false_eq_true, if_false]
          rw [updateBackendItemServers_lookup]
          cases hl : mapLookup D.Servers key with
          | none => rw [hl] at hk; cases hk
          | some v => rfl

/-- An update that returns nil after at least one try leaves an item that holds
every key of the desired backend. -/
theorem updateBackendDynamoDB_none_keys (MaxTries : Int) (db db' : Db) (name : String)
    (D : Backend) (ow : Bool) (hMax : 0 < MaxTries)
    (h : updateBackendDynamoDB MaxTries db name D ow = (none, db')) :
    ∃ item, db'.store (name ++ "__backend") = some item ∧
      ∀ key, (mapLookup D.Servers key).isSome →
        (mapLookup item.backend.Servers key).isSome := by
  unfold updateBackendDynamoDB at h
  obtain ⟨db0, h0, _⟩ := updateBackendLoop_none MaxTries name D ow _ none db db' h
    (Or.inl (toNat_pos_of_pos _ hMax))
  exact updateBackendAttempt_done_keys MaxTries name D ow db0 db' h0

/-- An attempt of a removal that returns nil leaves an item without the key. -/
theorem removeServerAttempt_done (name portIP : String) (db db' : Db)
    (h : removeServerAttempt name portIP db = (.done none, db')) :
    ∃ item, db'.store (name ++ "__backend") = some item ∧
      mapLookup item.backend.Servers portIP = none := by
  unfold removeServerAttempt at h
  rcases hg : getBackendItem db name with ⟨res, db1⟩
  rw [hg] at h
  cases res with
  | error e => simp at h
  | ok backend =>
    simp only at h
    obtain ⟨item, _, _, _, hb, _⟩ := getBackendItem_ok db name backend db1 hg
    rcases hw : updateBackendWithLock db1 (removedServer backend portIP) with ⟨err, db2⟩
    rw [hw] at h
    cases err with
    | some e =>
      simp only at h
      split at h <;> simp at h
    | none =>
      simp only [Prod.mk.injEq, true_and] at h
      subst h
      obtain ⟨i, _, _, _, hdb2⟩ := updateBackendWithLock_none _ _ _ hw
      have hid : (removedServer backend portIP).ID = name ++ "__backend" := by
        rw [hb]; rfl
      rw [hid] at hdb2
      refine ⟨{ i with version := (removedServer backend portIP).Version + 1,
                       backend := (removedServer backend portIP).Backend }, ?_, ?_⟩
      · rw [hdb2]; simp [Db.after, Store.set]
      · simp [removedServer, mapDelete_lookup]

/-- A run of the removal loop that returns nil after at least one iteration ends
with an attempt that returned nil. -/
theorem removeServerLoop_none (name portIP : String) :
    ∀ (k : Nat) (err : GoError) (db db' : Db),
      removeServerLoop name portIP k err db = (none, db') →
      (0 < k ∨ err ≠ none) →
      ∃ db0, removeServerAttempt name portIP db0 = (.done none, db') := by
  intro k
  induction k with
  | zero =>
    intro err db db' h hk
    simp only [removeServerLoop, Prod.mk.injEq] at h
    rcases hk with hk | hk
    · omega
    · exact absurd h.1 hk
  | succ k ih =>
    intro err db db' h _
    unfold removeServerLoop at h
    rcases ha : removeServerAttempt name portIP db with ⟨a, db1⟩
    rw [ha] at h
    cases a with
    | done e =>
      simp only [Prod.mk.injEq] at h
      obtain ⟨he, hdb⟩ := h
      subst he; subst hdb
      exact ⟨db, ha⟩
    | again e =>
      simp only at h
      exact ih (some e) db1 db' h (Or.inr (by simp))

/-- A removal that returns nil after at least one try leaves an item without the
key. -/
theorem removeServerFromBackendDynamoDB_none (MaxTries : Int) (db db' : Db)
    (name portIP : String) (hMax : 0 < MaxTries)
    (h : removeServerFromBackendDynamoDB MaxTries db name portIP = (none, db')) :
    ∃ item, db'.store (name ++ "__backend") = some item ∧
      mapLookup item.backend.Servers portIP = none := by
  unfold removeServerFromBackendDynamoDB at h
  obtain ⟨db0, h0⟩ := removeServerLoop_none name portIP _ none db db' h
    (Or.inl (toNat_pos_of_pos _ hMax))
  exact removeServerAttempt_done name portIP db0 db' h0

theorem splitChars_ne_nil (sep : Char) (l : List Char) : splitChars sep l ≠ [] := by
  cases l with
  | nil => simp [splitChars]
  | cons c cs =>
    simp only [splitChars]
    split
    · simp
    · split <;> simp

/-- Up to the first separator `strings.Split` cuts off one piece. -/
theorem splitChars_append_sep (sep : Char) (a l : List Char) (ha : sep ∉ a) :
    splitChars sep (a ++ sep :: l) = a :: splitChars sep l := by
  induction a with
  | nil => simp [splitChars]
  | cons c cs ih =>
    have hc : c ≠ sep := fun h => ha (by simp [h])
    have hcs : sep ∉ cs := fun h => ha (by simp [h])
    have hstep : splitChars sep (c :: (cs ++ sep :: l)) =
        (match splitChars sep (cs ++ sep :: l) with
          | [] => [[c]]
          | piece :: pieces => (c :: piece) :: pieces) := by
      simp only [splitChars, if_neg hc]
    rw [List.cons_append, hstep, ih hcs]

/-- A text without the separator is one piece. -/
theorem splitChars_no_sep (sep : Char) (a : List Char) (ha : sep ∉ a) :
    splitChars sep a = [a] := by
  induction a with
  | nil => simp [splitChars]
  | cons c cs ih =>
    have hc : c ≠ sep := fun h => ha (by simp [h])
    have hcs : sep ∉ cs := fun h => ha (by simp [h])
    have hstep : splitChars sep (c :: cs) =
        (match splitChars sep cs with
          | [] => [[c]]
          | piece :: pieces => (c :: piece) :: pieces) := by
      simp only [splitChars, if_neg hc]
    rw [hstep, ih hcs]

/-- The second piece of `strings.Split(group, ":")` is what stands between the
first and the second `":"` of the group (or its end). -/
theorem Split_second_piece (pre name rest : String)
    (hpre : ':' ∉ pre.toList) (hname : ':' ∉ name.toList)
    (hrest : ∀ ch, rest.toList.head? = some ch → ch = ':') :
    (Split (pre ++ ":" ++ name ++ rest) ':')[1]? = some name := by
  have hl : (pre ++ ":" ++ name ++ rest).toList =
      pre.toList ++ ':' :: (name.toList ++ rest.toList) := by
    simp [String.toList, String.data_append]
  unfold Split
  rw [hl, splitChars_append_sep _ _ _ hpre]
  cases hr : rest.toList with
  | nil =>
    rw [List.append_nil, splitChars_no_sep _ _ hname]
    simp [String.toList]
  | cons ch more =>
    have hch : ch = ':' := hrest ch (by rw [hr]; rfl)
    subst hch
    rw [splitChars_append_sep _ _ _ hname]
    simp [String.toList]

/-- Every text with a `":"` is of the form `pre:name` followed by nothing or by
a further `":"` and more, with no `":"` in `pre` and in `name`. -/
theorem group_decomposes (group : String) (h : ':' ∈ group.toList) :
    ∃ pre name rest : String, group = pre ++ ":" ++ name ++ rest ∧
      ':' ∉ pre.toList ∧ ':' ∉ name.toList ∧
      ∀ ch, rest.toList.head? = some ch → ch = ':' := by
  have hspan : ∀ l : List Char, ':' ∉ l.takeWhile (fun ch => ch != ':') := by
    intro l hmem
    have := List.mem_takeWhile_imp hmem
    simp at this
  have hdrop : ∀ l : List Char, ∀ ch,
      (l.dropWhile (fun ch => ch != ':')).head? = some ch → ch = ':' := by
    intro l ch hh
    have := List.head?_dropWhile_not (fun ch => ch != ':') l
    rw [hh] at this
    simpa using this
  have hsplit : ∀ l : List Char, ':' ∈ l →
      ∃ t, l = l.takeWhile (fun ch => ch != ':') ++ ':' :: t := by
    intro l hl
    have hd : l.dropWhile (fun ch => ch != ':') ≠ [] := by
      intro hnil
      rw [List.dropWhile_eq_nil_iff] at hnil
      have := hnil ':' hl
      simp at this
    cases hdw : l.dropWhile (fun ch => ch != ':') with
    | nil => exact absurd hdw hd
    | cons c t =>
      have hc : c = ':' := hdrop l c (by rw [hdw]; rfl)
      subst hc
      refine ⟨t, ?_⟩
      rw [← hdw, List.takeWhile_append_dropWhile]
  obtain ⟨t, ht⟩ := hsplit group.toList h
  refine ⟨String.mk (group.toList.takeWhile (fun ch => ch != ':')),
    String.mk (t.takeWhile (fun ch => ch != ':')),
    String.mk (t.dropWhile (fun ch => ch != ':')), ?_, hspan _, hspan _, hdrop _⟩
  apply String.ext
  simp only [String.data_append]
  rw [List.append_assoc, List.append_assoc, List.singleton_append,
    List.takeWhile_append_dropWhile]
  exact ht

/-! ## C11 -/

/-- C11: event dispatch. For every event with a container and a network binding
of host port `p`, a service name in its group and an instance that resolves to
`ip`: when `lastStatus` and `desiredStatus` are both `RUNNING`, what
`processECSEventMessage` does to the table is
`updateBackendDynamoDB(service, createBackend([ip:p]), false)`, it returns nil
exactly when that call does, and (with `MaxTries` at least 1) after a nil result
the stored record of the service has the key `ip:p`; when `desiredStatus` is
`STOPPED`, whatever `lastStatus` is, what it does to the table is
`removeServerFromBackendDynamoDB(service, ip:p)`, it returns nil exactly when
that call does, and after a nil result the stored record has no key `ip:p`. -/
theorem processECSEventMessage_dispatch (util : Util) (w : World) (msg : Detail)
    (c : Container) (cs : List Container) (b : NetworkBinding) (bs : List NetworkBinding)
    (service ip : String) (inv1 : Inventory)
    (hMax : 0 < util.MaxTries)
    (hc : msg.Containers = c :: cs) (hb : c.NetworkBindings = b :: bs)
    (hsvc : (Split msg.Group ':')[1]? = some service)
    (hip : getIP util w.inv msg.ContainerInstanceArn = (.ok ip, inv1)) :
    (msg.LastStatus = Running → msg.DesiredStatus = Running →
      (processECSEventMessage util w msg).2 =
          ⟨inv1, (updateBackendDynamoDB util.MaxTries w.db service
            (createBackend [ip ++ ":" ++ Itoa b.HostPort]) false).2⟩ ∧
        ((processECSEventMessage util w msg).1 = .ok () ↔
          (updateBackendDynamoDB util.MaxTries w.db service
            (createBackend [ip ++ ":" ++ Itoa b.HostPort]) false).1 = none) ∧
        ((processECSEventMessage util w msg).1 = .ok () →
          ∃ item, (processECSEventMessage util w msg).2.db.store (service ++ "__backend") =
              some item ∧
            (mapLookup item.backend.Servers (ip ++ ":" ++ Itoa b.HostPort)).isSome = true)) ∧
    (msg.DesiredStatus = Stopped →
      (processECSEventMessage util w msg).2 =
          ⟨inv1, (removeServerFromBackendDynamoDB util.MaxTries w.db service
            (ip ++ ":" ++ Itoa b.HostPort)).2⟩ ∧
        ((processECSEventMessage util w msg).1 = .ok () ↔
          (removeServerFromBackendDynamoDB util.MaxTries w.db service
            (ip ++ ":" ++ Itoa b.HostPort)).1 = none) ∧
        ((processECSEventMessage util w msg).1 = .ok () →
          ∃ item, (processECSEventMessage util w msg).2.db.store (service ++ "__backend") =
              some item ∧
            mapLookup item.backend.Servers (ip ++ ":" ++ Itoa b.HostPort) = none)) := by
  have hres := processECSEventMessage_resolved util w msg c cs b bs service ip inv1 hc hb hsvc hip
  constructor
  · intro hl hd
    rw [hres, if_pos ⟨hl, hd⟩]
    rcases hu : updateBackendDynamoDB util.MaxTries w.db service
        (createBackend [ip ++ ":" ++ Itoa b.HostPort]) false with ⟨err, db1⟩
    cases err with
    | some e => simp
    | none =>
      refine ⟨rfl, by simp, fun _ => ?_⟩
      obtain ⟨item, hst, hkeys⟩ :=
        updateBackendDynamoDB_none_keys util.MaxTries w.db db1 service _ false hMax hu
      exact ⟨item, hst, hkeys _ ((createBackend_keys _ _).2 (by simp))⟩
  · intro hd
    have hnr : ¬(msg.LastStatus = Running ∧ msg.DesiredStatus = Running) := by
      rintro ⟨_, h2⟩
      rw [hd] at h2
      exact absurd h2 (by decide)
    rw [hres, if_neg hnr, if_pos hd]
    rcases hu : removeServerFromBackendDynamoDB util.MaxTries w.db service
        (ip ++ ":" ++ Itoa b.HostPort) with ⟨err, db1⟩
    cases err with
    | some e => simp
    | none =>
      refine ⟨rfl, by simp, fun _ => ?_⟩
      exact removeServerFromBackendDynamoDB_none util.MaxTries w.db db1 service _ hMax hu

/-- Witness of C11: on a fresh process and the empty table a `RUNNING`/`RUNNING`
event of `service:hello` leaves `10.0.0.4:8090` in the record of `hello`; a
`STOPPED` event on a table that holds it leaves the record without it. -/
theorem processECSEventMessage_dispatch_witness :
    (∃ item, (processECSEventMessage (helloUtil 10) freshWorld
          (helloEvent "service:hello" "RUNNING" "RUNNING")).2.db.store ("hello" ++ "__backend") =
        some item ∧
      (mapLookup item.backend.Servers ("10.0.0.4" ++ ":" ++ Itoa 8090)).isSome = true) ∧
    (∃ item, (processECSEventMessage (helloUtil 10)
          ⟨freshInventory, dbWith "hello__backend" helloItemHttps⟩
          (helloEvent "service:hello" "STOPPED" "RUNNING")).2.db.store ("hello" ++ "__backend") =
        some item ∧
      mapLookup item.backend.Servers ("10.0.0.4" ++ ":" ++ Itoa 8090) = none) :=
  ⟨((processECSEventMessage_dispatch (helloUtil 10) freshWorld
        (helloEvent "service:hello" "RUNNING" "RUNNING") ⟨[⟨8090⟩]⟩ [] ⟨8090⟩ [] "hello"
        "10.0.0.4" (getIP (helloUtil 10) freshInventory "myinstancearn").2
        (by decide) rfl rfl (by decide) (Prod.ext (by decide) rfl)).1 rfl rfl).2.2 (by decide),
    ((processECSEventMessage_dispatch (helloUtil 10)
        ⟨freshInventory, dbWith "hello__backend" helloItemHttps⟩
        (helloEvent "service:hello" "STOPPED" "RUNNING") ⟨[⟨8090⟩]⟩ [] ⟨8090⟩ [] "hello"
        "10.0.0.4" (getIP (helloUtil 10) freshInventory "myinstancearn").2
        (by decide) rfl rfl (by decide) (Prod.ext (by decide) rfl)).2 rfl).2.2 (by decide)⟩

/-! ## C12 and C13 -/

/-- C13: benign skip. For every event that has no container, or whose first
container has no network binding, `processECSEventMessage` returns nil and
leaves the caches, the log of inventory calls, the table and the log of store
calls as they were, whatever the statuses and the group of the event are. -/
theorem processECSEventMessage_benign_skip (util : Util) (w : World) (msg : Detail)
    (h : msg.Containers = [] ∨
      ∃ c, msg.Containers.head? = some c ∧ c.NetworkBindings = []) :
    processECSEventMessage util w msg = (.ok (), w) := by
  unfold processECSEventMessage
  rcases h with h | ⟨c, hc, hb⟩
  · rw [h]
  · cases hcs : msg.Containers with
    | nil => rfl
    | cons c1 cs =>
      rw [hcs] at hc
      simp only [List.head?_cons, Option.some.injEq] at hc
      subst hc
      simp only
      rw [hb]

/-- Witness of C13: a `RUNNING`/`RUNNING` event without a container, and one
whose container has no binding, in a group without `":"`. -/
theorem processECSEventMessage_benign_skip_witness :
    processECSEventMessage (helloUtil 10) freshWorld
        { helloEvent "service:hello" "RUNNING" "RUNNING" with Containers := [] } =
      (.ok (), freshWorld) ∧
    processECSEventMessage (helloUtil 10) freshWorld
        { helloEvent "hello" "STOPPED" "RUNNING" with Containers := [⟨[]⟩] } =
      (.ok (), freshWorld) :=
  ⟨processECSEventMessage_benign_skip (helloUtil 10) freshWorld
      { helloEvent "service:hello" "RUNNING" "RUNNING" with Containers := [] } (Or.inl rfl),
    processECSEventMessage_benign_skip (helloUtil 10) freshWorld
      { helloEvent "hello" "STOPPED" "RUNNING" with Containers := [⟨[]⟩] }
      (Or.inr ⟨⟨[]⟩, rfl, rfl⟩)⟩

/-- C12, amended: for every event with a container, a network binding and a
service name in its group whose statuses are neither `RUNNING`/`RUNNING` nor
`desiredStatus = STOPPED`, `processECSEventMessage` makes no store call and
leaves the table as it was, but it does call `getIP` first and ends as `getIP`
does: it returns nil when `getIP` returns an address, the error of `getIP`,
wrapped as `getIP(arn)`, when `getIP` returns an error, and it panics when
`getIP` panics. -/
theorem processECSEventMessage_other_transition (util : Util) (w : World) (msg : Detail)
    (c : Container) (cs : List Container) (b : NetworkBinding) (bs : List NetworkBinding)
    (service : String)
    (hc : msg.Containers = c :: cs) (hb : c.NetworkBindings = b :: bs)
    (hsvc : (Split msg.Group ':')[1]? = some service)
    (hrun : ¬(msg.LastStatus = Running ∧ msg.DesiredStatus = Running))
    (hstop : msg.DesiredStatus ≠ Stopped) :
    (processECSEventMessage util w msg).2.db = w.db ∧
    (processECSEventMessage util w msg).2.inv =
      (getIP util w.inv msg.ContainerInstanceArn).2 ∧
    (∀ ip, (getIP util w.inv msg.ContainerInstanceArn).1 = .ok ip →
      (processECSEventMessage util w msg).1 = .ok ()) ∧
    (∀ e, (getIP util w.inv msg.ContainerInstanceArn).1 = .error e →
      (processECSEventMessage util w msg).1 =
        .error (wrapText e ("getIP(" ++ msg.ContainerInstanceArn ++ ")"))) ∧
    ((getIP util w.inv msg.ContainerInstanceArn).1 = .panic →
      (processECSEventMessage util w msg).1 = .panic) := by
  rcases hip : getIP util w.inv msg.ContainerInstanceArn with ⟨res, inv1⟩
  cases res with
  | ok ip =>
    rw [processECSEventMessage_resolved util w msg c cs b bs service ip inv1 hc hb hsvc hip,
      if_neg hrun, if_neg hstop]
    simp
  | error e =>
    unfold processECSEventMessage
    rw [hc]
    simp only
    rw [hb]
    simp only [hsvc, hip]
    simp
  | panic =>
    unfold processECSEventMessage
    rw [hc]
    simp only
    rw [hb]
    simp only [hsvc, hip]
    simp

/-- Witness of C12 as amended: a `PENDING` to `RUNNING` event of `service:hello`
whose instance resolves makes no store call and returns nil. -/
theorem processECSEventMessage_other_transition_witness :
    (processECSEventMessage (helloUtil 10) freshWorld
        (helloEvent "service:hello" "RUNNING" "PENDING")).2.db = freshWorld.db ∧
    (processECSEventMessage (helloUtil 10) freshWorld
        (helloEvent "service:hello" "RUNNING" "PENDING")).1 = .ok () :=
  ⟨(processECSEventMessage_other_transition (helloUtil 10) freshWorld
      (helloEvent "service:hello" "RUNNING" "PENDING") ⟨[⟨8090⟩]⟩ [] ⟨8090⟩ [] "hello"
      rfl rfl (by decide) (by decide) (by decide)).1,
    (processECSEventMessage_other_transition (helloUtil 10) freshWorld
      (helloEvent "service:hello" "RUNNING" "PENDING") ⟨[⟨8090⟩]⟩ [] ⟨8090⟩ [] "hello"
      rfl rfl (by decide) (by decide) (by decide)).2.2.1 "10.0.0.4" (by decide)⟩

/-- Counterexample to C12 as stated: a `PENDING` to `RUNNING` event, which is to
be ignored, comes back with an error when the lookup of its container instance
fails. -/
theorem processECSEventMessage_ignored_event_fails :
    (processECSEventMessage (utilWithInstances (.error "boom")) freshWorld
        (helloEvent "service:hello" "RUNNING" "PENDING")).1
      = .error ("getIP(myinstancearn): getInstanceID(): getInstanceIDs(): " ++
          "ecs.DescribeContainerInstances(): boom") := by
  decide

/-! ## C14 -/

/-- C14, amended: for every event whose group is `pre:name` or `pre:name:...`,
with no `":"` in `pre` and in `name`, the service name is `name`, the text
between the first and the second `":"` of the group (or its end): for a
resolved `RUNNING`/`RUNNING` event the table is left as
`updateBackendDynamoDB(name, ...)` leaves it, for a resolved `STOPPED` event as
`removeServerFromBackendDynamoDB(name, ...)` leaves it. -/
theorem processECSEventMessage_service_name (util : Util) (w : World) (msg : Detail)
    (c : Container) (cs : List Container) (b : NetworkBinding) (bs : List NetworkBinding)
    (pre name rest ip : String) (inv1 : Inventory)
    (hgroup : msg.Group = pre ++ ":" ++ name ++ rest)
    (hpre : ':' ∉ pre.toList) (hname : ':' ∉ name.toList)
    (hrest : ∀ ch, rest.toList.head? = some ch → ch = ':')
    (hc : msg.Containers = c :: cs) (hb : c.NetworkBindings = b :: bs)
    (hip : getIP util w.inv msg.ContainerInstanceArn = (.ok ip, inv1)) :
    (Split msg.Group ':')[1]? = some name ∧
    (msg.LastStatus = Running → msg.DesiredStatus = Running →
      (processECSEventMessage util w msg).2.db =
        (updateBackendDynamoDB util.MaxTries w.db name
          (createBackend [ip ++ ":" ++ Itoa b.HostPort]) false).2) ∧
    (msg.DesiredStatus = Stopped →
      (processECSEventMessage util w msg).2.db =
        (removeServerFromBackendDynamoDB util.MaxTries w.db name
          (ip ++ ":" ++ Itoa b.HostPort)).2) := by
  have hsvc : (Split msg.Group ':')[1]? = some name := by
    rw [hgroup]
    exact Split_second_piece pre name rest hpre hname hrest
  have hres := processECSEventMessage_resolved util w msg c cs b bs name ip inv1 hc hb hsvc hip
  refine ⟨hsvc, ?_, ?_⟩
  · intro hl hd
    rw [hres, if_pos ⟨hl, hd⟩]
    rcases hu : updateBackendDynamoDB util.MaxTries w.db name
        (createBackend [ip ++ ":" ++ Itoa b.HostPort]) false with ⟨err, db1⟩
    cases err <;> rfl
  · intro hd
    have hnr : ¬(msg.LastStatus = Running ∧ msg.DesiredStatus = Running) := by
      rintro ⟨_, h2⟩
      rw [hd] at h2
      exact absurd h2 (by decide)
    rw [hres, if_neg hnr, if_pos hd]
    rcases hu : removeServerFromBackendDynamoDB util.MaxTries w.db name
        (ip ++ ":" ++ Itoa b.HostPort) with ⟨err, db1⟩
    cases err <;> rfl

/-- Witness of C14 as amended: the group `service:web:blue` gives the service
`web`. -/
theorem processECSEventMessage_service_name_witness :
    (Split (helloEvent "service:web:blue" "RUNNING" "RUNNING").Group ':')[1]? = some "web" ∧
    (processECSEventMessage (helloUtil 10) freshWorld
        (helloEvent "service:web:blue" "RUNNING" "RUNNING")).2.db =
      (updateBackendDynamoDB (helloUtil 10).MaxTries freshWorld.db "web"
        (createBackend ["10.0.0.4" ++ ":" ++ Itoa 8090]) false).2 :=
  ⟨(processECSEventMessage_service_name (helloUtil 10) freshWorld
      (helloEvent "service:web:blue" "RUNNING" "RUNNING") ⟨[⟨8090⟩]⟩ [] ⟨8090⟩ []
      "service" "web" ":blue" "10.0.0.4"
      (getIP (helloUtil 10) freshInventory "myinstancearn").2
      (by decide) (by decide) (by decide) (fun _ h => (Option.some.inj h).symm) rfl rfl
      (Prod.ext (by decide) rfl)).1,
    (processECSEventMessage_service_name (helloUtil 10) freshWorld
      (helloEvent "service:web:blue" "RUNNING" "RUNNING") ⟨[⟨8090⟩]⟩ [] ⟨8090⟩ []
      "service" "web" ":blue" "10.0.0.4"
      (getIP (helloUtil 10) freshInventory "myinstancearn").2
      (by decide) (by decide) (by decide) (fun _ h => (Option.some.inj h).symm) rfl rfl
      (Prod.ext (by decide) rfl)).2.1 rfl rfl⟩

/-- Counterexample to C14 as stated: for the group `service:web:blue` the store
is asked for the record of `web`, not of `web:blue`. -/
theorem processECSEventMessage_service_name_second_piece :
    (processECSEventMessage (helloUtil 10) freshWorld
        (helloEvent "service:web:blue" "RUNNING" "RUNNING")).2.db.log.head?
      = some (.GetItem "web__backend" .empty) := by
  decide

/-! ## C15: the pages of a task listing -/

/-- Whatever the listing, once there is a first page `getTaskArns` returns that
page alone, and no error: its callback returns `lastPage`, which stops the pager
after the first page of a longer listing. -/
theorem getTaskArns_first_page (util : Util) (inv : Inventory) (service : String)
    (page : List String) (rest : List (List String))
    (h : (util.ECS.ListTasksPages (if service ≠ "" then some service else none)).pages =
      page :: rest) :
    (getTaskArns util inv service).1 = (page, none) := by
  unfold getTaskArns
  simp only
  rw [h]
  unfold eachPage
  cases rest with
  | nil =>
    cases he : (util.ECS.ListTasksPages (if service ≠ "" then some service else none)).err with
    | none => simp [eachPage]
    | some e => simp
  | cons p2 rest2 => simp

/-- C15 at its failing input: of a listing of two pages `getTaskArns` returns
only the first. -/
theorem getTaskArns_stops_after_first_page :
    (getTaskArns (utilWithListings ⟨[["garbage/hello"]], none⟩
        (fun _ => ⟨[["task-1"], ["task-2"]], none⟩)) freshInventory "hello").1
      = (["task-1"], none) := by
  decide

/-! ## C16 and C20: resolving an instance -/

/-- The one way `getInstanceID` panics on answers whose fields are all set: the
ARN is not cached and `DescribeContainerInstances` returns no instance and no
error. (An answer with a nil `ContainerInstanceArn` or `Ec2InstanceId` makes the
Go code panic as well; such answers are not part of the embedding.) -/
theorem getInstanceID_panic_iff (util : Util) (inv : Inventory) (arn : String) :
    (getInstanceID util inv arn).1 = .panic ↔
      inv.arnToInstanceIDs arn = none ∧ util.ECS.DescribeContainerInstances [arn] = .ok [] := by
  unfold getInstanceID getInstanceIDs
  cases hc : inv.arnToInstanceIDs arn with
  | some id => simp [hc]
  | none =>
    simp only [List.filterMap_cons, hc, List.filterMap_nil, List.filter_cons, Option.isNone_none,
      if_true, List.filter_nil, List.length_singleton, Nat.lt_irrefl, if_false]
    cases hd : util.ECS.DescribeContainerInstances [arn] with
    | error e => simp
    | ok instances =>
      cases instances with
      | nil => simp
      | cons i rest => simp

/-- The one way `getIP` panics on answers whose fields are all set. (A nil
`Ec2InstanceId` or `PrivateIpAddress` in an answer makes the Go code panic as
well; such answers are not part of the embedding.) -/
theorem getIP_panic_iff (util : Util) (inv : Inventory) (arn : String) :
    (getIP util inv arn).1 = .panic ↔
      inv.arnToInstanceIDs arn = none ∧ util.ECS.DescribeContainerInstances [arn] = .ok [] := by
  rw [← getInstanceID_panic_iff]
  unfold getIP
  rcases hi : getInstanceID util inv arn with ⟨res, inv1⟩
  cases res with
  | panic => simp
  | error e => simp
  | ok id =>
    simp only
    rcases hp : getInstancePrivateIP util inv1 id with ⟨r2, inv2⟩
    cases r2 <;> simp

/-- Apart from that case a failed lookup is an error: `getIP` returns an error
when `DescribeContainerInstances` fails, and when for the instance found
`DescribeInstances` fails or returns no reservation or no instance. -/
theorem getIP_error_cases (util : Util) (inv : Inventory) (arn : String) :
    (∀ e, inv.arnToInstanceIDs arn = none →
      util.ECS.DescribeContainerInstances [arn] = .error e →
      ∃ msg, (getIP util inv arn).1 = .error msg) ∧
    (∀ id inv1, getInstanceID util inv arn = (.ok id, inv1) →
      inv1.instancePrivateIPs id = none →
      (∀ r rest, util.EC2.DescribeInstances [id] = .ok (r :: rest) → r.Instances = []) →
      ∃ msg, (getIP util inv arn).1 = .error msg) := by
  constructor
  · intro e hc hd
    unfold getIP getInstanceID getInstanceIDs
    simp [hc, hd]
  · intro id inv1 hi hc hd
    unfold getIP
    rw [hi]
    simp only
    unfold getInstancePrivateIP
    rw [hc]
    simp only
    cases hr : util.EC2.DescribeInstances [id] with
    | error e => simp
    | ok rs =>
      cases rs with
      | nil => simp
      | cons r rest =>
        simp only
        rw [hd r rest hr]
        simp

/-- C20 at its failing input: the container instance is not cached and
`DescribeContainerInstances` returns an empty list without error. -/
theorem getIP_panics_on_empty_lookup :
    (getIP (utilWithInstances (.ok [])) freshInventory "myinstancearn").1 = .panic := by
  decide

/-- The port read off a task is empty exactly when the task has no first
container or that container no first binding. -/
theorem taskPort_eq (task : Task) :
    taskPort task =
      match task.Containers with
      | [] => ""
      | container :: _ =>
        match container.NetworkBindings with
        | [] => ""
        | binding :: _ => Itoa binding.HostPort := rfl

/-- When `DescribeContainerInstances` never returns an empty list without error,
the loop of `getAddressOfTasks` appends the resolved addresses, in task order. -/
theorem getAddressOfTasksLoop_resolved (util : Util)
    (hne : ∀ arns, util.ECS.DescribeContainerInstances arns ≠ .ok []) :
    ∀ (tasks : List Task) (addresses : List String) (inv : Inventory),
      (getAddressOfTasksLoop util tasks addresses inv).1 =
        some (addresses ++ resolvedAddresses util tasks inv) := by
  intro tasks
  induction tasks with
  | nil => intro addresses inv; simp [getAddressOfTasksLoop, resolvedAddresses]
  | cons task rest ih =>
    intro addresses inv
    cases hcs : task.Containers with
    | nil =>
      have hport : taskPort task = "" := by simp [taskPort, hcs]
      simp only [getAddressOfTasksLoop, resolvedAddresses, hport, hcs, if_true]
      exact ih addresses inv
    | cons container cs =>
      cases hbs : container.NetworkBindings with
      | nil =>
        have hport : taskPort task = "" := by simp [taskPort, hcs, hbs]
        simp only [getAddressOfTasksLoop, resolvedAddresses, hport, hcs, hbs, if_true]
        exact ih addresses inv
      | cons binding bs =>
        have hport : taskPort task = Itoa binding.HostPort := by simp [taskPort, hcs, hbs]
        simp only [getAddressOfTasksLoop, resolvedAddresses, hport, hcs, hbs,
          if_neg (Itoa_ne_empty _)]
        rcases hip : getIP util inv task.ContainerInstanceArn with ⟨res, inv1⟩
        cases res with
        | panic =>
          have hp := (getIP_panic_iff util inv task.ContainerInstanceArn).1 (by rw [hip])
          exact absurd hp.2 (hne _)
        | error e => exact ih addresses inv1
        | ok ip =>
          simp only
          rw [ih]
          simp

/-- When `DescribeContainerInstances` never returns an empty list without error,
`getAddressOfTasks` returns the resolved addresses, in task order. -/
theorem getAddressOfTasks_resolved (util : Util) (inv : Inventory) (tasks : List Task)
    (hne : ∀ arns, util.ECS.DescribeContainerInstances arns ≠ .ok []) :
    (getAddressOfTasks util inv tasks).1 = some (resolvedAddresses util tasks inv) := by
  unfold getAddressOfTasks
  rw [getAddressOfTasksLoop_resolved util hne]
  simp

/-- C16 at its failing input: the container instance of the one task is not
cached and `DescribeContainerInstances` returns an empty list without error. -/
theorem getAddressOfTasks_panics_on_empty_lookup :
    (getAddressOfTasks (utilWithInstances (.ok [])) freshInventory
      [⟨"hello-arn", "myinstancearn", [⟨[⟨8090⟩]⟩]⟩]).1 = none := by
  decide

/-! ## C17: the list of `HandleDiffAll` -/

/-- The loop of `HandleDiffAll` when no diff panics: it visits every service,
appends those whose diff did not return `(true, nil)`, and ends with an error
exactly when it started with one or a diff failed. -/
theorem HandleDiffAllLoop_spec (util : Util) :
    ∀ (services outOfSync : List String) (err : GoError) (w : World),
      (∀ p ∈ diffEach util services w, p.2 ≠ .panic) →
      ∃ err1 w1,
        HandleDiffAllLoop util services outOfSync err w =
          (some (outOfSync ++
            ((diffEach util services w).filter (fun p => p.2 != .ok true)).map Prod.fst,
            err1), w1) ∧
        (err1.isSome = true ↔
          err.isSome = true ∨ ∃ p ∈ diffEach util services w, ∃ e, p.2 = .error e) := by
  intro services
  induction services with
  | nil =>
    intro outOfSync err w _
    exact ⟨err, w, by simp [HandleDiffAllLoop, diffEach], by simp [diffEach]⟩
  | cons service rest ih =>
    intro outOfSync err w hnp
    unfold HandleDiffAllLoop
    rcases hd : diff util w service with ⟨res, w1⟩
    have hde : diffEach util (service :: rest) w = (service, res) :: diffEach util rest w1 := by
      simp [diffEach, hd]
    rw [hde] at hnp ⊢
    have hrest : ∀ p ∈ diffEach util rest w1, p.2 ≠ .panic :=
      fun p hp => hnp p (List.mem_cons_of_mem _ hp)
    cases res with
    | panic => exact absurd rfl (hnp (service, .panic) (List.mem_cons_self _ _))
    | error ierr =>
      obtain ⟨err1, w2, heq, herr⟩ := ih (outOfSync ++ [service])
        (Wrap (some ierr) ("diff(" ++ service ++ "): " ++ err.getD "")) w1 hrest
      refine ⟨err1, w2, ?_, ?_⟩
      · simp only
        rw [heq]
        simp
      · rw [herr]
        simp [Wrap]
    | ok inSync =>
      obtain ⟨err1, w2, heq, herr⟩ := ih (if !inSync then outOfSync ++ [service] else outOfSync)
        err w1 hrest
      refine ⟨err1, w2, ?_, ?_⟩
      · simp only
        rw [heq]
        cases inSync <;> simp
      · rw [herr]
        simp

/-- C17, amended: when the service listing succeeds and no diff panics,
`HandleDiffAll` diffs every listed service, also after a diff that failed, and
the list it returns holds, in listing order, exactly the services whose diff did
not return `(true, nil)`: those reported out of sync and those whose diff
failed; the returned error is non-nil if and only if at least one diff failed. -/
theorem HandleDiffAll_lists_out_of_sync_and_failed (util : Util) (w : World)
    (services : List String) (inv1 : Inventory)
    (hlist : listServices util w.inv = (.ok services, inv1))
    (hnp : ∀ p ∈ diffEach util services ⟨inv1, w.db⟩, p.2 ≠ .panic) :
    ∃ err w1,
      HandleDiffAll util w =
        (some (((diffEach util services ⟨inv1, w.db⟩).filter
            (fun p => p.2 != .ok true)).map Prod.fst, err), w1) ∧
      (diffEach util services ⟨inv1, w.db⟩).map Prod.fst = services ∧
      (err.isSome = true ↔ ∃ p ∈ diffEach util services ⟨inv1, w.db⟩, ∃ e, p.2 = .error e) := by
  obtain ⟨err, w1, heq, herr⟩ := HandleDiffAllLoop_spec util services [] none ⟨inv1, w.db⟩ hnp
  refine ⟨err, w1, ?_, ?_, ?_⟩
  · unfold HandleDiffAll
    rw [hlist]
    simpa using heq
  · clear heq herr hnp hlist
    generalize (⟨inv1, w.db⟩ : World) = w0
    induction services generalizing w0 with
    | nil => rfl
    | cons s rest ih => simp [diffEach, ih]
  · simpa using herr

/-- Witness of C17 as amended: the one listed service `hello` runs a task and
has no record, so it is out of sync. -/
theorem HandleDiffAll_lists_out_of_sync_and_failed_witness :
    ∃ err w1,
      HandleDiffAll (helloUtil 10) freshWorld =
        (some (((diffEach (helloUtil 10) ["hello"]
            ⟨(listServices (helloUtil 10) freshWorld.inv).2, freshWorld.db⟩).filter
            (fun p => p.2 != .ok true)).map Prod.fst, err), w1) ∧
      (diffEach (helloUtil 10) ["hello"]
          ⟨(listServices (helloUtil 10) freshWorld.inv).2, freshWorld.db⟩).map Prod.fst =
        ["hello"] ∧
      (err.isSome = true ↔ ∃ p ∈ diffEach (helloUtil 10) ["hello"]
          ⟨(listServices (helloUtil 10) freshWorld.inv).2, freshWorld.db⟩,
        ∃ e, p.2 = .error e) :=
  HandleDiffAll_lists_out_of_sync_and_failed (helloUtil 10) freshWorld ["hello"]
    (listServices (helloUtil 10) freshWorld.inv).2 (Prod.ext (by decide) rfl) (by decide)

/-- Counterexample to C17 as stated: the diff of `hello` fails (the task listing
is unreachable), and `hello` is in the list returned. -/
theorem HandleDiffAll_lists_failed_service :
    (diff (utilWithListings ⟨[["garbage/hello"]], none⟩
        (fun _ => ⟨[], some "RequestError: send request failed"⟩))
        ⟨(listServices (utilWithListings ⟨[["garbage/hello"]], none⟩
          (fun _ => ⟨[], some "RequestError: send request failed"⟩)) freshInventory).2,
          emptyDb⟩ "hello").1
      = .error "getBackendECS(hello): getTaskArns(): RequestError: send request failed" ∧
    (HandleDiffAll (utilWithListings ⟨[["garbage/hello"]], none⟩
        (fun _ => ⟨[], some "RequestError: send request failed"⟩)) freshWorld).1
      = some (["hello"], some ("diff(hello): : getBackendECS(hello): getTaskArns(): " ++
          "RequestError: send request failed")) := by
  decide

/-! ## C18 and C19: the error of `syncAll` -/

/-- Once the variable `err` of `syncAll` holds an error the sweep does not end
with nil. -/
theorem syncAllLoop_keeps_error (util : Util) :
    ∀ (services : List String) (e : String) (w : World),
      (syncAllLoop util services (some e) w).1 ≠ .ok () := by
  intro services
  induction services with
  | nil => intro e w; simp [syncAllLoop]
  | cons service rest ih =>
    intro e w
    unfold syncAllLoop
    rcases hs : sync util w service with ⟨res, w1⟩
    cases res with
    | panic => simp
    | error ierr =>
      simp only
      split
      · exact ih e w1
      · exact ih _ w1
    | ok u => exact ih e w1

/-- C18 at its failing input: the syncs of `alpha` and of `beta` both fail, and
the error returned is that of `beta`, the last one; it does not mention `alpha`. -/
theorem syncAll_returns_last_error :
    (syncAll (utilWithListings ⟨[["garbage/alpha", "garbage/beta"]], none⟩
        (fun service => ⟨[], some ("RequestError: " ++ service.getD "" ++ " unreachable")⟩))
        freshWorld 0).1
      = .error ("error syncing one or more services: sync(beta): getBackendECS(beta): " ++
          "getTaskArns(): RequestError: beta unreachable") ∧
    Contains ("error syncing one or more services: sync(beta): getBackendECS(beta): " ++
          "getTaskArns(): RequestError: beta unreachable") "alpha" = false := by
  decide

/-- C19 at its failing input: the sync of the service named `NoNetworkBindings`
fails because the task listing is unreachable, and `syncAll` returns nil. -/
theorem syncAll_drops_failure_of_marked_name :
    (sync (utilWithListings ⟨[["garbage/NoNetworkBindings"]], none⟩
        (fun _ => ⟨[], some "RequestError: send request failed"⟩))
        ⟨(listServices (utilWithListings ⟨[["garbage/NoNetworkBindings"]], none⟩
          (fun _ => ⟨[], some "RequestError: send request failed"⟩)) freshInventory).2,
          emptyDb⟩ "NoNetworkBindings").1
      = .error ("getBackendECS(NoNetworkBindings): getTaskArns(): " ++
          "RequestError: send request failed") ∧
    (syncAll (utilWithListings ⟨[["garbage/NoNetworkBindings"]], none⟩
        (fun _ => ⟨[], some "RequestError: send request failed"⟩)) freshWorld 0).1
      = .ok () := by
  decide

/-! ## C21: the two cache maps -/

/-- A cached address is returned without a call of the EC2 client. -/
theorem getInstancePrivateIP_hit (util : Util) (inv : Inventory) (id a : String)
    (h : inv.instancePrivateIPs id = some a) :
    getInstancePrivateIP util inv id = (.ok a, inv) := by
  unfold getInstancePrivateIP
  rw [h]

/-- An address that `getInstancePrivateIP` returns is in the map afterwards. -/
theorem getInstancePrivateIP_ok_cached (util : Util) (inv inv1 : Inventory) (id a : String)
    (h : getInstancePrivateIP util inv id = (.ok a, inv1)) :
    inv1.instancePrivateIPs id = some a := by
  unfold getInstancePrivateIP at h
  cases hc : inv.instancePrivateIPs id with
  | some address =>
    rw [hc] at h
    simp only [Prod.mk.injEq, Except.ok.injEq] at h
    obtain ⟨h1, h2⟩ := h
    subst h1; subst h2
    exact hc
  | none =>
    rw [hc] at h
    simp only at h
    cases hd : util.EC2.DescribeInstances [id] with
    | error e => rw [hd] at h; simp at h
    | ok rs =>
      rw [hd] at h
      cases rs with
      | nil => simp at h
      | cons r rest =>
        simp only at h
        cases hi : r.Instances with
        | nil => rw [hi] at h; simp at h
        | cons inst more =>
          rw [hi] at h
          simp only [Prod.mk.injEq, Except.ok.injEq] at h
          obtain ⟨h1, h2⟩ := h
          subst h1; subst h2
          simp [cachePut]

/-- A call of `getInstancePrivateIP` keeps every entry of the address map and
leaves the other map alone. -/
theorem getInstancePrivateIP_keeps (util : Util) (inv : Inventory) (id : String) :
    (∀ key v, inv.instancePrivateIPs key = some v →
      (getInstancePrivateIP util inv id).2.instancePrivateIPs key = some v) ∧
    (getInstancePrivateIP util inv id).2.arnToInstanceIDs = inv.arnToInstanceIDs := by
  unfold getInstancePrivateIP
  cases hc : inv.instancePrivateIPs id with
  | some address => exact ⟨fun _ _ h => h, rfl⟩
  | none =>
    simp only
    cases hd : util.EC2.DescribeInstances [id] with
    | error e => exact ⟨fun _ _ h => h, rfl⟩
    | ok rs =>
      cases rs with
      | nil => exact ⟨fun _ _ h => h, rfl⟩
      | cons r rest =>
        simp only
        cases hi : r.Instances with
        | nil => exact ⟨fun _ _ h => h, rfl⟩
        | cons inst more =>
          refine ⟨fun key v h => ?_, rfl⟩
          simp only [cachePut]
          split
          · next hk => rw [hk, hc] at h; cases h
          · exact h

/-- Storing the instances of an answer removes no key. -/
theorem foldl_cachePut_keeps (arns : List String) (instances : List ContainerInstance) :
    ∀ (cache : String → Option String) (key : String), (cache key).isSome = true →
      ((instances.foldl
        (fun cache ci =>
          if arns.contains ci.ContainerInstanceArn then
            cachePut cache ci.ContainerInstanceArn ci.Ec2InstanceId
          else cache) cache) key).isSome = true := by
  induction instances with
  | nil => intro cache key h; exact h
  | cons ci rest ih =>
    intro cache key h
    simp only [List.foldl_cons]
    apply ih
    split
    · simp only [cachePut]
      split
      · rfl
      · exact h
    · exact h

/-- A call of `getInstanceIDs` removes no key of the ARN map and leaves the
address map alone. -/
theorem getInstanceIDs_keeps (util : Util) (inv : Inventory) (arns : List String) :
    (∀ key, (inv.arnToInstanceIDs key).isSome = true →
      ((getInstanceIDs util inv arns).2.arnToInstanceIDs key).isSome = true) ∧
    (getInstanceIDs util inv arns).2.instancePrivateIPs = inv.instancePrivateIPs := by
  unfold getInstanceIDs
  simp only
  split
  · exact ⟨fun _ h => h, rfl⟩
  · cases hd : util.ECS.DescribeContainerInstances
        (arns.filter (fun arn => (inv.arnToInstanceIDs arn).isNone)) with
    | error e => exact ⟨fun _ h => h, rfl⟩
    | ok instances =>
      exact ⟨fun key h => foldl_cachePut_keeps arns instances _ key h, rfl⟩

/-- No call removes a key from either map, and no call changes an entry of the
address map. -/
theorem runCall_keeps (call : CacheCall) (inv : Inventory) :
    (∀ key v, inv.instancePrivateIPs key = some v →
      (runCall call inv).instancePrivateIPs key = some v) ∧
    (∀ key, (inv.arnToInstanceIDs key).isSome = true →
      ((runCall call inv).arnToInstanceIDs key).isSome = true) := by
  cases call with
  | getInstanceIDs util arns =>
    have h := getInstanceIDs_keeps util inv arns
    refine ⟨fun key v hk => ?_, h.1⟩
    simp only [runCall]
    rw [h.2]
    exact hk
  | getInstancePrivateIP util id =>
    have h := getInstancePrivateIP_keeps util inv id
    refine ⟨h.1, fun key hk => ?_⟩
    simp only [runCall]
    rw [h.2]
    exact hk

/-- The same for any number of calls made one after another. -/
theorem runCalls_keeps (calls : List CacheCall) :
    ∀ inv : Inventory,
      (∀ key v, inv.instancePrivateIPs key = some v →
        (runCalls calls inv).instancePrivateIPs key = some v) ∧
      (∀ key, (inv.arnToInstanceIDs key).isSome = true →
        ((runCalls calls inv).arnToInstanceIDs key).isSome = true) := by
  induction calls with
  | nil => intro inv; exact ⟨fun _ _ h => h, fun _ h => h⟩
  | cons call rest ih =>
    intro inv
    have h1 := runCall_keeps call inv
    have h2 := ih (runCall call inv)
    exact ⟨fun key v hk => h2.1 key v (h1.1 key v hk), fun key hk => h2.2 key (h1.2 key hk)⟩

/-- C21: the identity cache is append-only and authoritative, the calls of the
process being made one after another. After `getInstancePrivateIP(id)` has
returned the address `a`, whatever calls of `getInstanceIDs` and
`getInstancePrivateIP` follow and whatever the ECS and EC2 clients answer by
then, a call `getInstancePrivateIP(id)` returns `a` and leaves the state as it
was, the log of inventory calls included: the EC2 client is not called. And a
call of `getInstanceIDs` or `getInstancePrivateIP`, in any state, removes no key
from either map. -/
theorem instancePrivateIPs_authoritative (util : Util) (inv inv1 : Inventory) (id a : String)
    (h : getInstancePrivateIP util inv id = (.ok a, inv1)) :
    (∀ (calls : List CacheCall) (util1 : Util),
      getInstancePrivateIP util1 (runCalls calls inv1) id = (.ok a, runCalls calls inv1)) ∧
    (∀ (call : CacheCall) (inv0 : Inventory) (key : String),
      ((inv0.instancePrivateIPs key).isSome = true →
        ((runCall call inv0).instancePrivateIPs key).isSome = true) ∧
      ((inv0.arnToInstanceIDs key).isSome = true →
        ((runCall call inv0).arnToInstanceIDs key).isSome = true)) := by
  constructor
  · intro calls util1
    exact getInstancePrivateIP_hit util1 _ id a
      ((runCalls_keeps calls inv1).1 id a (getInstancePrivateIP_ok_cached util inv inv1 id a h))
  · intro call inv0 key
    refine ⟨fun hk => ?_, (runCall_keeps call inv0).2 key⟩
    cases hv : inv0.instancePrivateIPs key with
    | none => rw [hv] at hk; cases hk
    | some v => rw [(runCall_keeps call inv0).1 key v hv]; rfl

/-- Witness of C21: the address of `myinstanceid` is looked up once; after a
lookup of the container instance and with an EC2 client that now answers
`10.0.0.9`, the second call returns `10.0.0.4` and makes no inventory call. -/
theorem instancePrivateIPs_authoritative_witness :
    (getInstancePrivateIP movedUtil
        (runCalls [.getInstanceIDs (helloUtil 10) ["myinstancearn"]]
          (getInstancePrivateIP (helloUtil 10) freshInventory "myinstanceid").2)
        "myinstanceid").1 = .ok "10.0.0.4" ∧
    (getInstancePrivateIP movedUtil
        (runCalls [.getInstanceIDs (helloUtil 10) ["myinstancearn"]]
          (getInstancePrivateIP (helloUtil 10) freshInventory "myinstanceid").2)
        "myinstanceid").2.calls =
      (runCalls [.getInstanceIDs (helloUtil 10) ["myinstancearn"]]
          (getInstancePrivateIP (helloUtil 10) freshInventory "myinstanceid").2).calls :=
  ⟨congrArg Prod.fst
      ((instancePrivateIPs_authoritative (helloUtil 10) freshInventory
        (getInstancePrivateIP (helloUtil 10) freshInventory "myinstanceid").2 "myinstanceid"
        "10.0.0.4" (Prod.ext rfl rfl)).1
        [.getInstanceIDs (helloUtil 10) ["myinstancearn"]] movedUtil),
    congrArg (fun r => r.2.calls)
      ((instancePrivateIPs_authoritative (helloUtil 10) freshInventory
        (getInstancePrivateIP (helloUtil 10) freshInventory "myinstanceid").2 "myinstanceid"
        "10.0.0.4" (Prod.ext rfl rfl)).1
        [.getInstanceIDs (helloUtil 10) ["myinstancearn"]] movedUtil)⟩

/-! ## C22: a nil result and the writes of the call -/

/-- With `MaxTries` zero or negative the loop body of `updateBackendDynamoDB`
never runs: the call returns nil and makes no store call. -/
theorem updateBackendDynamoDB_no_tries (MaxTries : Int) (db : Db) (name : String) (D : Backend)
    (ow : Bool) (h : MaxTries ≤ 0) :
    updateBackendDynamoDB MaxTries db name D ow = (none, db) := by
  have hk : MaxTries.toNat = 0 := by omega
  simp [updateBackendDynamoDB, hk, updateBackendLoop, Wrap]

/-- With `MaxTries` zero or negative the loop body of
`removeServerFromBackendDynamoDB` never runs: the call returns nil and makes no
store call. -/
theorem removeServerFromBackendDynamoDB_no_tries (MaxTries : Int) (db : Db)
    (name portIP : String) (h : MaxTries ≤ 0) :
    removeServerFromBackendDynamoDB MaxTries db name portIP = (none, db) := by
  have hk : MaxTries.toNat = 0 := by omega
  simp [removeServerFromBackendDynamoDB, hk, removeServerLoop]

/-- The log after `getBackendItem`: one more call, a fetch. -/
theorem getBackendItem_log (db : Db) (name : String) :
    ∃ call, (getBackendItem db name).2.log = db.log ++ [call] ∧ call.committed = false := by
  obtain ⟨out, h⟩ := getBackendItem_db db name
  exact ⟨.GetItem (name ++ "__backend") out, by rw [h]; rfl, rfl⟩

/-- The log after `createBackendDynamoDB`: one more call, a put, committed
exactly when nil is returned. -/
theorem createBackendDynamoDB_log (db : Db) (name : String) (backend : BackendItem) :
    ∃ call, (createBackendDynamoDB db name backend).2.log = db.log ++ [call] ∧
      (call.committed = true ↔ (createBackendDynamoDB db name backend).1 = none) := by
  refine ⟨.PutItem backend.ID ⟨backend.Name, backend.Version, backend.Backend, none⟩
    db.tick.fault, rfl, ?_⟩
  simp only [createBackendDynamoDB, PutItem, StoreCall.committed]
  cases db.tick.fault <;> simp [Wrap]

/-- The log after `updateBackendWithLock`: one more call, a conditional update,
committed exactly when nil is returned. -/
theorem updateBackendWithLock_log (db : Db) (endItem : BackendItem) :
    ∃ call, (updateBackendWithLock db endItem).2.log = db.log ++ [call] ∧
      (call.committed = true ↔ (updateBackendWithLock db endItem).1 = none) := by
  refine ⟨.UpdateItem endItem.ID endItem.Version endItem.Backend
    (UpdateItem db endItem.ID endItem.Version endItem.Backend).1, rfl, ?_⟩
  simp only [updateBackendWithLock, StoreCall.committed]
  cases (UpdateItem db endItem.ID endItem.Version endItem.Backend).1 <;> simp [Wrap]

/-- One attempt of an update commits one write when it returns nil, and none
otherwise. -/
theorem updateBackendAttempt_committed (MaxTries : Int) (name : String) (D : Backend)
    (ow : Bool) (db : Db) :
    ∃ calls, (updateBackendAttempt MaxTries name D ow db).2.log = db.log ++ calls ∧
      ((updateBackendAttempt MaxTries name D ow db).1 = .done none →
        (calls.filter StoreCall.committed).length = 1) ∧
      ((updateBackendAttempt MaxTries name D ow db).1 ≠ .done none →
        (calls.filter StoreCall.committed).length = 0) := by
  obtain ⟨g, hg, hgc⟩ := getBackendItem_log db name
  unfold updateBackendAttempt
  rcases hgi : getBackendItem db name with ⟨res, db1⟩
  rw [hgi] at hg
  simp only at hg
  cases res with
  | error e =>
    simp only
    split
    · obtain ⟨c, hc, hcc⟩ := createBackendDynamoDB_log db1 name (createBackendItem name D)
      rcases hcr : createBackendDynamoDB db1 name (createBackendItem name D) with ⟨err, db2⟩
      rw [hcr] at hc hcc
      simp only at hc hcc
      refine ⟨[g, c], by rw [hc, hg]; simp, ?_, ?_⟩
      · intro hnil
        simp only [Attempt.done.injEq] at hnil
        have : c.committed = true := hcc.2 hnil
        simp [List.filter, hgc, this]
      · intro hne
        have : c.committed = false := by
          cases hcm : c.committed with
          | false => rfl
          | true => exact absurd (congrArg Attempt.done (hcc.1 hcm)) hne
        simp [List.filter, hgc, this]
    · exact ⟨[g], hg, by simp, by simp [List.filter, hgc]⟩
  | ok backend =>
    simp only
    obtain ⟨c, hc, hcc⟩ := updateBackendWithLock_log db1 (updatedBackend backend D ow)
    rcases hw : updateBackendWithLock db1 (updatedBackend backend D ow) with ⟨err, db2⟩
    rw [hw] at hc hcc
    simp only at hc hcc
    cases err with
    | none =>
      have : c.committed = true := hcc.2 rfl
      exact ⟨[g, c], by rw [hc, hg]; simp, by simp [List.filter, hgc, this], by simp⟩
    | some e1 =>
      have : c.committed = false := by
        cases hcm : c.committed with
        | false => rfl
        | true => exact absurd (hcc.1 hcm) (by simp)
      simp only
      split
      · exact ⟨[g, c], by rw [hc, hg]; simp, by simp [Wrap], by simp [List.filter, hgc, this]⟩
      · exact ⟨[g, c], by rw [hc, hg]; simp, by simp, by simp [List.filter, hgc, this]⟩

/-- One attempt of a removal commits one write when it returns nil, and none
otherwise. -/
theorem removeServerAttempt_committed (name portIP : String) (db : Db) :
    ∃ calls, (removeServerAttempt name portIP db).2.log = db.log ++ calls ∧
      ((removeServerAttempt name portIP db).1 = .done none →
        (calls.filter StoreCall.committed).length = 1) ∧
      ((removeServerAttempt name portIP db).1 ≠ .done none →
        (calls.filter StoreCall.committed).length = 0) := by
  obtain ⟨g, hg, hgc⟩ := getBackendItem_log db name
  unfold removeServerAttempt
  rcases hgi : getBackendItem db name with ⟨res, db1⟩
  rw [hgi] at hg
  simp only at hg
  cases res with
  | error e => exact ⟨[g], hg, by simp, by simp [List.filter, hgc]⟩
  | ok backend =>
    simp only
    obtain ⟨c, hc, hcc⟩ := updateBackendWithLock_log db1 (removedServer backend portIP)
    rcases hw : updateBackendWithLock db1 (removedServer backend portIP) with ⟨err, db2⟩
    rw [hw] at hc hcc
    simp only at hc hcc
    cases err with
    | none =>
      have : c.committed = true := hcc.2 rfl
      exact ⟨[g, c], by rw [hc, hg]; simp, by simp [List.filter, hgc, this], by simp⟩
    | some e1 =>
      have : c.committed = false := by
        cases hcm : c.committed with
        | false => rfl
        | true => exact absurd (hcc.1 hcm) (by simp)
      simp only
      split
      · exact ⟨[g, c], by rw [hc, hg]; simp, by simp, by simp [List.filter, hgc, this]⟩
      · exact ⟨[g, c], by rw [hc, hg]; simp, by simp, by simp [List.filter, hgc, this]⟩

/-- A run of the update loop that returns nil after at least one iteration has
committed exactly one write. -/
theorem updateBackendLoop_committed (MaxTries : Int) (name : String) (D : Backend) (ow : Bool) :
    ∀ (k : Nat) (err : GoError) (db db' : Db),
      updateBackendLoop MaxTries name D ow k err db = (none, db') →
      (0 < k ∨ err ≠ none) →
      ∃ calls, db'.log = db.log ++ calls ∧
        (calls.filter StoreCall.committed).length = 1 := by
  intro k
  induction k with
  | zero =>
    intro err db db' h hk
    simp only [updateBackendLoop, Prod.mk.injEq] at h
    rcases hk with hk | hk
    · omega
    · cases err with
      | none => exact absurd rfl hk
      | some e => simp [Wrap] at h
  | succ k ih =>
    intro err db db' h _
    obtain ⟨calls, hlog, hone, hzero⟩ := updateBackendAttempt_committed MaxTries name D ow db
    unfold updateBackendLoop at h
    rcases ha : updateBackendAttempt MaxTries name D ow db with ⟨a, db1⟩
    rw [ha] at h hlog hone hzero
    simp only at hlog hone hzero
    cases a with
    | done e =>
      simp only [Prod.mk.injEq] at h
      obtain ⟨he, hdb⟩ := h
      subst he; subst hdb
      exact ⟨calls, hlog, hone rfl⟩
    | again e =>
      simp only at h
      obtain ⟨calls1, hlog1, hcount1⟩ := ih (some e) db1 db' h (Or.inr (by simp))
      refine ⟨calls ++ calls1, by rw [hlog1, hlog, List.append_assoc], ?_⟩
      rw [List.filter_append, List.length_append, hcount1, hzero (by simp)]

/-- A run of the removal loop that returns nil after at least one iteration has
committed exactly one write. -/
theorem removeServerLoop_committed (name portIP : String) :
    ∀ (k : Nat) (err : GoError) (db db' : Db),
      removeServerLoop name portIP k err db = (none, db') →
      (0 < k ∨ err ≠ none) →
      ∃ calls, db'.log = db.log ++ calls ∧
        (calls.filter StoreCall.committed).length = 1 := by
  intro k
  induction k with
  | zero =>
    intro err db db' h hk
    simp only [removeServerLoop, Prod.mk.injEq] at h
    rcases hk with hk | hk
    · omega
    · exact absurd h.1 hk
  | succ k ih =>
    intro err db db' h _
    obtain ⟨calls, hlog, hone, hzero⟩ := removeServerAttempt_committed name portIP db
    unfold removeServerLoop at h
    rcases ha : removeServerAttempt name portIP db with ⟨a, db1⟩
    rw [ha] at h hlog hone hzero
    simp only at hlog hone hzero
    cases a with
    | done e =>
      simp only [Prod.mk.injEq] at h
      obtain ⟨he, hdb⟩ := h
      subst he; subst hdb
      exact ⟨calls, hlog, hone rfl⟩
    | again e =>
      simp only at h
      obtain ⟨calls1, hlog1, hcount1⟩ := ih (some e) db1 db' h (Or.inr (by simp))
      refine ⟨calls ++ calls1, by rw [hlog1, hlog, List.append_assoc], ?_⟩
      rw [List.filter_append, List.length_append, hcount1, hzero (by simp)]

/-- With `MaxTries` at least 1 a nil result does mean one committed write: among
the store calls of an `updateBackendDynamoDB` or a
`removeServerFromBackendDynamoDB` that returns nil, exactly one is a put or a
conditional update that the table committed. -/
theorem nil_result_one_committed_write (MaxTries : Int) (db : Db) (name portIP : String)
    (D : Backend) (ow : Bool) (hMax : 0 < MaxTries) :
    ((updateBackendDynamoDB MaxTries db name D ow).1 = none →
      ((newCalls db (updateBackendDynamoDB MaxTries db name D ow).2).filter
        StoreCall.committed).length = 1) ∧
    ((removeServerFromBackendDynamoDB MaxTries db name portIP).1 = none →
      ((newCalls db (removeServerFromBackendDynamoDB MaxTries db name portIP).2).filter
        StoreCall.committed).length = 1) := by
  constructor
  · intro h
    obtain ⟨calls, hlog, hcount⟩ := updateBackendLoop_committed MaxTries name D ow
      MaxTries.toNat none db (updateBackendDynamoDB MaxTries db name D ow).2
      (by unfold updateBackendDynamoDB at h ⊢; exact Prod.ext h rfl)
      (Or.inl (toNat_pos_of_pos _ hMax))
    rw [newCalls_of_append _ _ calls hlog]
    exact hcount
  · intro h
    obtain ⟨calls, hlog, hcount⟩ := removeServerLoop_committed name portIP
      MaxTries.toNat none db (removeServerFromBackendDynamoDB MaxTries db name portIP).2
      (by unfold removeServerFromBackendDynamoDB at h ⊢; exact Prod.ext h rfl)
      (Or.inl (toNat_pos_of_pos _ hMax))
    rw [newCalls_of_append _ _ calls hlog]
    exact hcount

/-- C22 at its failing input: with `MaxTries = 0` an update and a removal on the
stored record of `hello` return nil, make no store call and leave the record as
it was. -/
theorem nil_result_without_write :
    (updateBackendDynamoDB 0 (dbWith "hello__backend" helloItemAB) "hello"
        (createBackend ["C"]) true).1 = none ∧
    newCalls (dbWith "hello__backend" helloItemAB)
        (updateBackendDynamoDB 0 (dbWith "hello__backend" helloItemAB) "hello"
          (createBackend ["C"]) true).2 = [] ∧
    (updateBackendDynamoDB 0 (dbWith "hello__backend" helloItemAB) "hello"
        (createBackend ["C"]) true).2.store "hello__backend" = some helloItemAB ∧
    (removeServerFromBackendDynamoDB 0 (dbWith "hello__backend" helloItemAB) "hello" "A").1 =
      none ∧
    newCalls (dbWith "hello__backend" helloItemAB)
        (removeServerFromBackendDynamoDB 0 (dbWith "hello__backend" helloItemAB) "hello"
          "A").2 = [] ∧
    (removeServerFromBackendDynamoDB 0 (dbWith "hello__backend" helloItemAB) "hello"
        "A").2.store "hello__backend" = some helloItemAB := by
  decide

/-! ## C23: when a record is put -/

theorem containsChars_append_right (sub s q : List Char) (h : containsChars sub s = true) :
    containsChars sub (s ++ q) = true := by
  induction s with
  | nil =>
    simp only [containsChars, List.isEmpty_iff] at h
    subst h
    cases q <;> simp [containsChars]
  | cons c cs ih =>
    simp only [containsChars, Bool.or_eq_true] at h
    simp only [List.cons_append, containsChars, Bool.or_eq_true]
    rcases h with h | h
    · left
      rw [List.isPrefixOf_iff_prefix] at h ⊢
      exact h.trans (List.prefix_append _ _)
    · right
      exact ih h

theorem Contains_append_right (s q sub : String) (h : Contains s sub = true) :
    Contains (s ++ q) sub = true := by
  unfold Contains at h ⊢
  have happ : (s ++ q).toList = s.toList ++ q.toList := String.data_append s q
  rw [happ]
  exact containsChars_append_right _ _ _ h

/-- For a backend whose name contains `ItemNotFound`, every failure of the fetch
looks like a missing item: whatever the table holds and whatever the failure is,
an attempt of `updateBackendDynamoDB` whose fetch fails in transport goes on to
put a fresh record. -/
theorem updateBackendAttempt_puts_after_fault (MaxTries : Int) (name m : String) (D : Backend)
    (ow : Bool) (db : Db) (hname : Contains name ErrItemNotFound = true)
    (hf : db.tick.fault = some m) :
    updateBackendAttempt MaxTries name D ow db =
      ((Attempt.done
          (createBackendDynamoDB (db.after db.seen (.GetItem (name ++ "__backend") (.err m)))
            name (createBackendItem name D)).1),
        (createBackendDynamoDB (db.after db.seen (.GetItem (name ++ "__backend") (.err m)))
          name (createBackendItem name D)).2) := by
  unfold updateBackendAttempt
  rw [getBackendItem_fault db name m hf]
  have hc : Contains (wrapText (wrapText m "dynamodb.GetItem()") ("getItem(id, " ++ name ++ ")"))
      ErrItemNotFound = true := by
    unfold wrapText
    have h1 : Contains ("getItem(id, " ++ name) ErrItemNotFound = true :=
      Contains_append_left _ _ _ hname
    have h2 := Contains_append_right ("getItem(id, " ++ name)
      (")" ++ ": " ++ ("dynamodb.GetItem()" ++ ": " ++ m)) _ h1
    have heq : "getItem(id, " ++ name ++ ")" ++ ": " ++ ("dynamodb.GetItem()" ++ ": " ++ m) =
        "getItem(id, " ++ name ++ (")" ++ ": " ++ ("dynamodb.GetItem()" ++ ": " ++ m)) := by
      simp [String.append_assoc]
    rw [heq]
    exact h2
  simp only [hc, if_true]

/-- C23 at its failing input: the backend is named `ItemNotFoundPage`, its record
is stored at version 3, and the fetch is throttled. The fetch reports an error,
not a missing item, and yet the next call is a put, which replaces the record
by a fresh one at version 0. -/
theorem updateBackendDynamoDB_puts_over_stored_record :
    (faultyDb (dbWith "ItemNotFoundPage__backend" notFoundPageItem).store
        "ProvisionedThroughputExceededException: rate exceeded").store
        "ItemNotFoundPage__backend" = some notFoundPageItem ∧
    newCalls
        (faultyDb (dbWith "ItemNotFoundPage__backend" notFoundPageItem).store
          "ProvisionedThroughputExceededException: rate exceeded")
        (updateBackendDynamoDB 10
          (faultyDb (dbWith "ItemNotFoundPage__backend" notFoundPageItem).store
            "ProvisionedThroughputExceededException: rate exceeded") "ItemNotFoundPage"
          (createBackend ["C"]) false).2 =
      [.GetItem "ItemNotFoundPage__backend"
          (.err "ProvisionedThroughputExceededException: rate exceeded"),
        .PutItem "ItemNotFoundPage__backend" ⟨"ItemNotFoundPage", 0, createBackend ["C"], none⟩
          none] ∧
    ((updateBackendDynamoDB 10
        (faultyDb (dbWith "ItemNotFoundPage__backend" notFoundPageItem).store
          "ProvisionedThroughputExceededException: rate exceeded") "ItemNotFoundPage"
        (createBackend ["C"]) false).2.store "ItemNotFoundPage__backend").map
        (fun item => (item.version, mapKeys item.backend.Servers)) = some (0, ["C"]) := by
  decide

/-! ## The caches between two derivations -/

/-- The result of `getInstanceID` is read off the ARN map. -/
theorem getInstanceID_fst (util : Util) (inv : Inventory) (arn : String) :
    (getInstanceID util inv arn).1 = idOf util inv.arnToInstanceIDs arn := by
  unfold getInstanceID getInstanceIDs idOf
  cases hc : inv.arnToInstanceIDs arn with
  | some id => simp [hc]
  | none =>
    simp only [List.filterMap_cons, hc, List.filterMap_nil, List.filter_cons, Option.isNone_none,
      if_true, List.filter_nil, List.length_singleton, Nat.lt_irrefl, if_false]
    cases hd : util.ECS.DescribeContainerInstances [arn] with
    | error e => simp
    | ok instances =>
      cases instances with
      | nil => simp
      | cons i rest => simp

/-- The result of `getInstancePrivateIP` is read off the address map. -/
theorem getInstancePrivateIP_fst (util : Util) (inv : Inventory) (id : String) :
    (getInstancePrivateIP util inv id).1 = addressOf util inv.instancePrivateIPs id := by
  unfold getInstancePrivateIP addressOf
  cases hc : inv.instancePrivateIPs id with
  | some address => rfl
  | none =>
    simp only
    cases hd : util.EC2.DescribeInstances [id] with
    | error e => rfl
    | ok rs =>
      cases rs with
      | nil => rfl
      | cons r rest =>
        simp only
        cases hi : r.Instances with
        | nil => rfl
        | cons inst more => rfl

/-- The state `getInstanceID` leaves is the one `getInstanceIDs` leaves. -/
theorem getInstanceID_snd (util : Util) (inv : Inventory) (arn : String) :
    (getInstanceID util inv arn).2 = (getInstanceIDs util inv [arn]).2 := by
  unfold getInstanceID
  rcases getInstanceIDs util inv [arn] with ⟨⟨ids, err⟩, inv1⟩
  cases ids <;> cases err <;> rfl

/-- What `getInstanceID` stores changes no later lookup, when a lookup of one
container instance is answered with at most one instance. -/
theorem getInstanceID_same (util : Util) (inv : Inventory) (arn : String)
    (hapi : AnswersOneInstance util) :
    SameLookups util inv (getInstanceID util inv arn).2 := by
  rw [getInstanceID_snd]
  refine ⟨fun arn1 => ?_, fun id => by rw [(getInstanceIDs_keeps util inv [arn]).2]⟩
  unfold getInstanceIDs
  cases hc : inv.arnToInstanceIDs arn with
  | some id => simp [hc]
  | none =>
    simp only [List.filterMap_cons, hc, List.filterMap_nil, List.filter_cons, Option.isNone_none,
      if_true, List.filter_nil, List.length_singleton, Nat.lt_irrefl, if_false]
    cases hd : util.ECS.DescribeContainerInstances [arn] with
    | error e => rfl
    | ok instances =>
      have hlen := hapi arn instances hd
      cases instances with
      | nil => rfl
      | cons ci rest =>
        cases rest with
        | cons c2 r2 => simp at hlen
        | nil =>
          simp only [List.foldl_cons, List.foldl_nil]
          by_cases hci : [arn].contains ci.ContainerInstanceArn = true
          · rw [if_pos hci]
            have harn : ci.ContainerInstanceArn = arn := by simpa using hci
            unfold idOf cachePut
            by_cases h1 : arn1 = arn
            · subst h1
              simp [harn, hc, hd]
            · simp [harn, h1]
          · rw [if_neg hci]

/-- What `getInstancePrivateIP` stores changes no later lookup. -/
theorem getInstancePrivateIP_same (util : Util) (inv : Inventory) (id : String) :
    SameLookups util inv (getInstancePrivateIP util inv id).2 := by
  refine ⟨fun arn => by rw [(getInstancePrivateIP_keeps util inv id).2], fun id1 => ?_⟩
  unfold getInstancePrivateIP
  cases hc : inv.instancePrivateIPs id with
  | some address => rfl
  | none =>
    simp only
    cases hd : util.EC2.DescribeInstances [id] with
    | error e => rfl
    | ok rs =>
      cases rs with
      | nil => rfl
      | cons r rest =>
        simp only
        cases hi : r.Instances with
        | nil => rfl
        | cons inst more =>
          unfold addressOf cachePut
          by_cases h1 : id1 = id
          · subst h1
            simp [hc, hd, hi]
          · simp [h1]

theorem SameLookups_refl (util : Util) (inv : Inventory) : SameLookups util inv inv :=
  ⟨fun _ => rfl, fun _ => rfl⟩

theorem SameLookups_trans (util : Util) (inv inv1 inv2 : Inventory)
    (h1 : SameLookups util inv inv1) (h2 : SameLookups util inv1 inv2) :
    SameLookups util inv inv2 :=
  ⟨fun arn => (h2.1 arn).trans (h1.1 arn), fun id => (h2.2 id).trans (h1.2 id)⟩

theorem SameLookups_symm (util : Util) (inv inv1 : Inventory)
    (h : SameLookups util inv inv1) : SameLookups util inv1 inv :=
  ⟨fun arn => (h.1 arn).symm, fun id => (h.2 id).symm⟩

/-- The result of `getIP` is read off the two maps. -/
theorem getIP_fst (util : Util) (inv : Inventory) (arn : String) :
    (getIP util inv arn).1 =
      match idOf util inv.arnToInstanceIDs arn with
      | .error e => .error (wrapText e "getInstanceID()")
      | .panic => .panic
      | .ok id =>
        match addressOf util inv.instancePrivateIPs id with
        | .error e => .error (wrapText e "getInstancePrivateIP()")
        | .ok ip => .ok ip := by
  have h1 := getInstanceID_fst util inv arn
  have hP : (getInstanceID util inv arn).2.instancePrivateIPs = inv.instancePrivateIPs := by
    rw [getInstanceID_snd, (getInstanceIDs_keeps util inv [arn]).2]
  unfold getIP
  rcases hi : getInstanceID util inv arn with ⟨res, inv1⟩
  rw [hi] at h1 hP
  simp only at h1 hP
  rw [← h1]
  cases res with
  | error e => rfl
  | panic => rfl
  | ok id =>
    simp only
    have h2 := getInstancePrivateIP_fst util inv1 id
    rw [hP] at h2
    rcases hp : getInstancePrivateIP util inv1 id with ⟨r2, inv2⟩
    rw [hp] at h2
    simp only at h2
    rw [← h2]
    cases r2 <;> rfl

/-- States of the caches that give every lookup the same result give `getIP` the
same result. -/
theorem getIP_congr (util : Util) (inv inv1 : Inventory) (arn : String)
    (h : SameLookups util inv inv1) :
    (getIP util inv1 arn).1 = (getIP util inv arn).1 := by
  rw [getIP_fst, getIP_fst, h.1 arn]
  cases idOf util inv.arnToInstanceIDs arn with
  | error e => rfl
  | panic => rfl
  | ok id => simp only [h.2 id]

/-- What `getIP` stores changes no later lookup. -/
theorem getIP_same (util : Util) (inv : Inventory) (arn : String)
    (hapi : AnswersOneInstance util) :
    SameLookups util inv (getIP util inv arn).2 := by
  have h1 := getInstanceID_same util inv arn hapi
  unfold getIP
  rcases hi : getInstanceID util inv arn with ⟨res, inv1⟩
  rw [hi] at h1
  simp only at h1
  cases res with
  | error e => exact h1
  | panic => exact h1
  | ok id =>
    simp only
    have h2 := getInstancePrivateIP_same util inv1 id
    rcases hp : getInstancePrivateIP util inv1 id with ⟨r2, inv2⟩
    rw [hp] at h2
    simp only at h2
    cases r2 with
    | error e => exact SameLookups_trans util inv inv1 inv2 h1 h2
    | ok ip => exact SameLookups_trans util inv inv1 inv2 h1 h2

/-- The loop of `getAddressOfTasks` returns the same addresses from two states
of the caches that give every lookup the same result. -/
theorem getAddressOfTasksLoop_congr (util : Util) (hapi : AnswersOneInstance util) :
    ∀ (tasks : List Task) (addresses : List String) (inv inv1 : Inventory),
      SameLookups util inv inv1 →
      (getAddressOfTasksLoop util tasks addresses inv1).1 =
          (getAddressOfTasksLoop util tasks addresses inv).1 ∧
        SameLookups util inv (getAddressOfTasksLoop util tasks addresses inv).2 := by
  intro tasks
  induction tasks with
  | nil =>
    intro addresses inv inv1 _
    exact ⟨rfl, SameLookups_refl util inv⟩
  | cons task rest ih =>
    intro addresses inv inv1 h
    by_cases hport : taskPort task = ""
    · simp only [getAddressOfTasksLoop, hport, if_true]
      exact ih addresses inv inv1 h
    · simp only [getAddressOfTasksLoop, hport, if_false]
      have hres := getIP_congr util inv inv1 task.ContainerInstanceArn h
      have hs := getIP_same util inv task.ContainerInstanceArn hapi
      have hs1 := getIP_same util inv1 task.ContainerInstanceArn hapi
      rcases hip : getIP util inv task.ContainerInstanceArn with ⟨res, inv2⟩
      rcases hip1 : getIP util inv1 task.ContainerInstanceArn with ⟨res1, inv3⟩
      rw [hip, hip1] at hres
      rw [hip] at hs
      rw [hip1] at hs1
      simp only at hres hs hs1
      subst hres
      have h23 : SameLookups util inv2 inv3 :=
        SameLookups_trans util inv2 inv1 inv3
          (SameLookups_trans util inv2 inv inv1 (SameLookups_symm util inv inv2 hs) h) hs1
      cases res1 with
      | panic => exact ⟨rfl, hs⟩
      | error e =>
        obtain ⟨he, hsame⟩ := ih addresses inv2 inv3 h23
        exact ⟨he, SameLookups_trans util inv inv2 _ hs hsame⟩
      | ok ip =>
        obtain ⟨he, hsame⟩ := ih (addresses ++ [ip ++ ":" ++ taskPort task]) inv2 inv3 h23
        exact ⟨he, SameLookups_trans util inv inv2 _ hs hsame⟩

/-- Deriving the backend of a service a second time, with the caches the first
derivation left and the same answers of the clients, gives the same result, when
a lookup of one container instance is answered with at most one instance. -/
theorem getBackendECS_again (util : Util) (inv : Inventory) (service : String)
    (hapi : AnswersOneInstance util) :
    (getBackendECS util (getBackendECS util inv service).2 service).1 =
      (getBackendECS util inv service).1 := by
  have key : ∀ inv0 inv1 : Inventory, SameLookups util inv0 inv1 →
      (getBackendECS util inv1 service).1 = (getBackendECS util inv0 service).1 ∧
        SameLookups util inv0 (getBackendECS util inv0 service).2 := by
    intro inv0 inv1 h
    unfold getBackendECS getTaskArns getTasks getAddressOfTasks
    simp only
    rcases eachPage (fun taskArns page lastPage => (taskArns ++ page, lastPage))
        (util.ECS.ListTasksPages (if service ≠ "" then some service else none)).pages
        (util.ECS.ListTasksPages (if service ≠ "" then some service else none)).err []
      with ⟨taskArns, err⟩
    cases err with
    | some e => exact ⟨rfl, ⟨fun _ => rfl, fun _ => rfl⟩⟩
    | none =>
      simp only
      by_cases hlen : taskArns.length = 0
      · simp only [hlen, if_true, getAddressOfTasksLoop]
        exact ⟨trivial, ⟨fun _ => rfl, fun _ => rfl⟩⟩
      · simp only [hlen, if_false]
        cases hd : util.ECS.DescribeTasks taskArns with
        | error e => exact ⟨rfl, ⟨fun _ => rfl, fun _ => rfl⟩⟩
        | ok tasks =>
          simp only
          have hc := getAddressOfTasksLoop_congr util hapi tasks []
            { inv0 with calls := (inv0.calls ++ [.ListTasksPages
                (if service ≠ "" then some service else none)]) ++ [.DescribeTasks taskArns] }
            { inv1 with calls := (inv1.calls ++ [.ListTasksPages
                (if service ≠ "" then some service else none)]) ++ [.DescribeTasks taskArns] }
            ⟨h.1, h.2⟩
          rcases hl0 : getAddressOfTasksLoop util tasks []
            { inv0 with calls := (inv0.calls ++ [.ListTasksPages
                (if service ≠ "" then some service else none)]) ++ [.DescribeTasks taskArns] }
            with ⟨r0, i0⟩
          rcases hl1 : getAddressOfTasksLoop util tasks []
            { inv1 with calls := (inv1.calls ++ [.ListTasksPages
                (if service ≠ "" then some service else none)]) ++ [.DescribeTasks taskArns] }
            with ⟨r1, i1⟩
          rw [hl0, hl1] at hc
          simp only at hc
          obtain ⟨hr, hsame⟩ := hc
          subst hr
          cases r1 with
          | none => exact ⟨rfl, hsame⟩
          | some addresses => exact ⟨rfl, hsame⟩
  have h0 := (key inv inv (SameLookups_refl util inv)).2
  exact (key inv _ h0).1

/-- With no other client writing, an attempt of an update that returns nil
leaves a record at version 0 (a put) or at the version it found plus 1 (a
conditional update), and an attempt that is to be repeated leaves the table as
it was. -/
theorem updateBackendAttempt_version (MaxTries : Int) (name : String) (D : Backend) (ow : Bool)
    (db : Db) (hno : NoInterference db.sched) :
    (∀ db', updateBackendAttempt MaxTries name D ow db = (.done none, db') →
      ∃ item', db'.store (name ++ "__backend") = some item' ∧
        (item'.version = 0 ∨
          ∃ item0, db.store (name ++ "__backend") = some item0 ∧
            item'.version = item0.version + 1)) ∧
    (∀ e db', updateBackendAttempt MaxTries name D ow db = (.again e, db') →
      db'.store = db.store) := by
  have hseen := Db.seen_eq_store db hno
  unfold updateBackendAttempt
  rcases hg : getBackendItem db name with ⟨res, db1⟩
  cases res with
  | error e =>
    simp only
    split
    · rcases hc : createBackendDynamoDB db1 name (createBackendItem name D) with ⟨err, db2⟩
      refine ⟨fun db' h => ?_, fun e1 db' h => by simp at h⟩
      simp only [Prod.mk.injEq, Attempt.done.injEq] at h
      obtain ⟨herr, hdb⟩ := h
      subst herr; subst hdb
      obtain ⟨_, hdb2⟩ := createBackendDynamoDB_none _ _ _ _ hc
      refine ⟨⟨name, 0, D, none⟩, ?_, Or.inl rfl⟩
      rw [hdb2]
      simp [Db.after, Store.set, createBackendItem]
    · exact ⟨fun db' h => by simp at h, fun e1 db' h => by simp at h⟩
  | ok backend =>
    simp only
    obtain ⟨item0, _, hs, _, hb, hdb1⟩ := getBackendItem_ok db name backend db1 hg
    have hno1 : NoInterference db1.sched := by
      rw [hdb1]
      exact NoInterference_of_suffix _ _ (List.tail_suffix _) hno
    have hseen1 : db1.seen = db.store := by
      rw [Db.seen_eq_store db1 hno1, hdb1]
      exact hseen
    have hid : (updatedBackend backend D ow).ID = name ++ "__backend" := by
      have h2 : (updatedBackend backend D ow).ID = backend.ID :=
        congrArg EndItem.ID (updatedBackend_frame backend D ow).1
      rw [h2, hb]; rfl
    have hver : (updatedBackend backend D ow).Version = item0.version := by
      have h2 : (updatedBackend backend D ow).Version = backend.Version :=
        congrArg EndItem.Version (updatedBackend_frame backend D ow).1
      rw [h2, hb]; rfl
    rcases hw : updateBackendWithLock db1 (updatedBackend backend D ow) with ⟨err, db2⟩
    cases err with
    | none =>
      refine ⟨fun db' h => ?_, fun e1 db' h => by simp at h⟩
      simp only [Prod.mk.injEq, true_and] at h
      subst h
      obtain ⟨i, _, _, _, hdb2⟩ := updateBackendWithLock_none _ _ _ hw
      rw [hid] at hdb2
      refine ⟨{ i with version := (updatedBackend backend D ow).Version + 1,
                       backend := (updatedBackend backend D ow).Backend }, ?_, Or.inr ?_⟩
      · rw [hdb2]; simp [Db.after, Store.set]
      · exact ⟨item0, by rw [← hseen]; exact hs, by simp [hver]⟩
    | some e1 =>
      have hst : db2.store = db.store := by
        have heq := updateBackendWithLock_eq db1 (updatedBackend backend D ow)
        rw [hw] at heq
        have h1 : (UpdateItem db1 (updatedBackend backend D ow).ID
            (updatedBackend backend D ow).Version (updatedBackend backend D ow).Backend).1 ≠
            none := by
          intro hnone
          have := congrArg Prod.fst heq
          simp [hnone, Wrap] at this
        have h2 := UpdateItem_failed_store db1 _ _ _ h1
        have h3 : db2 = (UpdateItem db1 (updatedBackend backend D ow).ID
            (updatedBackend backend D ow).Version (updatedBackend backend D ow).Backend).2 :=
          congrArg Prod.snd heq
        rw [h3, h2, hseen1]
      simp only
      split
      · exact ⟨fun db' h => by simp [Wrap] at h, fun e2 db' h => by simp at h⟩
      · refine ⟨fun db' h => by simp at h, fun e2 db' h => ?_⟩
        simp only [Prod.mk.injEq] at h
        rw [← h.2]
        exact hst

/-- With no other client writing, an update that returns nil after at least one
try leaves a record at version 0 or at the version it found plus 1. -/
theorem updateBackendLoop_version (MaxTries : Int) (name : String) (D : Backend) (ow : Bool) :
    ∀ (k : Nat) (err : GoError) (db db' : Db), NoInterference db.sched →
      updateBackendLoop MaxTries name D ow k err db = (none, db') →
      (0 < k ∨ err ≠ none) →
      ∃ item', db'.store (name ++ "__backend") = some item' ∧
        (item'.version = 0 ∨
          ∃ item0, db.store (name ++ "__backend") = some item0 ∧
            item'.version = item0.version + 1) := by
  intro k
  induction k with
  | zero =>
    intro err db db' _ h hk
    simp only [updateBackendLoop, Prod.mk.injEq] at h
    rcases hk with hk | hk
    · omega
    · cases err with
      | none => exact absurd rfl hk
      | some e => simp [Wrap] at h
  | succ k ih =>
    intro err db db' hno h _
    obtain ⟨hdone, hagain⟩ := updateBackendAttempt_version MaxTries name D ow db hno
    have hsuf := updateBackendAttempt_sched_suffix MaxTries name D ow db
    unfold updateBackendLoop at h
    rcases ha : updateBackendAttempt MaxTries name D ow db with ⟨a, db1⟩
    rw [ha] at h hsuf
    cases a with
    | done e =>
      simp only [Prod.mk.injEq] at h
      obtain ⟨he, hdb⟩ := h
      subst he; subst hdb
      exact hdone db1 ha
    | again e =>
      simp only at h hsuf
      have hst := hagain e db1 ha
      obtain ⟨item', h1, h2⟩ := ih (some e) db1 db'
        (NoInterference_of_suffix _ _ hsuf hno) h (Or.inr (by simp))
      rw [hst] at h2
      exact ⟨item', h1, h2⟩

/-! ## C2: round trip -/

/-- C2, amended: round trip. With `MaxTries` at least 1, an ECS client that
answers a lookup of one container instance with at most one instance, a stored
record of the service (if there is one) whose version is below 2^64 - 1, and no
other client writing to the table during the sync: if `sync` returns without
error and afterwards the store is left alone and served and the clients answer
as before, then `diff` returns (true, nil), and the record it reads has a
version below 2^64, one that fits the field `Version uint64`. The caches are
those the sync left; what they were before the sync does not matter. -/
theorem diff_after_sync (util : Util) (w w1 : World) (service : String)
    (hMax : 0 < util.MaxTries)
    (hapi : ∀ arn instances, util.ECS.DescribeContainerInstances [arn] = .ok instances →
      instances.length ≤ 1)
    (hver : ∀ item, w.db.store (service ++ "__backend") = some item →
      item.version + 1 < 2 ^ 64)
    (hno : NoInterference w.db.sched)
    (hsync : sync util w service = (.ok (), w1))
    (hquiet : w1.db.sched = []) :
    (diff util w1 service).1 = .ok true ∧
      ∃ item, w1.db.store (service ++ "__backend") = some item ∧ item.version < 2 ^ 64 := by
  obtain ⟨live, inv1, hlive⟩ := sync_ok_live util w w1 service hsync
  obtain ⟨hinv, item, hst, hsv, hdec⟩ :=
    sync_ok_stored util w w1 service live inv1 hMax hlive hsync
  have hu := hdec hno
  have hversion : item.version < 2 ^ 64 := by
    have hs := hsync
    unfold sync at hs
    rw [hlive] at hs
    simp only at hs
    rcases hup : updateBackendDynamoDB util.MaxTries w.db service live true with ⟨err, db1⟩
    rw [hup] at hs
    cases err with
    | some e => simp at hs
    | none =>
      simp only [Prod.mk.injEq, true_and] at hs
      subst hs
      unfold updateBackendDynamoDB at hup
      obtain ⟨item', h1, h2⟩ := updateBackendLoop_version util.MaxTries service live true _ none
        w.db db1 hno hup (Or.inl (toNat_pos_of_pos _ hMax))
      simp only at hst
      rw [hst] at h1
      cases h1
      rcases h2 with h0 | ⟨item0, hs0, hv0⟩
      · rw [h0]; exact Nat.pos_pow_of_pos 64 (by decide)
      · rw [hv0]; exact hver item0 hs0
  refine ⟨?_, item, hst, hversion⟩
  have hcluster : (getBackendECS util w1.inv service).1 = .ok live := by
    have h := getBackendECS_again util w.inv service hapi
    rw [hlive] at h
    rw [hinv]
    exact h
  rcases hg : getBackendECS util w1.inv service with ⟨res, inv2⟩
  rw [hg] at hcluster
  simp only at hcluster
  subst hcluster
  have htick : w1.db.tick = Tick.quiet := by simp [Db.tick, hquiet]
  have hseen : w1.db.seen = w1.db.store := by simp [Db.seen, htick, Tick.quiet]
  have hf : w1.db.tick.fault = none := by rw [htick]; rfl
  unfold diff getBackend
  rw [hg, getBackendItem_found w1.db service item hf (by rw [hseen]; exact hst) hu]
  simp [Item.toBackendItem, hsv, DeepEqual_self]

/-- Witness of C2 as amended: `hello` has one task at `10.0.0.4:8090` and a
stored record at version 3 with servers `A` and `B`; `sync` succeeds and `diff`
then returns (true, nil). -/
theorem diff_after_sync_witness :
    (sync (helloUtil 10) ⟨freshInventory, dbWith "hello__backend" helloItemAB⟩ "hello").1 =
        .ok () ∧
      (diff (helloUtil 10)
        (sync (helloUtil 10) ⟨freshInventory, dbWith "hello__backend" helloItemAB⟩ "hello").2
        "hello").1 = .ok true :=
  ⟨by decide,
    (diff_after_sync (helloUtil 10) ⟨freshInventory, dbWith "hello__backend" helloItemAB⟩
      (sync (helloUtil 10) ⟨freshInventory, dbWith "hello__backend" helloItemAB⟩ "hello").2
      "hello" (by decide)
      (fun _ instances h => by
        have h1 : [(⟨"myinstancearn", "myinstanceid"⟩ : ContainerInstance)] = instances :=
          Except.ok.inj h
        rw [← h1]
        decide)
      (fun item h => by
        have h1 : some helloItemAB = some item := h
        cases h1
        decide)
      (fun t ht => by cases ht) (Prod.ext (by decide) rfl) rfl).1⟩

/-- Counterexample to C2 as stated: the ECS client answers the lookup of
`myinstancearn` with two instances, `otherarn` first. The sync takes the first
instance returned, stores `10.0.0.9:8090`, caches `myinstanceid` for
`myinstancearn` and returns without error; with the cluster and the store as
they are, `diff` then derives `10.0.0.4:8090` from the cache and returns
(false, nil). -/
theorem diff_after_sync_unasked_instance :
    (sync unaskedUtil freshWorld "hello").1 = .ok () ∧
    (sync unaskedUtil freshWorld "hello").2.db.sched = [] ∧
    ((sync unaskedUtil freshWorld "hello").2.db.store "hello__backend").map
        (fun item => mapKeys item.backend.Servers) = some ["10.0.0.9:8090"] ∧
    (getBackendECS unaskedUtil (sync unaskedUtil freshWorld "hello").2.inv "hello").1 =
      .ok (createBackend ["10.0.0.4:8090"]) ∧
    (diff unaskedUtil (sync unaskedUtil freshWorld "hello").2 "hello").1 = .ok false := by
  refine ⟨by decide, rfl, by decide, by decide, by decide⟩

end EcsTaskTracker
